import Mathlib

/-!
# Resampler coefficient tables of OpenMPT (soundlib/Tables.cpp)

A shallow embedding of `Izero`, `getsinc`, `CResampler::InitFloatmixerTables`,
`CResampler::InitializeTablesFromScratch`, `GetCachedResampler` and
`CResampler::InitializeTablesFromCache`.

Conventions of the embedding.

* `double` and `mixsample_t` values are elements of a linearly ordered field `α`
  (exact arithmetic: rounding of IEEE operations is outside the model).  The
  functions of `<cmath>` that the code calls are passed in as a record `CMath α`.
  All definitions are computable and can be run at `α := ℚ`.
* `Izero` and the body of the loop of `getsinc` are embedded a second time in
  IEEE 754 binary64 arithmetic (`Binary64`, `Izero64`, `getsincCoeff64`), where
  every operation rounds, overflows and underflows as a `double` does.  A
  statement that holds for all arguments in exact arithmetic and fails for some
  `double` arguments is given both ways.
* The `do ... while` loop of `Izero` may run any number of times, so it takes a
  fuel argument and returns `none` when the fuel is exhausted.  Totality is a
  theorem: in an Archimedean field enough fuel always yields a result.
* C arrays are index-to-value maps `Nat → τ`; a store through a pointer is
  `Function.update`.  Statements about a table of `n` entries speak of the
  indices below `n`.
* The preprocessor switches are fields of `BuildConfig`; declarations of
  `Resampler.h`, `WindowedFIR.h` and `Paula.h`, which are not among the sources,
  are parameters (`ResamplerHeader`, `Collaborators`).
-/

namespace OpenMPT

/-- Preprocessor switches that select code in Tables.cpp. -/
structure BuildConfig where
  MODPLUG_TRACKER : Bool
  MPT_INTMIXER : Bool
  MPT_BUILD_FUZZER : Bool
deriving DecidableEq, Repr

/-- The functions of the C math library that getsinc calls. -/
structure CMath (α : Type) where
  sin : α → α
  sqrt : α → α
  atan : α → α

/-- Constants declared in Resampler.h and WindowedFIR.h.  `SINC_TYPE_min` and
`SINC_TYPE_max` are the limits of the integer type `SINC_TYPE` of the
fixed-point build. -/
structure ResamplerHeader where
  SINC_PHASES : Nat
  SINC_QUANTSHIFT : Nat
  SINC_TYPE_min : Int
  SINC_TYPE_max : Int
  WFIR_LUTLEN : Nat
  WFIR_WIDTH : Nat
deriving DecidableEq, Repr

/-- An element of a sinc table.  `SINC_TYPE` is an integer type when
MPT_INTMIXER is defined and the floating-point `mixsample_t` otherwise. -/
inductive SINC_TYPE (α : Type) where
  | fixed (v : Int)
  | flt (v : α)
deriving DecidableEq, Repr

/-- Modelled from the spec: CResamplerSettings is declared in Resampler.h, which
is not among the sources.  The spec names the windowed-FIR cutoff and type as the
settings governing the windowed-FIR table, and says that equality of settings is
field-by-field. -/
structure CResamplerSettings (α : Type) where
  gdWFIRCutoff : α
  gbWFIRType : Nat
deriving DecidableEq, Repr

/-- The windowed-FIR object: the only member Tables.cpp touches is `lut`. -/
structure CWindowedFIR where
  lut : Nat → Int

/-- Member functions of collaborators whose bodies are outside the sources:
`CWindowedFIR::InitTable(cutoff, type)` as a transformer of the lut, and
`Paula::BlepTables::InitTables()` as a transformer of the BLEP tables. -/
structure Collaborators (α B : Type) where
  InitTable : CWindowedFIR → α → Nat → CWindowedFIR
  InitTables : B → B

/-- The state a CResampler member function can read or write: the instance
members and the tables (static members when MODPLUG_TRACKER is defined,
instance members otherwise).  `StaticTablesInitialized` exists only in a
MODPLUG_TRACKER build; `FastSincTablef` only when MPT_INTMIXER is not defined. -/
structure CResampler (α B : Type) where
  m_Settings : CResamplerSettings α
  m_OldSettings : CResamplerSettings α
  m_WindowedFIR : CWindowedFIR
  StaticTablesInitialized : Bool
  gKaiserSinc : Nat → SINC_TYPE α
  gDownsample13x : Nat → SINC_TYPE α
  gDownsample2x : Nat → SINC_TYPE α
  blepTables : B
  FastSincTablef : Nat → α

/-- The literal `CResampler::FastSincTable[256*4]`. -/
def FastSincTable : List Int := [
  (0 : Int), (16384 : Int), (0 : Int), (0 : Int), (-31 : Int), (16383 : Int), (32 : Int), (0 : Int),
  (-63 : Int), (16381 : Int), (65 : Int), (0 : Int), (-93 : Int), (16378 : Int), (100 : Int), (-1 : Int),
  (-124 : Int), (16374 : Int), (135 : Int), (-1 : Int), (-153 : Int), (16368 : Int), (172 : Int), (-3 : Int),
  (-183 : Int), (16361 : Int), (209 : Int), (-4 : Int), (-211 : Int), (16353 : Int), (247 : Int), (-5 : Int),
  (-240 : Int), (16344 : Int), (287 : Int), (-7 : Int), (-268 : Int), (16334 : Int), (327 : Int), (-9 : Int),
  (-295 : Int), (16322 : Int), (368 : Int), (-12 : Int), (-322 : Int), (16310 : Int), (410 : Int), (-14 : Int),
  (-348 : Int), (16296 : Int), (453 : Int), (-17 : Int), (-374 : Int), (16281 : Int), (497 : Int), (-20 : Int),
  (-400 : Int), (16265 : Int), (541 : Int), (-23 : Int), (-425 : Int), (16248 : Int), (587 : Int), (-26 : Int),
  (-450 : Int), (16230 : Int), (634 : Int), (-30 : Int), (-474 : Int), (16210 : Int), (681 : Int), (-33 : Int),
  (-497 : Int), (16190 : Int), (729 : Int), (-37 : Int), (-521 : Int), (16168 : Int), (778 : Int), (-41 : Int),
  (-543 : Int), (16145 : Int), (828 : Int), (-46 : Int), (-566 : Int), (16121 : Int), (878 : Int), (-50 : Int),
  (-588 : Int), (16097 : Int), (930 : Int), (-55 : Int), (-609 : Int), (16071 : Int), (982 : Int), (-60 : Int),
  (-630 : Int), (16044 : Int), (1035 : Int), (-65 : Int), (-651 : Int), (16016 : Int), (1089 : Int), (-70 : Int),
  (-671 : Int), (15987 : Int), (1144 : Int), (-75 : Int), (-691 : Int), (15957 : Int), (1199 : Int), (-81 : Int),
  (-710 : Int), (15926 : Int), (1255 : Int), (-87 : Int), (-729 : Int), (15894 : Int), (1312 : Int), (-93 : Int),
  (-748 : Int), (15861 : Int), (1370 : Int), (-99 : Int), (-766 : Int), (15827 : Int), (1428 : Int), (-105 : Int),
  (-784 : Int), (15792 : Int), (1488 : Int), (-112 : Int), (-801 : Int), (15756 : Int), (1547 : Int), (-118 : Int),
  (-818 : Int), (15719 : Int), (1608 : Int), (-125 : Int), (-834 : Int), (15681 : Int), (1669 : Int), (-132 : Int),
  (-850 : Int), (15642 : Int), (1731 : Int), (-139 : Int), (-866 : Int), (15602 : Int), (1794 : Int), (-146 : Int),
  (-881 : Int), (15561 : Int), (1857 : Int), (-153 : Int), (-896 : Int), (15520 : Int), (1921 : Int), (-161 : Int),
  (-911 : Int), (15477 : Int), (1986 : Int), (-168 : Int), (-925 : Int), (15434 : Int), (2051 : Int), (-176 : Int),
  (-939 : Int), (15390 : Int), (2117 : Int), (-184 : Int), (-952 : Int), (15344 : Int), (2184 : Int), (-192 : Int),
  (-965 : Int), (15298 : Int), (2251 : Int), (-200 : Int), (-978 : Int), (15251 : Int), (2319 : Int), (-208 : Int),
  (-990 : Int), (15204 : Int), (2387 : Int), (-216 : Int), (-1002 : Int), (15155 : Int), (2456 : Int), (-225 : Int),
  (-1014 : Int), (15106 : Int), (2526 : Int), (-234 : Int), (-1025 : Int), (15055 : Int), (2596 : Int), (-242 : Int),
  (-1036 : Int), (15004 : Int), (2666 : Int), (-251 : Int), (-1046 : Int), (14952 : Int), (2738 : Int), (-260 : Int),
  (-1056 : Int), (14899 : Int), (2810 : Int), (-269 : Int), (-1066 : Int), (14846 : Int), (2882 : Int), (-278 : Int),
  (-1075 : Int), (14792 : Int), (2955 : Int), (-287 : Int), (-1084 : Int), (14737 : Int), (3028 : Int), (-296 : Int),
  (-1093 : Int), (14681 : Int), (3102 : Int), (-306 : Int), (-1102 : Int), (14624 : Int), (3177 : Int), (-315 : Int),
  (-1110 : Int), (14567 : Int), (3252 : Int), (-325 : Int), (-1118 : Int), (14509 : Int), (3327 : Int), (-334 : Int),
  (-1125 : Int), (14450 : Int), (3403 : Int), (-344 : Int), (-1132 : Int), (14390 : Int), (3480 : Int), (-354 : Int),
  (-1139 : Int), (14330 : Int), (3556 : Int), (-364 : Int), (-1145 : Int), (14269 : Int), (3634 : Int), (-374 : Int),
  (-1152 : Int), (14208 : Int), (3712 : Int), (-384 : Int), (-1157 : Int), (14145 : Int), (3790 : Int), (-394 : Int),
  (-1163 : Int), (14082 : Int), (3868 : Int), (-404 : Int), (-1168 : Int), (14018 : Int), (3947 : Int), (-414 : Int),
  (-1173 : Int), (13954 : Int), (4027 : Int), (-424 : Int), (-1178 : Int), (13889 : Int), (4107 : Int), (-434 : Int),
  (-1182 : Int), (13823 : Int), (4187 : Int), (-445 : Int), (-1186 : Int), (13757 : Int), (4268 : Int), (-455 : Int),
  (-1190 : Int), (13690 : Int), (4349 : Int), (-465 : Int), (-1193 : Int), (13623 : Int), (4430 : Int), (-476 : Int),
  (-1196 : Int), (13555 : Int), (4512 : Int), (-486 : Int), (-1199 : Int), (13486 : Int), (4594 : Int), (-497 : Int),
  (-1202 : Int), (13417 : Int), (4676 : Int), (-507 : Int), (-1204 : Int), (13347 : Int), (4759 : Int), (-518 : Int),
  (-1206 : Int), (13276 : Int), (4842 : Int), (-528 : Int), (-1208 : Int), (13205 : Int), (4926 : Int), (-539 : Int),
  (-1210 : Int), (13134 : Int), (5010 : Int), (-550 : Int), (-1211 : Int), (13061 : Int), (5094 : Int), (-560 : Int),
  (-1212 : Int), (12989 : Int), (5178 : Int), (-571 : Int), (-1212 : Int), (12915 : Int), (5262 : Int), (-581 : Int),
  (-1213 : Int), (12842 : Int), (5347 : Int), (-592 : Int), (-1213 : Int), (12767 : Int), (5432 : Int), (-603 : Int),
  (-1213 : Int), (12693 : Int), (5518 : Int), (-613 : Int), (-1213 : Int), (12617 : Int), (5603 : Int), (-624 : Int),
  (-1212 : Int), (12542 : Int), (5689 : Int), (-635 : Int), (-1211 : Int), (12466 : Int), (5775 : Int), (-645 : Int),
  (-1210 : Int), (12389 : Int), (5862 : Int), (-656 : Int), (-1209 : Int), (12312 : Int), (5948 : Int), (-667 : Int),
  (-1208 : Int), (12234 : Int), (6035 : Int), (-677 : Int), (-1206 : Int), (12156 : Int), (6122 : Int), (-688 : Int),
  (-1204 : Int), (12078 : Int), (6209 : Int), (-698 : Int), (-1202 : Int), (11999 : Int), (6296 : Int), (-709 : Int),
  (-1200 : Int), (11920 : Int), (6384 : Int), (-720 : Int), (-1197 : Int), (11840 : Int), (6471 : Int), (-730 : Int),
  (-1194 : Int), (11760 : Int), (6559 : Int), (-740 : Int), (-1191 : Int), (11679 : Int), (6647 : Int), (-751 : Int),
  (-1188 : Int), (11598 : Int), (6735 : Int), (-761 : Int), (-1184 : Int), (11517 : Int), (6823 : Int), (-772 : Int),
  (-1181 : Int), (11436 : Int), (6911 : Int), (-782 : Int), (-1177 : Int), (11354 : Int), (6999 : Int), (-792 : Int),
  (-1173 : Int), (11271 : Int), (7088 : Int), (-802 : Int), (-1168 : Int), (11189 : Int), (7176 : Int), (-812 : Int),
  (-1164 : Int), (11106 : Int), (7265 : Int), (-822 : Int), (-1159 : Int), (11022 : Int), (7354 : Int), (-832 : Int),
  (-1155 : Int), (10939 : Int), (7442 : Int), (-842 : Int), (-1150 : Int), (10855 : Int), (7531 : Int), (-852 : Int),
  (-1144 : Int), (10771 : Int), (7620 : Int), (-862 : Int), (-1139 : Int), (10686 : Int), (7709 : Int), (-872 : Int),
  (-1134 : Int), (10602 : Int), (7798 : Int), (-882 : Int), (-1128 : Int), (10516 : Int), (7886 : Int), (-891 : Int),
  (-1122 : Int), (10431 : Int), (7975 : Int), (-901 : Int), (-1116 : Int), (10346 : Int), (8064 : Int), (-910 : Int),
  (-1110 : Int), (10260 : Int), (8153 : Int), (-919 : Int), (-1103 : Int), (10174 : Int), (8242 : Int), (-929 : Int),
  (-1097 : Int), (10088 : Int), (8331 : Int), (-938 : Int), (-1090 : Int), (10001 : Int), (8420 : Int), (-947 : Int),
  (-1083 : Int), (9915 : Int), (8508 : Int), (-956 : Int), (-1076 : Int), (9828 : Int), (8597 : Int), (-965 : Int),
  (-1069 : Int), (9741 : Int), (8686 : Int), (-973 : Int), (-1062 : Int), (9654 : Int), (8774 : Int), (-982 : Int),
  (-1054 : Int), (9566 : Int), (8863 : Int), (-991 : Int), (-1047 : Int), (9479 : Int), (8951 : Int), (-999 : Int),
  (-1039 : Int), (9391 : Int), (9039 : Int), (-1007 : Int), (-1031 : Int), (9303 : Int), (9127 : Int), (-1015 : Int),
  (-1024 : Int), (9216 : Int), (9216 : Int), (-1024 : Int), (-1015 : Int), (9127 : Int), (9303 : Int), (-1031 : Int),
  (-1007 : Int), (9039 : Int), (9391 : Int), (-1039 : Int), (-999 : Int), (8951 : Int), (9479 : Int), (-1047 : Int),
  (-991 : Int), (8863 : Int), (9566 : Int), (-1054 : Int), (-982 : Int), (8774 : Int), (9654 : Int), (-1062 : Int),
  (-973 : Int), (8686 : Int), (9741 : Int), (-1069 : Int), (-965 : Int), (8597 : Int), (9828 : Int), (-1076 : Int),
  (-956 : Int), (8508 : Int), (9915 : Int), (-1083 : Int), (-947 : Int), (8420 : Int), (10001 : Int), (-1090 : Int),
  (-938 : Int), (8331 : Int), (10088 : Int), (-1097 : Int), (-929 : Int), (8242 : Int), (10174 : Int), (-1103 : Int),
  (-919 : Int), (8153 : Int), (10260 : Int), (-1110 : Int), (-910 : Int), (8064 : Int), (10346 : Int), (-1116 : Int),
  (-901 : Int), (7975 : Int), (10431 : Int), (-1122 : Int), (-891 : Int), (7886 : Int), (10516 : Int), (-1128 : Int),
  (-882 : Int), (7798 : Int), (10602 : Int), (-1134 : Int), (-872 : Int), (7709 : Int), (10686 : Int), (-1139 : Int),
  (-862 : Int), (7620 : Int), (10771 : Int), (-1144 : Int), (-852 : Int), (7531 : Int), (10855 : Int), (-1150 : Int),
  (-842 : Int), (7442 : Int), (10939 : Int), (-1155 : Int), (-832 : Int), (7354 : Int), (11022 : Int), (-1159 : Int),
  (-822 : Int), (7265 : Int), (11106 : Int), (-1164 : Int), (-812 : Int), (7176 : Int), (11189 : Int), (-1168 : Int),
  (-802 : Int), (7088 : Int), (11271 : Int), (-1173 : Int), (-792 : Int), (6999 : Int), (11354 : Int), (-1177 : Int),
  (-782 : Int), (6911 : Int), (11436 : Int), (-1181 : Int), (-772 : Int), (6823 : Int), (11517 : Int), (-1184 : Int),
  (-761 : Int), (6735 : Int), (11598 : Int), (-1188 : Int), (-751 : Int), (6647 : Int), (11679 : Int), (-1191 : Int),
  (-740 : Int), (6559 : Int), (11760 : Int), (-1194 : Int), (-730 : Int), (6471 : Int), (11840 : Int), (-1197 : Int),
  (-720 : Int), (6384 : Int), (11920 : Int), (-1200 : Int), (-709 : Int), (6296 : Int), (11999 : Int), (-1202 : Int),
  (-698 : Int), (6209 : Int), (12078 : Int), (-1204 : Int), (-688 : Int), (6122 : Int), (12156 : Int), (-1206 : Int),
  (-677 : Int), (6035 : Int), (12234 : Int), (-1208 : Int), (-667 : Int), (5948 : Int), (12312 : Int), (-1209 : Int),
  (-656 : Int), (5862 : Int), (12389 : Int), (-1210 : Int), (-645 : Int), (5775 : Int), (12466 : Int), (-1211 : Int),
  (-635 : Int), (5689 : Int), (12542 : Int), (-1212 : Int), (-624 : Int), (5603 : Int), (12617 : Int), (-1213 : Int),
  (-613 : Int), (5518 : Int), (12693 : Int), (-1213 : Int), (-603 : Int), (5432 : Int), (12767 : Int), (-1213 : Int),
  (-592 : Int), (5347 : Int), (12842 : Int), (-1213 : Int), (-581 : Int), (5262 : Int), (12915 : Int), (-1212 : Int),
  (-571 : Int), (5178 : Int), (12989 : Int), (-1212 : Int), (-560 : Int), (5094 : Int), (13061 : Int), (-1211 : Int),
  (-550 : Int), (5010 : Int), (13134 : Int), (-1210 : Int), (-539 : Int), (4926 : Int), (13205 : Int), (-1208 : Int),
  (-528 : Int), (4842 : Int), (13276 : Int), (-1206 : Int), (-518 : Int), (4759 : Int), (13347 : Int), (-1204 : Int),
  (-507 : Int), (4676 : Int), (13417 : Int), (-1202 : Int), (-497 : Int), (4594 : Int), (13486 : Int), (-1199 : Int),
  (-486 : Int), (4512 : Int), (13555 : Int), (-1196 : Int), (-476 : Int), (4430 : Int), (13623 : Int), (-1193 : Int),
  (-465 : Int), (4349 : Int), (13690 : Int), (-1190 : Int), (-455 : Int), (4268 : Int), (13757 : Int), (-1186 : Int),
  (-445 : Int), (4187 : Int), (13823 : Int), (-1182 : Int), (-434 : Int), (4107 : Int), (13889 : Int), (-1178 : Int),
  (-424 : Int), (4027 : Int), (13954 : Int), (-1173 : Int), (-414 : Int), (3947 : Int), (14018 : Int), (-1168 : Int),
  (-404 : Int), (3868 : Int), (14082 : Int), (-1163 : Int), (-394 : Int), (3790 : Int), (14145 : Int), (-1157 : Int),
  (-384 : Int), (3712 : Int), (14208 : Int), (-1152 : Int), (-374 : Int), (3634 : Int), (14269 : Int), (-1145 : Int),
  (-364 : Int), (3556 : Int), (14330 : Int), (-1139 : Int), (-354 : Int), (3480 : Int), (14390 : Int), (-1132 : Int),
  (-344 : Int), (3403 : Int), (14450 : Int), (-1125 : Int), (-334 : Int), (3327 : Int), (14509 : Int), (-1118 : Int),
  (-325 : Int), (3252 : Int), (14567 : Int), (-1110 : Int), (-315 : Int), (3177 : Int), (14624 : Int), (-1102 : Int),
  (-306 : Int), (3102 : Int), (14681 : Int), (-1093 : Int), (-296 : Int), (3028 : Int), (14737 : Int), (-1084 : Int),
  (-287 : Int), (2955 : Int), (14792 : Int), (-1075 : Int), (-278 : Int), (2882 : Int), (14846 : Int), (-1066 : Int),
  (-269 : Int), (2810 : Int), (14899 : Int), (-1056 : Int), (-260 : Int), (2738 : Int), (14952 : Int), (-1046 : Int),
  (-251 : Int), (2666 : Int), (15004 : Int), (-1036 : Int), (-242 : Int), (2596 : Int), (15055 : Int), (-1025 : Int),
  (-234 : Int), (2526 : Int), (15106 : Int), (-1014 : Int), (-225 : Int), (2456 : Int), (15155 : Int), (-1002 : Int),
  (-216 : Int), (2387 : Int), (15204 : Int), (-990 : Int), (-208 : Int), (2319 : Int), (15251 : Int), (-978 : Int),
  (-200 : Int), (2251 : Int), (15298 : Int), (-965 : Int), (-192 : Int), (2184 : Int), (15344 : Int), (-952 : Int),
  (-184 : Int), (2117 : Int), (15390 : Int), (-939 : Int), (-176 : Int), (2051 : Int), (15434 : Int), (-925 : Int),
  (-168 : Int), (1986 : Int), (15477 : Int), (-911 : Int), (-161 : Int), (1921 : Int), (15520 : Int), (-896 : Int),
  (-153 : Int), (1857 : Int), (15561 : Int), (-881 : Int), (-146 : Int), (1794 : Int), (15602 : Int), (-866 : Int),
  (-139 : Int), (1731 : Int), (15642 : Int), (-850 : Int), (-132 : Int), (1669 : Int), (15681 : Int), (-834 : Int),
  (-125 : Int), (1608 : Int), (15719 : Int), (-818 : Int), (-118 : Int), (1547 : Int), (15756 : Int), (-801 : Int),
  (-112 : Int), (1488 : Int), (15792 : Int), (-784 : Int), (-105 : Int), (1428 : Int), (15827 : Int), (-766 : Int),
  (-99 : Int), (1370 : Int), (15861 : Int), (-748 : Int), (-93 : Int), (1312 : Int), (15894 : Int), (-729 : Int),
  (-87 : Int), (1255 : Int), (15926 : Int), (-710 : Int), (-81 : Int), (1199 : Int), (15957 : Int), (-691 : Int),
  (-75 : Int), (1144 : Int), (15987 : Int), (-671 : Int), (-70 : Int), (1089 : Int), (16016 : Int), (-651 : Int),
  (-65 : Int), (1035 : Int), (16044 : Int), (-630 : Int), (-60 : Int), (982 : Int), (16071 : Int), (-609 : Int),
  (-55 : Int), (930 : Int), (16097 : Int), (-588 : Int), (-50 : Int), (878 : Int), (16121 : Int), (-566 : Int),
  (-46 : Int), (828 : Int), (16145 : Int), (-543 : Int), (-41 : Int), (778 : Int), (16168 : Int), (-521 : Int),
  (-37 : Int), (729 : Int), (16190 : Int), (-497 : Int), (-33 : Int), (681 : Int), (16210 : Int), (-474 : Int),
  (-30 : Int), (634 : Int), (16230 : Int), (-450 : Int), (-26 : Int), (587 : Int), (16248 : Int), (-425 : Int),
  (-23 : Int), (541 : Int), (16265 : Int), (-400 : Int), (-20 : Int), (497 : Int), (16281 : Int), (-374 : Int),
  (-17 : Int), (453 : Int), (16296 : Int), (-348 : Int), (-14 : Int), (410 : Int), (16310 : Int), (-322 : Int),
  (-12 : Int), (368 : Int), (16322 : Int), (-295 : Int), (-9 : Int), (327 : Int), (16334 : Int), (-268 : Int),
  (-7 : Int), (287 : Int), (16344 : Int), (-240 : Int), (-5 : Int), (247 : Int), (16353 : Int), (-211 : Int),
  (-4 : Int), (209 : Int), (16361 : Int), (-183 : Int), (-3 : Int), (172 : Int), (16368 : Int), (-153 : Int),
  (-1 : Int), (135 : Int), (16374 : Int), (-124 : Int), (-1 : Int), (100 : Int), (16378 : Int), (-93 : Int),
  (0 : Int), (65 : Int), (16381 : Int), (-63 : Int), (0 : Int), (32 : Int), (16383 : Int), (-31 : Int)
]

section
variable {α : Type} [LinearOrderedField α]

/-- The body of the `do ... while(ds > 1E-7 * s)` loop of `Izero`, run at most
`fuel` times from the loop state `(s, ds, d)`. -/
def IzeroLoop (y : α) : Nat → α → α → α → Option α
  | 0, _, _, _ => none
  | fuel + 1, s, ds, d =>
    let d := d + 2
    let ds := ds * (y * y) / (d * d)
    let s := s + ds
    if ds > 1E-7 * s then IzeroLoop y fuel s ds d else some s

/-- `double Izero(double y)`: `s = 1, ds = 1, d = 0`, then the loop. -/
def Izero (fuel : Nat) (y : α) : Option α :=
  IzeroLoop y fuel 1 1 0

/-- The clamp at the head of getsinc: `if(cutoff >= 0.999) cutoff = 0.999;`. -/
def getsincCutoff (cutoff : α) : α :=
  if cutoff ≥ 0.999 then 0.999 else cutoff

/-- The local `ix` of getsinc: `ix = 7 - (isrc & 7); ix = ix * SINC_PHASES + (isrc >> 3)`. -/
def getsincIx (SINC_PHASES isrc : Nat) : Int :=
  let ix : Int := 7 - ((isrc &&& 7 : Nat) : Int)
  (ix * (SINC_PHASES : Int)) + ((isrc >>> 3 : Nat) : Int)

/-- The local `x` of getsinc, computed from the kernel offset `ix`:
`(double)(ix - 4 * SINC_PHASES) * (double)(1.0 / SINC_PHASES)`. -/
def getsincX (SINC_PHASES : Nat) (ix : Int) : α :=
  (((ix - 4 * (SINC_PHASES : Int) : Int) : α)) * (1 / (SINC_PHASES : α))

/-- The local `fsinc` of getsinc, computed from the kernel offset `ix`. -/
def getsincFsinc (m : CMath α) (SINC_PHASES fuel : Nat) (beta izeroBeta kPi : α)
    (ix : Int) : Option α :=
  if ix = 4 * (SINC_PHASES : Int) then
    some 1
  else
    let x : α := getsincX SINC_PHASES ix
    let xPi := x * kPi
    (Izero fuel (beta * m.sqrt (1 - x * x * (1 / 16)))).map
      fun iz => m.sin xPi * iz / (izeroBeta * xPi)

/-- The local `coeff` of getsinc, computed from the kernel offset `ix`:
`fsinc * cutoff`, with `cutoff` already clamped. -/
def getsincCoeff (m : CMath α) (SINC_PHASES fuel : Nat) (beta cutoff izeroBeta kPi : α)
    (ix : Int) : Option α :=
  (getsincFsinc m SINC_PHASES fuel beta izeroBeta kPi ix).map fun fsinc => fsinc * cutoff

/-- The unquantised coefficient a call `getsinc(psinc, beta, cutoff)` computes
for the kernel offset `ix`: the clamp, `izeroBeta` and `kPi` of the function
head, then `coeff`. -/
def getsincCoeffAt (m : CMath α) (SINC_PHASES fuel : Nat) (beta cutoff : α) (ix : Int) :
    Option α :=
  let cutoff := getsincCutoff cutoff
  (Izero fuel beta).bind fun izeroBeta =>
    let kPi := 4 * m.atan 1 * cutoff
    getsincCoeff m SINC_PHASES fuel beta cutoff izeroBeta kPi ix

/-- Modelled from the spec: mpt::saturate_round is defined outside the sources.
The spec describes it as rounding half away from zero and saturating to the
range of the destination integer type, here `[lo, hi]`. -/
def saturate_round [FloorRing α] (lo hi : Int) (v : α) : Int :=
  let r : Int := if 0 ≤ v then ⌊v + 1 / 2⌋ else ⌈v - 1 / 2⌉
  if r < lo then lo else if hi < r then hi else r

/-- The value stored by `*psinc++ = ...`: the saturating round of
`coeff * (1 << SINC_QUANTSHIFT)` under MPT_INTMIXER, the coefficient itself
otherwise (`static_cast<SINC_TYPE>(coeff)`; in exact arithmetic the conversion
to the narrower floating-point type is the identity, its rounding is not
modelled). -/
def getsincStore [FloorRing α] (cfg : BuildConfig) (H : ResamplerHeader) (coeff : α) :
    SINC_TYPE α :=
  if cfg.MPT_INTMIXER then
    SINC_TYPE.fixed (saturate_round H.SINC_TYPE_min H.SINC_TYPE_max
      (coeff * (((1 <<< H.SINC_QUANTSHIFT : Nat) : α))))
  else
    SINC_TYPE.flt coeff

/-- The `for(isrc = 0; isrc < n; isrc++)` loop of getsinc: the buffer after the
first `n` iterations, iteration `isrc` storing at position `isrc`. -/
def getsincLoop [FloorRing α] (m : CMath α) (cfg : BuildConfig) (H : ResamplerHeader)
    (fuel : Nat) (beta cutoff izeroBeta kPi : α) (psinc : Nat → SINC_TYPE α) :
    Nat → Option (Nat → SINC_TYPE α)
  | 0 => some psinc
  | isrc + 1 =>
    (getsincLoop m cfg H fuel beta cutoff izeroBeta kPi psinc isrc).bind fun buf =>
      (getsincCoeff m H.SINC_PHASES fuel beta cutoff izeroBeta kPi
          (getsincIx H.SINC_PHASES isrc)).map fun coeff =>
        Function.update buf isrc (getsincStore cfg H coeff)

/-- `static void getsinc(SINC_TYPE *psinc, double beta, double cutoff)`. -/
def getsinc [FloorRing α] (m : CMath α) (cfg : BuildConfig) (H : ResamplerHeader)
    (fuel : Nat) (psinc : Nat → SINC_TYPE α) (beta cutoff : α) :
    Option (Nat → SINC_TYPE α) :=
  let cutoff := getsincCutoff cutoff
  (Izero fuel beta).bind fun izeroBeta =>
    let kPi := 4 * m.atan 1 * cutoff
    getsincLoop m cfg H fuel beta cutoff izeroBeta kPi psinc (8 * H.SINC_PHASES)

/-- The loop of InitFloatmixerTables: the first `n` entries of the float mirror
are written from FastSincTable. -/
def InitFloatmixerTablesLoop (tbl : Nat → α) : Nat → (Nat → α)
  | 0 => tbl
  | i + 1 =>
    Function.update (InitFloatmixerTablesLoop tbl i) i
      (((FastSincTable.getD i 0 : Int) : α) * (1 / 16384))

/-- `void CResampler::InitFloatmixerTables()`. -/
def InitFloatmixerTables {B : Type} (cfg : BuildConfig) (self : CResampler α B) :
    CResampler α B :=
  if cfg.MPT_BUILD_FUZZER then self
  else if cfg.MPT_INTMIXER then self
  else { self with
    FastSincTablef := InitFloatmixerTablesLoop self.FastSincTablef FastSincTable.length }

/-- The local `initParameterIndependentTables` of InitializeTablesFromScratch
when control reaches MPT_MAYBE_CONSTANT_IF. -/
def initParameterIndependentTables (cfg : BuildConfig) (StaticTablesInitialized force : Bool) :
    Bool :=
  let init := false
  let init := if force then true else init
  if cfg.MODPLUG_TRACKER then !StaticTablesInitialized else init

/-- The block guarded by `MPT_MAYBE_CONSTANT_IF(initParameterIndependentTables)`. -/
def initTablesBlock [FloorRing α] {B : Type} (m : CMath α) (cfg : BuildConfig)
    (H : ResamplerHeader) (X : Collaborators α B) (fuel : Nat) (self : CResampler α B) :
    Option (CResampler α B) :=
  let self := InitFloatmixerTables cfg self
  let self := { self with blepTables := X.InitTables self.blepTables }
  (getsinc m cfg H fuel self.gKaiserSinc 9.6377 0.97).bind fun kaiser =>
  (getsinc m cfg H fuel self.gDownsample13x 8.5 0.5).bind fun down13 =>
  (getsinc m cfg H fuel self.gDownsample2x 7.0 0.425).map fun down2 =>
    { self with
      gKaiserSinc := kaiser, gDownsample13x := down13, gDownsample2x := down2,
      StaticTablesInitialized :=
        if cfg.MODPLUG_TRACKER then true else self.StaticTablesInitialized }

/-- The tail of InitializeTablesFromScratch, from
`if((m_OldSettings == m_Settings) && !force) return;` on. -/
def initWindowedFIR {B : Type} (X : Collaborators α B) (self : CResampler α B) (force : Bool) :
    CResampler α B :=
  if (self.m_OldSettings == self.m_Settings) && !force then
    self
  else
    { self with
      m_WindowedFIR :=
        X.InitTable self.m_WindowedFIR self.m_Settings.gdWFIRCutoff self.m_Settings.gbWFIRType,
      m_OldSettings := self.m_Settings }

/-- `void CResampler::InitializeTablesFromScratch(bool force)`. -/
def InitializeTablesFromScratch [FloorRing α] {B : Type} (m : CMath α) (cfg : BuildConfig)
    (H : ResamplerHeader) (X : Collaborators α B) (fuel : Nat) (self : CResampler α B)
    (force : Bool) : Option (CResampler α B) :=
  (if initParameterIndependentTables cfg self.StaticTablesInitialized force then
      initTablesBlock m cfg H X fuel self
    else
      some self).map fun self => initWindowedFIR X self force

/-- `std::copy(src, src + n, dst)` on index-to-value maps: the first `n`
entries of `dst` are replaced by those of `src`. -/
def std_copy {τ : Type} (n : Nat) (src dst : Nat → τ) : Nat → τ :=
  fun i => if i < n then src i else dst i

/-- Modelled from the spec: the constructor `CResampler(bool)` is declared in
Resampler.h, which is not among the sources.  The spec says that construction
with `true` performs the full table computation, `InitializeTablesFromScratch(true)`;
`raw` is the object before its constructor body runs. -/
def CResampler_construct_fresh [FloorRing α] {B : Type} (m : CMath α) (cfg : BuildConfig)
    (H : ResamplerHeader) (X : Collaborators α B) (fuel : Nat) (raw : CResampler α B) :
    Option (CResampler α B) :=
  InitializeTablesFromScratch m cfg H X fuel raw true

/-- `static const CResampler & GetCachedResampler()`.  The function-local static
`s_CachedResampler` is `none` until the first call constructs it. -/
def GetCachedResampler [FloorRing α] {B : Type} (m : CMath α) (cfg : BuildConfig)
    (H : ResamplerHeader) (X : Collaborators α B) (fuel : Nat) (raw : CResampler α B)
    (s_CachedResampler : Option (CResampler α B)) : Option (CResampler α B) :=
  match s_CachedResampler with
  | some cached => some cached
  | none => CResampler_construct_fresh m cfg H X fuel raw

/-- The statements of InitializeTablesFromCache that follow the call of
GetCachedResampler: InitFloatmixerTables, the four `std::copy` calls and the
assignment of `blepTables`. -/
def copyFromCachedResampler {B : Type} (cfg : BuildConfig) (H : ResamplerHeader)
    (s_CachedResampler self : CResampler α B) : CResampler α B :=
  let self := InitFloatmixerTables cfg self
  { self with
    gKaiserSinc := std_copy (H.SINC_PHASES * 8) s_CachedResampler.gKaiserSinc self.gKaiserSinc,
    gDownsample13x :=
      std_copy (H.SINC_PHASES * 8) s_CachedResampler.gDownsample13x self.gDownsample13x,
    gDownsample2x :=
      std_copy (H.SINC_PHASES * 8) s_CachedResampler.gDownsample2x self.gDownsample2x,
    m_WindowedFIR :=
      { lut := std_copy (H.WFIR_LUTLEN * H.WFIR_WIDTH) s_CachedResampler.m_WindowedFIR.lut
          self.m_WindowedFIR.lut },
    blepTables := s_CachedResampler.blepTables }

/-- `void CResampler::InitializeTablesFromCache()`: the calling instance after
the call, paired with the cached instance (the value of the static afterwards). -/
def InitializeTablesFromCache [FloorRing α] {B : Type} (m : CMath α) (cfg : BuildConfig)
    (H : ResamplerHeader) (X : Collaborators α B) (fuel : Nat) (raw : CResampler α B)
    (s_CachedResampler : Option (CResampler α B)) (self : CResampler α B) :
    Option (CResampler α B × CResampler α B) :=
  (GetCachedResampler m cfg H X fuel raw s_CachedResampler).map fun cached =>
    (copyFromCachedResampler cfg H cached self, cached)

end

/-! ## The loop state of `Izero` -/

section
variable {α : Type} [LinearOrderedField α]

/-- The locals `(s, ds, d)` of `Izero` after `n` executions of the loop body:
`s = 1, ds = 1, d = 0` initially, then `d = d + 2; ds = ds * (y * y) / (d * d);
s = s + ds` each time. -/
def IzeroState (y : α) : Nat → α × α × α
  | 0 => (1, 1, 0)
  | n + 1 =>
    ((IzeroState y n).1
        + (IzeroState y n).2.1 * (y * y)
          / (((IzeroState y n).2.2 + 2) * ((IzeroState y n).2.2 + 2)),
      (IzeroState y n).2.1 * (y * y)
        / (((IzeroState y n).2.2 + 2) * ((IzeroState y n).2.2 + 2)),
      (IzeroState y n).2.2 + 2)

end

/-! ## Properties of table rows and of table values -/

/-- A check of every row of four consecutive entries of a table, used to decide
properties of `FastSincTable` row by row. -/
def rowsAll (P : Int → Int → Int → Int → Bool) : List Int → Bool
  | a :: b :: c :: d :: rest => P a b c d && rowsAll P rest
  | _ => true

/-- The finite values of the IEEE binary32 format (`float`): an integer
significand below `2^24` in magnitude times a power of two with exponent between
-149 and 104. -/
def representableBinary32 {α : Type} [LinearOrderedField α] (q : α) : Prop :=
  ∃ m e : Int, |m| < 2 ^ 24 ∧ -149 ≤ e ∧ e ≤ 104 ∧ q = (m : α) * (2 : α) ^ e

/-! ## The kernel as the specification words it -/

section
variable {α : Type} [LinearOrderedField α]

/-- The windowed-sinc kernel in the words of the specification (used to compare
with the code): `cutoff * sin(x*cutoff*π) / (x*cutoff*π)` windowed by
`I0(β·sqrt(1 - (x/16)²)) / I0(β)`, with the code's `π = 4 * atan(1)` and `I0 = Izero`. -/
def specKernel (m : CMath α) (fuel : Nat) (beta cutoff x : α) : Option α :=
  let pi := 4 * m.atan 1
  (Izero fuel (beta * m.sqrt (1 - (x / 16) ^ 2))).bind fun w =>
    (Izero fuel beta).map fun i0 =>
      cutoff * m.sin (x * cutoff * pi) / (x * cutoff * pi) * w / i0

end

/-! ## Concrete inputs

Small inputs at `α := ℚ` on which the definitions run; the examples below the
general theorems are stated on them. -/

/-- A rational stand-in for the C math library: truncated series for `sin`, a
linear stand-in for `sqrt`, and `355 / 452` for `atan(1)`. -/
def ratMath : CMath ℚ where
  sin := fun x => x - x ^ 3 / 6 + x ^ 5 / 120
  sqrt := fun x => (1 + x) / 2
  atan := fun _ => 355 / 452

/-- Header constants with a 16-bit `SINC_TYPE` and 256 phases. -/
def header16 : ResamplerHeader where
  SINC_PHASES := 256
  SINC_QUANTSHIFT := 15
  SINC_TYPE_min := -32768
  SINC_TYPE_max := 32767
  WFIR_LUTLEN := 4
  WFIR_WIDTH := 8

/-- Collaborators over `ℚ` with a recognisable windowed-FIR table: every entry
of the lut becomes the filter type plus one. -/
def ratCollaborators : Collaborators ℚ Unit where
  InitTable := fun _ _ type => { lut := fun _ => (type : Int) + 1 }
  InitTables := fun b => b

/-- The tracker build with the floating-point mixer. -/
def trackerBuild : BuildConfig where
  MODPLUG_TRACKER := true
  MPT_INTMIXER := false
  MPT_BUILD_FUZZER := false

/-- The library build with the floating-point mixer. -/
def libraryBuild : BuildConfig where
  MODPLUG_TRACKER := false
  MPT_INTMIXER := false
  MPT_BUILD_FUZZER := false

/-- The library build with the fixed-point mixer. -/
def libraryIntBuild : BuildConfig where
  MODPLUG_TRACKER := false
  MPT_INTMIXER := true
  MPT_BUILD_FUZZER := false

/-- A resampler whose tables are all zero and whose settings were never applied;
`initialised` is the value of `StaticTablesInitialized`. -/
def zeroResampler (initialised : Bool) : CResampler ℚ Unit where
  m_Settings := { gdWFIRCutoff := 97 / 100, gbWFIRType := 7 }
  m_OldSettings := { gdWFIRCutoff := 97 / 100, gbWFIRType := 7 }
  m_WindowedFIR := { lut := fun _ => 0 }
  StaticTablesInitialized := initialised
  gKaiserSinc := fun _ => SINC_TYPE.flt 0
  gDownsample13x := fun _ => SINC_TYPE.flt 0
  gDownsample2x := fun _ => SINC_TYPE.flt 0
  blepTables := ()
  FastSincTablef := fun _ => 0

/-- The fuzzing build of the library: MPT_BUILD_FUZZER defined, floating-point
mixer. -/
def fuzzerBuild : BuildConfig where
  MODPLUG_TRACKER := false
  MPT_INTMIXER := false
  MPT_BUILD_FUZZER := true

/-- A resampler with all-zero tables whose settings select filter type 3. -/
def otherSettingsResampler : CResampler ℚ Unit :=
  { zeroResampler false with
    m_Settings := { gdWFIRCutoff := 1 / 2, gbWFIRType := 3 },
    m_OldSettings := { gdWFIRCutoff := 1 / 4, gbWFIRType := 2 } }

/-! ## File format information -/

/-- The preprocessor switches the format tables of Tables.cpp depend on, next
to MODPLUG_TRACKER. -/
structure FormatSwitches where
  MPT_EXTERNAL_SAMPLES : Bool
  NO_ARCHIVE_SUPPORT : Bool

/-- `struct ModFormatInfo`: the name of a format and its file extension. -/
structure ModFormatInfo where
  name : String
  extension : String

/-- `enum class ModContainerType`, as far as `modContainerInfo` uses it. -/
inductive ModContainerType where
  | UMX | XPK | PP20 | MMCMP | WAV | UAX | Generic
  deriving DecidableEq

/-- `struct ModContainerInfo`. -/
structure ModContainerInfo where
  format : ModContainerType
  name : String
  extension : String

/-- `static constexpr ModFormatInfo modFormatInfo[]`; the entry for `itp` is
present under MPT_EXTERNAL_SAMPLES, the compressed modules unless
NO_ARCHIVE_SUPPORT. -/
def modFormatInfo (sw : FormatSwitches) : List ModFormatInfo :=
  [
  ⟨"OpenMPT", "mptm"⟩,
  ⟨"ProTracker", "mod"⟩,
  ⟨"Scream Tracker 3", "s3m"⟩,
  ⟨"FastTracker 2", "xm"⟩,
  ⟨"Impulse Tracker", "it"⟩,
  ⟨"Composer 669 / UNIS 669", "669"⟩,
  ⟨"ASYLUM Music Format", "amf"⟩,
  ⟨"DSMI Advanced Music Format", "amf"⟩,
  ⟨"Extreme's Tracker", "ams"⟩,
  ⟨"Velvet Studio", "ams"⟩,
  ⟨"CDFM / Composer 670", "c67"⟩,
  ⟨"DigiBooster Pro", "dbm"⟩,
  ⟨"DigiBooster", "digi"⟩,
  ⟨"X-Tracker", "dmf"⟩,
  ⟨"DSMI Compact Advanced Music Format", "dmf"⟩,
  ⟨"DSIK Format", "dsm"⟩,
  ⟨"Digital Symphony", "dsym"⟩,
  ⟨"Digital Tracker", "dtm"⟩,
  ⟨"Farandole Composer", "far"⟩,
  ⟨"FM Tracker", "fmt"⟩,
  ⟨"Imago Orpheus", "imf"⟩,
  ⟨"Ice Tracker", "ice"⟩
  ]
  ++ (if sw.MPT_EXTERNAL_SAMPLES then [⟨"Impulse Tracker Project", "itp"⟩] else [])
  ++ [
  ⟨"Galaxy Sound System", "j2b"⟩,
  ⟨"Soundtracker", "m15"⟩,
  ⟨"Digitrakker", "mdl"⟩,
  ⟨"OctaMED", "med"⟩,
  ⟨"MultiMedia Sound", "mms"⟩,
  ⟨"MadTracker 2", "mt2"⟩,
  ⟨"MultiTracker", "mtm"⟩,
  ⟨"Karl Morton Music Format", "mus"⟩,
  ⟨"NoiseTracker", "nst"⟩,
  ⟨"Oktalyzer", "okt"⟩,
  ⟨"Disorder Tracker 2", "plm"⟩,
  ⟨"Epic Megagames MASI", "psm"⟩,
  ⟨"ProTracker", "pt36"⟩,
  ⟨"PolyTracker", "ptm"⟩,
  ⟨"SoundFX", "sfx"⟩,
  ⟨"SoundFX", "sfx2"⟩,
  ⟨"SoundTracker 2.6", "st26"⟩,
  ⟨"Soundtracker", "stk"⟩,
  ⟨"Scream Tracker 2", "stm"⟩,
  ⟨"Scream Tracker Music Interface Kit", "stx"⟩,
  ⟨"Soundtracker Pro II", "stp"⟩,
  ⟨"Symphonie", "symmod"⟩,
  ⟨"Graoumf Tracker", "gtk"⟩,
  ⟨"Graoumf Tracker 1 / 2", "gt2"⟩,
  ⟨"UltraTracker", "ult"⟩,
  ⟨"Mod's Grave", "wow"⟩,
  ⟨"General Digital Music", "gdm"⟩,
  ⟨"Un4seen MO3", "mo3"⟩,
  ⟨"OggMod FastTracker 2", "oxm"⟩
  ]
  ++ (if sw.NO_ARCHIVE_SUPPORT then [] else [
  ⟨"Compressed ProTracker", "mdz"⟩,
  ⟨"Compressed Module", "mdr"⟩,
  ⟨"Compressed Scream Tracker 3", "s3z"⟩,
  ⟨"Compressed FastTracker 2", "xmz"⟩,
  ⟨"Compressed Impulse Tracker", "itz"⟩,
  ⟨"Compressed OpenMPT", "mptmz"⟩
  ])

/-- `static constexpr ModContainerInfo modContainerInfo[]`; the last three
entries are present under MODPLUG_TRACKER. -/
def modContainerInfo (cfg : BuildConfig) : List ModContainerInfo :=
  [
  ⟨ModContainerType.UMX, "Unreal Music", "umx"⟩,
  ⟨ModContainerType.XPK, "XPK packed", "xpk"⟩,
  ⟨ModContainerType.PP20, "PowerPack PP20", "ppm"⟩,
  ⟨ModContainerType.MMCMP, "Music Module Compressor", "mmcmp"⟩
  ]
  ++ (if cfg.MODPLUG_TRACKER then [
  ⟨ModContainerType.WAV, "Wave", "wav"⟩,
  ⟨ModContainerType.UAX, "Unreal Sounds", "uax"⟩,
  ⟨ModContainerType.Generic, "Generic Archive", ""⟩
  ] else [])

/-- `static constexpr ModFormatInfo otherFormatInfo[]`, defined under
MODPLUG_TRACKER only. -/
def otherFormatInfo : List ModFormatInfo :=
  [⟨"MIDI", "mid"⟩, ⟨"MIDI", "rmi"⟩, ⟨"MIDI", "smf"⟩]

/-- The body of the first two loops of GetSupportedExtensions: an empty
extension is skipped (`continue`); otherwise
`if(exts.empty() || ext != exts.back()) exts.push_back(...)`. -/
def pushExtension (exts : List String) (ext : String) : List String :=
  if ext.isEmpty then exts
  else if exts.isEmpty || exts.getLast? != some ext then exts ++ [ext]
  else exts

/-- `std::vector<const char *> CSoundFile::GetSupportedExtensions(bool otherFormats)`,
the extensions as strings. -/
def GetSupportedExtensions (cfg : BuildConfig) (sw : FormatSwitches) (otherFormats : Bool) :
    List String :=
  let exts : List String := []
  let exts := (modFormatInfo sw).foldl (fun exts formatInfo =>
    pushExtension exts formatInfo.extension) exts
  let exts := (modContainerInfo cfg).foldl (fun exts containerInfo =>
    pushExtension exts containerInfo.extension) exts
  if cfg.MODPLUG_TRACKER then
    if otherFormats then
      otherFormatInfo.foldl (fun exts formatInfo => exts ++ [formatInfo.extension]) exts
    else exts
  else exts

/-! ## Fade laws (FadeLaws.h) -/

/-- The functions and constants of `<cmath>` that FadeLaws.h uses. -/
structure FadeMath (α : Type) where
  sqrt : α → α
  log10 : α → α
  sin : α → α
  cos : α → α
  M_PI : α
  M_PI_2 : α

/-- `enum Law`: an unscoped enumeration, so a `Law` is an integer; the
enumerators are 0 to 5. -/
abbrev Fade.Law := Int

/-- `kLinear`. -/
def Fade.kLinear : Fade.Law := 0

/-- `kPow`. -/
def Fade.kPow : Fade.Law := 1

/-- `kSqrt`. -/
def Fade.kSqrt : Fade.Law := 2

/-- `kLog`. -/
def Fade.kLog : Fade.Law := 3

/-- `kQuarterSine`. -/
def Fade.kQuarterSine : Fade.Law := 4

/-- `kHalfSine`. -/
def Fade.kHalfSine : Fade.Law := 5

section
variable {α : Type} [LinearOrderedField α]

/-- `inline double LinearFunc(double pos)`. -/
def Fade.LinearFunc (pos : α) : α :=
  pos

/-- `inline double PowFunc(double pos)`. -/
def Fade.PowFunc (pos : α) : α :=
  pos * pos

/-- `inline double SqrtFunc(double pos)`. -/
def Fade.SqrtFunc (m : FadeMath α) (pos : α) : α :=
  m.sqrt pos

/-- `inline double LogFunc(double pos)`. -/
def Fade.LogFunc (m : FadeMath α) (pos : α) : α :=
  m.log10 (1.0 + pos * 99.0) * 0.5

/-- `inline double QuarterSineFunc(double pos)`. -/
def Fade.QuarterSineFunc (m : FadeMath α) (pos : α) : α :=
  m.sin (m.M_PI_2 * pos)

/-- `inline double HalfSineFunc(double pos)`. -/
def Fade.HalfSineFunc (m : FadeMath α) (pos : α) : α :=
  (1.0 + m.cos (m.M_PI + m.M_PI * pos)) * 0.5

/-- `inline Func GetFadeFunc(Law fadeLaw)`: the `switch`, whose `default` label
shares the case of `kLinear`. -/
def Fade.GetFadeFunc (m : FadeMath α) (fadeLaw : Fade.Law) : α → α :=
  if fadeLaw = Fade.kLinear then Fade.LinearFunc
  else if fadeLaw = Fade.kPow then Fade.PowFunc
  else if fadeLaw = Fade.kSqrt then Fade.SqrtFunc m
  else if fadeLaw = Fade.kLog then Fade.LogFunc m
  else if fadeLaw = Fade.kQuarterSine then Fade.QuarterSineFunc m
  else if fadeLaw = Fade.kHalfSine then Fade.HalfSineFunc m
  else Fade.LinearFunc

end

/-! ## Date and time (mptTime.cpp) -/

/-- The fields of `mpt::Date::Gregorian<TZ>` (and so of `mpt::Date::UTC`), whose
declaration is in mptTime.h: `year`, `month`, `day`, `hours`, `minutes` are
`int32`, `seconds` is `int64`. -/
structure Gregorian where
  year : Int
  month : Int
  day : Int
  hours : Int
  minutes : Int
  seconds : Int
  deriving DecidableEq

/-- `static_cast<int32>(x)` of a wider integer: the value modulo `2^32` in the
range of `int32`. -/
def toInt32 (x : Int) : Int :=
  (x + 2147483648) % 4294967296 - 2147483648

/-- `static int32 ToDaynum(int32 year, int32 month, int32 day)`; `/` and `%`
truncate toward zero.  The arithmetic is that of mathematical integers: signed
overflow, which the language leaves undefined, is not modelled. -/
def ToDaynum (year month day : Int) : Int :=
  let month := Int.tmod (month + 9) 12
  let year := year - Int.tdiv month 10
  let daynum := year * 365 + Int.tdiv year 4 - Int.tdiv year 100 + Int.tdiv year 400
    + Int.tdiv (month * 306 + 5) 10 + (day - 1)
  daynum

/-- `static void FromDaynum(int32 d, int32 & year, int32 & month, int32 & day)`,
returning the three output parameters. -/
def FromDaynum (d : Int) : Int × Int × Int :=
  let g := d
  let y := Int.tdiv (10000 * g + 14780) 3652425
  let ddd := g - (365 * y + Int.tdiv y 4 - Int.tdiv y 100 + Int.tdiv y 400)
  let y' := if ddd < 0 then y - 1 else y
  let ddd := if ddd < 0 then
      g - (365 * y' + Int.tdiv y' 4 - Int.tdiv y' 100 + Int.tdiv y' 400)
    else ddd
  let y := y'
  let mi := Int.tdiv (100 * ddd + 52) 3060
  let mm := Int.tmod (mi + 2) 12 + 1
  let y := y + Int.tdiv (mi + 2) 12
  let dd := ddd - Int.tdiv (mi * 306 + 5) 10 + 1
  (toInt32 y, toInt32 mm, toInt32 dd)

/-- `mpt::Date::Unix UnixFromUTC(UTC timeUtc)`: the seconds of the result. -/
def UnixFromUTC (timeUtc : Gregorian) : Int :=
  let daynum := ToDaynum timeUtc.year timeUtc.month timeUtc.day
  let seconds := (daynum - ToDaynum 1970 1 1) * 24 * 60 * 60 + timeUtc.hours * 60 * 60
    + timeUtc.minutes * 60 + timeUtc.seconds
  seconds

/-- `mpt::Date::UTC UnixAsUTC(Unix tp)`. -/
def UnixAsUTC (tp : Int) : Gregorian :=
  let tmp := tp
  let seconds := Int.tmod tmp 60
  let tmp := Int.tdiv tmp 60
  let minutes := Int.tmod tmp 60
  let tmp := Int.tdiv tmp 60
  let hours := Int.tmod tmp 24
  let tmp := Int.tdiv tmp 24
  let ymd := FromDaynum (toInt32 tmp + ToDaynum 1970 1 1)
  { year := ymd.1, month := ymd.2.1, day := ymd.2.2,
    hours := toInt32 hours, minutes := toInt32 minutes, seconds := seconds }

/-- Modelled from the spec: the leap years of the Gregorian calendar, which the
claim about valid dates refers to and the sources do not define. -/
def isLeapYear (y : Int) : Prop :=
  y % 4 = 0 ∧ (y % 100 ≠ 0 ∨ y % 400 = 0)

/-- Modelled from the spec: a valid Gregorian date, month 1..12 and day 1 up to
the length of the month (February has 29 days in leap years). -/
def validGregorianDate (y m d : Int) : Prop :=
  1 ≤ m ∧ m ≤ 12 ∧ 1 ≤ d ∧
  ((m = 1 ∨ m = 3 ∨ m = 5 ∨ m = 7 ∨ m = 8 ∨ m = 10 ∨ m = 12) → d ≤ 31) ∧
  ((m = 4 ∨ m = 6 ∨ m = 9 ∨ m = 11) → d ≤ 30) ∧
  (m = 2 → isLeapYear y → d ≤ 29) ∧
  (m = 2 → ¬ isLeapYear y → d ≤ 28)

/-- `enum class LogicalTimezone` (mptTime.h), the template parameter of
`ToShortenedISO8601Impl`. -/
inductive LogicalTimezone where
  | Unspecified | UTC | Local
  deriving DecidableEq

/-- `template <LogicalTimezone TZ> static mpt::ustring ToShortenedISO8601Impl(
mpt::Date::Gregorian<TZ> date)`.  The formatter `mpt::ufmt::dec0<width>` is
defined outside the sources and is the parameter `dec0`. -/
def ToShortenedISO8601Impl (dec0 : Nat → Int → String) (TZ : LogicalTimezone)
    (date : Gregorian) : String :=
  let result : String := ""
  let tz : String :=
    if TZ = LogicalTimezone.Unspecified then ""
    else if TZ = LogicalTimezone.UTC then "Z"
    else ""
  if date.year = 0 then
    result
  else
    let result := result ++ dec0 4 date.year
    let result := result ++ ("-" ++ dec0 2 date.month)
    let result := result ++ ("-" ++ dec0 2 date.day)
    if date.hours = 0 ∧ date.minutes = 0 ∧ date.seconds ≠ 0 then
      result
    else
      let result := result ++ "T"
      let result := result ++ (dec0 2 date.hours ++ ":" ++ dec0 2 date.minutes)
      if date.seconds = 0 then
        result ++ tz
      else
        let result := result ++ (":" ++ dec0 2 date.seconds)
        let result := result ++ tz
        result

/-- A stand-in for `mpt::ufmt::dec0<width>` on non-negative values: the decimal
digits, padded on the left with zeros to `width` characters. -/
def dec0Digits (width : Nat) (v : Int) : String :=
  let digits := Nat.repr v.toNat
  String.mk (List.replicate (width - digits.length) (Char.ofNat 48)) ++ digits

/-! ## File data containers (mptIO.cpp) -/

/-- The difference `a - b` in the unsigned type `IFileDataContainer::pos_type`
of `posBits` bits: it wraps modulo `2 ^ posBits`. -/
def pos_type_sub (posBits a b : Nat) : Nat :=
  (((a : Int) - (b : Int)) % (2 ^ posBits : Int)).toNat

/-- `std::copy(cache.begin() + pos, cache.begin() + pos + n, dst.data())`: the
`n` bytes that arrive in `dst`.  A source range that leaves the vector is
undefined behaviour, modelled by `none`. -/
def copyFromCache {β : Type} (cache : List β) (pos n : Nat) : Option (List β) :=
  if pos + n ≤ cache.length then some ((cache.drop pos).take n) else none

/-- The members of `FileDataContainerSeekable` that `Read` uses. -/
structure FileDataContainerSeekable (β : Type) where
  streamLength : Nat
  cached : Bool
  cache : List β

/-- `mpt::byte_span FileDataContainerSeekable::Read(pos_type pos, mpt::byte_span
dst) const`: the contents of the returned span.  `InternalReadBuffered`, which
reads from the stream, is a parameter. -/
def FileDataContainerSeekable.Read {β : Type} (posBits : Nat)
    (InternalReadBuffered : Nat → List β → List β) (self : FileDataContainerSeekable β)
    (pos : Nat) (dst : List β) : Option (List β) :=
  if self.cached then
    let cache_avail := min (pos_type_sub posBits self.cache.length pos) dst.length
    copyFromCache self.cache pos cache_avail
  else
    some (InternalReadBuffered pos dst)

/-- The members of `FileDataContainerUnseekable` that `Read` uses. -/
structure FileDataContainerUnseekable (β : Type) where
  cache : List β
  cachesize : Nat
  streamFullyCached : Bool

/-- `void FileDataContainerUnseekable::CacheStreamUpTo(pos_type pos, pos_type
length) const`: nothing to do when the stream is fully cached; the part that
reads further from the stream is the parameter `readFurther`. -/
def FileDataContainerUnseekable.CacheStreamUpTo {β : Type}
    (readFurther : FileDataContainerUnseekable β → Nat → Nat → FileDataContainerUnseekable β)
    (self : FileDataContainerUnseekable β) (pos length : Nat) :
    FileDataContainerUnseekable β :=
  if self.streamFullyCached then self else readFurther self pos length

/-- `mpt::byte_span FileDataContainerUnseekable::Read(pos_type pos, mpt::byte_span
dst) const`: the contents of the returned span. -/
def FileDataContainerUnseekable.Read {β : Type} (posBits : Nat)
    (readFurther : FileDataContainerUnseekable β → Nat → Nat → FileDataContainerUnseekable β)
    (self : FileDataContainerUnseekable β) (pos : Nat) (dst : List β) : Option (List β) :=
  let self := FileDataContainerUnseekable.CacheStreamUpTo readFurther self pos dst.length
  if pos ≥ self.cachesize then
    some (dst.take 0)
  else
    let cache_avail := min (pos_type_sub posBits self.cachesize pos) dst.length
    copyFromCache self.cache pos cache_avail

/-! ## IEEE 754 binary64 arithmetic

The definitions above compute with exact numbers.  The definitions below are a
second embedding of `Izero` and of the body of the loop of `getsinc`, in the
arithmetic of `double`: every operation rounds its exact result to binary64. -/

/-- A value of the IEEE 754 binary64 format (`double`): a finite value, given by
the rational it denotes (the sign of zero is not modelled), an infinity, or a
NaN. -/
inductive Binary64 where
  | fin (q : ℚ)
  | inf (negative : Bool)
  | nan
  deriving DecidableEq

/-- `2 ^ e` for an integer exponent. -/
def pow2 (e : Int) : ℚ :=
  if 0 ≤ e then ((2 ^ e.toNat : Nat) : ℚ) else 1 / ((2 ^ (-e).toNat : Nat) : ℚ)

/-- The number of binary digits of `n`, found in at most `fuel` halvings. -/
def bitLength : Nat → Nat → Nat
  | 0, _ => 0
  | fuel + 1, n => if n = 0 then 0 else bitLength fuel (n / 2) + 1

/-- The exponent `e` with `2 ^ e ≤ q < 2 ^ (e + 1)` of a positive rational whose
numerator and denominator have fewer than 4400 binary digits. -/
def floorLog2 (q : ℚ) : Int :=
  let e0 : Int := (bitLength 4400 q.num.toNat : Int) - (bitLength 4400 q.den : Int)
  if q < pow2 e0 then e0 - 1 else e0

/-- Rounding of a non-negative rational to the nearest integer, ties to even. -/
def roundHalfEven (q : ℚ) : Int :=
  let f := ⌊q⌋
  let r := q - f
  if r < 1 / 2 then f
  else if 1 / 2 < r then f + 1
  else if f % 2 = 0 then f else f + 1

/-- Rounding of an exact result to binary64, to nearest with ties to even: 53
significant binary digits, least exponent -1022 (below it the spacing stays
`2 ^ -1074`), overflow to an infinity when the rounded magnitude reaches
`2 ^ 1024`. -/
def roundBinary64 (q : ℚ) : Binary64 :=
  if q = 0 then Binary64.fin 0
  else
    let a := |q|
    let e := max (floorLog2 a) (-1022)
    let ulp := pow2 (e - 52)
    let m := roundHalfEven (a / ulp)
    let r := (m : ℚ) * ulp
    if pow2 1024 ≤ r then Binary64.inf (decide (q < 0))
    else Binary64.fin (if q < 0 then -r else r)

namespace Binary64

/-- `a + b` in binary64. -/
def add : Binary64 → Binary64 → Binary64
  | fin a, fin b => roundBinary64 (a + b)
  | fin _, inf s => inf s
  | inf s, fin _ => inf s
  | inf s, inf t => if s = t then inf s else nan
  | _, _ => nan

/-- `a - b` in binary64. -/
def sub : Binary64 → Binary64 → Binary64
  | fin a, fin b => roundBinary64 (a - b)
  | fin _, inf s => inf (!s)
  | inf s, fin _ => inf s
  | inf s, inf t => if s = t then nan else inf s
  | _, _ => nan

/-- `a * b` in binary64; zero times an infinity is a NaN. -/
def mul : Binary64 → Binary64 → Binary64
  | fin a, fin b => roundBinary64 (a * b)
  | fin a, inf s => if a = 0 then nan else inf (xor (decide (a < 0)) s)
  | inf s, fin b => if b = 0 then nan else inf (xor s (decide (b < 0)))
  | inf s, inf t => inf (xor s t)
  | _, _ => nan

/-- `a / b` in binary64; `0 / 0` and `inf / inf` are NaN.  A zero divisor counts
as `+0`, the sign of zero not being modelled. -/
def div : Binary64 → Binary64 → Binary64
  | fin a, fin b =>
    if b = 0 then (if a = 0 then nan else inf (decide (a < 0)))
    else roundBinary64 (a / b)
  | fin _, inf _ => fin 0
  | inf s, fin b => inf (xor s (decide (b < 0)))
  | _, _ => nan

/-- `a > b`: false when an operand is a NaN. -/
def gt : Binary64 → Binary64 → Bool
  | fin a, fin b => decide (b < a)
  | fin _, inf s => s
  | inf s, fin _ => !s
  | inf s, inf t => !s && t
  | _, _ => false

/-- `a >= b`: false when an operand is a NaN. -/
def ge : Binary64 → Binary64 → Bool
  | fin a, fin b => decide (b ≤ a)
  | fin _, inf s => s
  | inf s, fin _ => !s
  | inf s, inf t => !s || t
  | _, _ => false

/-- `(double)n` for an `int` value. -/
def ofInt (n : Int) : Binary64 :=
  roundBinary64 n

end Binary64

/-- The functions of `<cmath>` that Tables.cpp calls, on `double`. -/
structure CMath64 where
  sin : Binary64 → Binary64
  sqrt : Binary64 → Binary64
  atan : Binary64 → Binary64

/-- The loop of `Izero` in binary64 arithmetic, run at most `fuel` times from
the loop state `(s, ds, d)`. -/
def IzeroLoop64 (y : Binary64) : Nat → Binary64 → Binary64 → Binary64 → Option Binary64
  | 0, _, _, _ => none
  | fuel + 1, s, ds, d =>
    let d := Binary64.add d (Binary64.ofInt 2)
    let ds := Binary64.div (Binary64.mul ds (Binary64.mul y y)) (Binary64.mul d d)
    let s := Binary64.add s ds
    if Binary64.gt ds (Binary64.mul (roundBinary64 1E-7) s) then IzeroLoop64 y fuel s ds d
    else some s

/-- `double Izero(double y)` in binary64 arithmetic. -/
def Izero64 (fuel : Nat) (y : Binary64) : Option Binary64 :=
  IzeroLoop64 y fuel (Binary64.ofInt 1) (Binary64.ofInt 1) (Binary64.ofInt 0)

/-- The clamp at the head of getsinc, in binary64. -/
def getsincCutoff64 (cutoff : Binary64) : Binary64 :=
  if Binary64.ge cutoff (roundBinary64 0.999) then roundBinary64 0.999 else cutoff

/-- The local `kPi` of getsinc in binary64: `4.0 * std::atan(1.0) * cutoff`, with
`cutoff` already clamped. -/
def getsincKPi64 (m : CMath64) (cutoff : Binary64) : Binary64 :=
  Binary64.mul (Binary64.mul (roundBinary64 4.0) (m.atan (roundBinary64 1.0))) cutoff

/-- The local `x` of getsinc in binary64:
`(double)(ix - (4 * SINC_PHASES)) * (double)(1.0 / SINC_PHASES)`. -/
def getsincX64 (SINC_PHASES : Nat) (ix : Int) : Binary64 :=
  Binary64.mul (Binary64.ofInt (ix - 4 * (SINC_PHASES : Int)))
    (Binary64.div (roundBinary64 1.0) (Binary64.ofInt SINC_PHASES))

/-- The divisor `izeroBeta * xPi` of the windowed sinc in binary64, for the
kernel offset `ix`. -/
def getsincDivisor64 (m : CMath64) (SINC_PHASES : Nat) (cutoff izeroBeta : Binary64)
    (ix : Int) : Binary64 :=
  Binary64.mul izeroBeta (Binary64.mul (getsincX64 SINC_PHASES ix) (getsincKPi64 m cutoff))

/-- The local `fsinc` of getsinc in binary64, for the kernel offset `ix`. -/
def getsincFsinc64 (m : CMath64) (SINC_PHASES fuel : Nat) (beta cutoff izeroBeta : Binary64)
    (ix : Int) : Option Binary64 :=
  if ix = 4 * (SINC_PHASES : Int) then
    some (roundBinary64 1.0)
  else
    let x := getsincX64 SINC_PHASES ix
    let xPi := Binary64.mul x (getsincKPi64 m cutoff)
    (Izero64 fuel (Binary64.mul beta (m.sqrt (Binary64.sub (Binary64.ofInt 1)
        (Binary64.mul (Binary64.mul x x)
          (Binary64.div (roundBinary64 1.0) (roundBinary64 16.0))))))).map
      fun iz => Binary64.div (Binary64.mul (m.sin xPi) iz) (Binary64.mul izeroBeta xPi)

/-- The `double coeff` that iteration `isrc` of the loop of
`getsinc(psinc, beta, cutoff)` computes, in binary64 arithmetic. -/
def getsincCoeff64 (m : CMath64) (SINC_PHASES fuel : Nat) (beta cutoff : Binary64)
    (isrc : Nat) : Option Binary64 :=
  let cutoff := getsincCutoff64 cutoff
  (Izero64 fuel beta).bind fun izeroBeta =>
    (getsincFsinc64 m SINC_PHASES fuel beta cutoff izeroBeta
        (getsincIx SINC_PHASES isrc)).map
      fun fsinc => Binary64.mul fsinc cutoff

/-- The integer square root by Newton's iteration from a guess not below it. -/
def natSqrtLoop : Nat → Nat → Nat → Nat
  | 0, _, g => g
  | fuel + 1, n, g =>
    let g' := (g + n / g) / 2
    if g' < g then natSqrtLoop fuel n g' else g

/-- The integer square root `⌊√n⌋`. -/
def natSqrt (n : Nat) : Nat :=
  if n = 0 then 0 else natSqrtLoop 4400 n (2 ^ ((bitLength 4400 n + 1) / 2))

/-- The correctly rounded square root of IEEE 754: the root is located between
two neighbours of a grid `2 ^ -1100`, far finer than binary64, and rounded. -/
def sqrt64 : Binary64 → Binary64
  | Binary64.fin q =>
    if q < 0 then Binary64.nan
    else
      let scaled := q * ((4 ^ 1100 : Nat) : ℚ)
      let n := ⌊scaled⌋.toNat
      let s := natSqrt n
      if (n : ℚ) = scaled ∧ s * s = n then roundBinary64 ((s : ℚ) / ((2 ^ 1100 : Nat) : ℚ))
      else roundBinary64 ((2 * (s : ℚ) + 1) / ((2 ^ 1101 : Nat) : ℚ))
  | Binary64.inf false => Binary64.inf false
  | _ => Binary64.nan

/-- The partial sum `Σ_{k < n} (-1)^k q^(2k+1) / (2k+1)!` of the sine series. -/
def sinSeries (q : ℚ) : Nat → ℚ
  | 0 => 0
  | n + 1 => sinSeries q n + (-1) ^ n * q ^ (2 * n + 1) / ((2 * n + 1).factorial : ℚ)

/-- A sine for binary64: the series to 16 terms, rounded; accurate to the last
digit for arguments of magnitude up to 4. -/
def sin64 : Binary64 → Binary64
  | Binary64.fin q => roundBinary64 (sinSeries q 16)
  | _ => Binary64.nan

/-- The partial sum `Σ_{k < n} (-1)^k q^(2k+1) / (2k+1)` of the arctangent
series. -/
def atanSeries (q : ℚ) : Nat → ℚ
  | 0 => 0
  | n + 1 => atanSeries q n + (-1) ^ n * q ^ (2 * n + 1) / ((2 * n + 1 : Nat) : ℚ)

/-- An arctangent for binary64: at 1, the one argument Tables.cpp passes, Machin's
formula `4 atan(1/5) - atan(1/239)` with 30 terms of each series, rounded; the
series elsewhere. -/
def atan64 : Binary64 → Binary64
  | Binary64.fin q =>
    if q = 1 then roundBinary64 (4 * atanSeries (1 / 5) 30 - atanSeries (1 / 239) 30)
    else roundBinary64 (atanSeries q 30)
  | Binary64.inf s => roundBinary64 (if s then -(355 / 226) else 355 / 226)
  | Binary64.nan => Binary64.nan

/-- A math library for binary64 with the functions above. -/
def libm64 : CMath64 where
  sin := sin64
  sqrt := sqrt64
  atan := atan64

/-! ## Integer bounds of the coefficients of `getsinc`

The functions below compute, in natural numbers, bounds of the coefficients of
a table of `getsinc` and of the sum of the eight taps of a phase; they are
proved sound against the embedding of `getsinc` with the real `sin`, `sqrt` and
`atan`, and run on the three tables the program builds.  Their bodies apply the
functions `Nat.add`, `Nat.mul`, ... themselves, which evaluate without
unfolding; each has a theorem that states its body in the usual notation. -/

/-- The loop of `Izero` on an argument whose square is the fraction `a / b`, run
in integers: the loop state is `s = N / D`, `ds = A / D`, `d = 2 k`.  With
`c = b (2k + 2)²` a round gives `A' = A a`, `D' = D c`, `N' = N c + A'` and the
loop goes on while `N' < 10^7 A'`.  The result is the pair (numerator,
denominator) of the sum returned. -/
def IzeroFracLoop (a b : Nat) : Nat → Nat → Nat → Nat → Nat → Option (Nat × Nat)
  | 0, _, _, _, _ => none
  | fuel + 1, N, A, D, k =>
    bif Nat.blt
        (Nat.add (Nat.mul N (Nat.mul b (Nat.mul (Nat.add (Nat.mul 2 k) 2)
          (Nat.add (Nat.mul 2 k) 2)))) (Nat.mul A a))
        (Nat.mul 10000000 (Nat.mul A a)) then
      IzeroFracLoop a b fuel
        (Nat.add (Nat.mul N (Nat.mul b (Nat.mul (Nat.add (Nat.mul 2 k) 2)
          (Nat.add (Nat.mul 2 k) 2)))) (Nat.mul A a))
        (Nat.mul A a)
        (Nat.mul D (Nat.mul b (Nat.mul (Nat.add (Nat.mul 2 k) 2) (Nat.add (Nat.mul 2 k) 2))))
        (Nat.add k 1)
    else
      some (Nat.add (Nat.mul N (Nat.mul b (Nat.mul (Nat.add (Nat.mul 2 k) 2)
          (Nat.add (Nat.mul 2 k) 2)))) (Nat.mul A a),
        Nat.mul D (Nat.mul b (Nat.mul (Nat.add (Nat.mul 2 k) 2) (Nat.add (Nat.mul 2 k) 2))))

/-- The scale of the fixed-point bounds of the coefficients: `10^15`. -/
def gainScale : Nat := 1000000000000000

/-- Numerators, over the denominator `M^9 * 3265920`, of a lower and an upper
bound of `sin z` for `zl / M ≤ z ≤ zh / M ≤ 1` with `sin z ≥ 0`: the series to the
seventh power, each term at the end of the interval that makes it least
(greatest), and the remainder `z^9 * 10 / 3265920`. -/
def sinBoundsNat (zl zh M : Nat) : Nat × Nat :=
  (Nat.sub
      (Nat.add (Nat.mul (Nat.mul zl (Nat.pow M 8)) 3265920)
        (Nat.mul (Nat.mul (Nat.pow zl 5) (Nat.pow M 4)) 27216))
      (Nat.add (Nat.add (Nat.mul (Nat.mul (Nat.pow zh 3) (Nat.pow M 6)) 544320)
        (Nat.mul (Nat.mul (Nat.pow zh 7) (Nat.pow M 2)) 648)) (Nat.mul (Nat.pow zh 9) 10)),
   Nat.sub
      (Nat.add (Nat.add (Nat.mul (Nat.mul zh (Nat.pow M 8)) 3265920)
        (Nat.mul (Nat.mul (Nat.pow zh 5) (Nat.pow M 4)) 27216)) (Nat.mul (Nat.pow zh 9) 10))
      (Nat.add (Nat.mul (Nat.mul (Nat.pow zl 3) (Nat.pow M 6)) 544320)
        (Nat.mul (Nat.mul (Nat.pow zl 7) (Nat.pow M 2)) 648)))

/-- Numerators, over the denominator `M^9 * 3265920`, of a lower and an upper
bound of `cos z` for `zl / M ≤ z ≤ zh / M ≤ 1` with `cos z ≥ 0`. -/
def cosBoundsNat (zl zh M : Nat) : Nat × Nat :=
  (Nat.sub
      (Nat.add (Nat.add (Nat.mul (Nat.pow M 9) 3265920)
        (Nat.mul (Nat.mul (Nat.pow zl 4) (Nat.pow M 5)) 136080))
        (Nat.mul (Nat.mul (Nat.pow zl 8) M) 81))
      (Nat.add (Nat.add (Nat.mul (Nat.mul (Nat.pow zh 2) (Nat.pow M 7)) 1632960)
        (Nat.mul (Nat.mul (Nat.pow zh 6) (Nat.pow M 3)) 4536)) (Nat.mul (Nat.pow zh 9) 10)),
   Nat.sub
      (Nat.add (Nat.add (Nat.add (Nat.mul (Nat.pow M 9) 3265920)
        (Nat.mul (Nat.mul (Nat.pow zh 4) (Nat.pow M 5)) 136080))
        (Nat.mul (Nat.mul (Nat.pow zh 8) M) 81)) (Nat.mul (Nat.pow zh 9) 10))
      (Nat.add (Nat.mul (Nat.mul (Nat.pow zl 2) (Nat.pow M 7)) 1632960)
        (Nat.mul (Nat.mul (Nat.pow zl 6) (Nat.pow M 3)) 4536)))

/-- Bounds `(AL, AU, AD)` with `AL / AD ≤ sin (π r / m) ≤ AU / AD` for `2 r ≤ m`:
the sine is bounded up to `π / 4`, the cosine of the complement above; π lies
between 3.141592 and 3.141593. -/
def sinPiBoundsNat (r m : Nat) : Nat × Nat × Nat :=
  bif Nat.ble (Nat.mul 4 r) m then
    ((sinBoundsNat (Nat.mul 3141592 r) (Nat.mul 3141593 r) (Nat.mul 1000000 m)).1,
      (sinBoundsNat (Nat.mul 3141592 r) (Nat.mul 3141593 r) (Nat.mul 1000000 m)).2,
      Nat.mul (Nat.pow (Nat.mul 1000000 m) 9) 3265920)
  else
    ((cosBoundsNat (Nat.mul 3141592 (Nat.sub m (Nat.mul 2 r)))
        (Nat.mul 3141593 (Nat.sub m (Nat.mul 2 r))) (Nat.mul 2000000 m)).1,
      (cosBoundsNat (Nat.mul 3141592 (Nat.sub m (Nat.mul 2 r)))
        (Nat.mul 3141593 (Nat.sub m (Nat.mul 2 r))) (Nat.mul 2000000 m)).2,
      Nat.mul (Nat.pow (Nat.mul 2000000 m) 9) 3265920)

/-- The argument `n mod m` of a sine `sin (π n / m)` reflected into `[0, m / 2]`. -/
def reflectedArg (n m : Nat) : Nat :=
  bif Nat.ble (Nat.mul 2 (Nat.mod n m)) m then Nat.mod n m else Nat.sub m (Nat.mod n m)

/-- For the tap at `x = ± a / 256`, `a ≠ 0`, of `getsinc(psinc, beta, cutoff)` with
`beta * beta = bsqN / bsqD`, `cutoff = cn / cd` below the clamp and
`Izero(beta) = nb / db`: whether the coefficient is negative, and a lower and an
upper bound of its magnitude scaled by `gainScale`.  The magnitude is
`sin(π r / m) * (256 * Izero(beta * sqrt(1 - x*x/16)) / (a * Izero(beta))) / π`
with `π r / m` the reduced argument; the window value is computed exactly. -/
def tapBoundsNat (bsqN bsqD cn cd fuel nb db a : Nat) : Option (Bool × Nat × Nat) :=
  (IzeroFracLoop (Nat.mul bsqN (Nat.sub 1048576 (Nat.mul a a))) (Nat.mul bsqD 1048576)
      fuel 1 1 1 0).map
    fun nd =>
      (Nat.beq (Nat.mod (Nat.div (Nat.mul cn a) (Nat.mul cd 256)) 2) 1,
        Nat.div
          (Nat.mul (sinPiBoundsNat (reflectedArg (Nat.mul cn a) (Nat.mul cd 256))
              (Nat.mul cd 256)).1
            (Nat.mul (Nat.mul (Nat.mul (Nat.mul 256 nd.1) db) 1000000) gainScale))
          (Nat.mul (Nat.mul (Nat.mul (Nat.mul
            (sinPiBoundsNat (reflectedArg (Nat.mul cn a) (Nat.mul cd 256)) (Nat.mul cd 256)).2.2
            nd.2) a) nb) 3141593),
        Nat.add (Nat.div
          (Nat.mul (sinPiBoundsNat (reflectedArg (Nat.mul cn a) (Nat.mul cd 256))
              (Nat.mul cd 256)).2.1
            (Nat.mul (Nat.mul (Nat.mul (Nat.mul 256 nd.1) db) 1000000) gainScale))
          (Nat.mul (Nat.mul (Nat.mul (Nat.mul
            (sinPiBoundsNat (reflectedArg (Nat.mul cn a) (Nat.mul cd 256)) (Nat.mul cd 256)).2.2
            nd.2) a) nb) 3141592)) 1)

/-- Bounds of the sum of the first `t` taps of phase `p` (table positions
`8 p .. 8 p + t - 1`, at `x = (3 - i) + p / 256`, that is `x = k / 256` with
`k = 768 + p - 256 i`), scaled by `gainScale`: lower and upper bounds of the sum
of the coefficients that are not negative, then of the magnitudes of the
negative ones.  The centre `k = 0` contributes the cutoff.  No result unless
every coefficient is bounded by 0.999 in magnitude. -/
def tapsBoundsNat (bsqN bsqD cn cd fuel nb db p : Nat) : Nat → Option (Nat × Nat × Nat × Nat)
  | 0 => some (0, 0, 0, 0)
  | t + 1 =>
    (tapsBoundsNat bsqN bsqD cn cd fuel nb db p t).bind fun acc =>
      bif Nat.beq (Nat.mul 256 t) (Nat.add 768 p) then
        some (Nat.add acc.1 (Nat.div (Nat.mul cn gainScale) cd),
          Nat.add acc.2.1 (Nat.add (Nat.div (Nat.mul cn gainScale) cd) 1), acc.2.2.1,
          acc.2.2.2)
      else
        (tapBoundsNat bsqN bsqD cn cd fuel nb db
            (bif Nat.ble (Nat.mul 256 t) (Nat.add 768 p) then
              Nat.sub (Nat.add 768 p) (Nat.mul 256 t)
            else Nat.sub (Nat.mul 256 t) (Nat.add 768 p))).bind fun b =>
          bif Nat.ble b.2.2 999000000000000 then
            bif b.1 then some (acc.1, acc.2.1, Nat.add acc.2.2.1 b.2.1, Nat.add acc.2.2.2 b.2.2)
            else some (Nat.add acc.1 b.2.1, Nat.add acc.2.1 b.2.2, acc.2.2.1, acc.2.2.2)
          else none

/-- Whether the bounds of the sum of the eight taps of phase `p` lie within
`[lo, hi] / gainScale`. -/
def phaseSumWithin (bsqN bsqD cn cd fuel nb db lo hi p : Nat) : Bool :=
  match tapsBoundsNat bsqN bsqD cn cd fuel nb db p 8 with
  | some acc => Nat.ble (Nat.add acc.2.2.2 lo) acc.1 && Nat.ble acc.2.1 (Nat.add acc.2.2.1 hi)
  | none => false

/-- Whether, with `Izero(beta)` computed by the integer run, the bounds of the
tap sum lie within `[lo, hi] / gainScale` for each of the first `phases`
phases. -/
def tableSumsWithin (bsqN bsqD cn cd fuel lo hi phases : Nat) : Bool :=
  match IzeroFracLoop bsqN bsqD fuel 1 1 1 0 with
  | some nd => (List.range phases).all fun p =>
      phaseSumWithin bsqN bsqD cn cd fuel nd.1 nd.2 lo hi p
  | none => false

/-! ## Fuel and termination of `Izero` -/

section
variable {α : Type} [LinearOrderedField α]

theorem IzeroLoop_fuel_mono (y : α) (k : Nat) :
    ∀ (n : Nat) (s ds d v : α), IzeroLoop y n s ds d = some v →
      IzeroLoop y (n + k) s ds d = some v := by
  intro n
  induction n with
  | zero => intro s ds d v h; simp [IzeroLoop] at h
  | succ n ih =>
    intro s ds d v h
    rw [Nat.add_right_comm]
    simp only [IzeroLoop] at h ⊢
    split at h
    · rename_i hc
      rw [if_pos hc]
      exact ih _ _ _ _ h
    · rename_i hc
      rw [if_neg hc]
      exact h

theorem Izero_fuel_mono (y v : α) (n k : Nat) (h : Izero n y = some v) :
    Izero (n + k) y = some v :=
  IzeroLoop_fuel_mono y k n 1 1 0 v h

/-- Once `2 * y² ≤ (d + 2)²` every further term is at most half the previous
one, so a term below `1E-7 * 2 ^ f` leaves the loop within `f + 1` rounds. -/
theorem IzeroLoop_exits_of_small (y : α) :
    ∀ (f : Nat) (s ds d : α), 1 ≤ s → 0 ≤ ds → 0 ≤ d → 2 * (y * y) ≤ (d + 2) * (d + 2) →
      ds ≤ 1E-7 * 2 ^ f → ∃ v, IzeroLoop y (f + 1) s ds d = some v := by
  intro f
  induction f with
  | zero =>
    intro s ds d hs hds hd hy hsmall
    have hdd : 0 < (d + 2) * (d + 2) := by positivity
    have hyy : 0 ≤ y * y := mul_self_nonneg y
    have hhalf : ds * (y * y) / ((d + 2) * (d + 2)) ≤ ds := by
      rw [div_le_iff₀ hdd]
      nlinarith
    have hnn : 0 ≤ ds * (y * y) / ((d + 2) * (d + 2)) := by positivity
    simp only [IzeroLoop]
    rw [if_neg]
    · exact ⟨_, rfl⟩
    · norm_num at hsmall ⊢
      nlinarith
  | succ f ih =>
    intro s ds d hs hds hd hy hsmall
    have hdd : 0 < (d + 2) * (d + 2) := by positivity
    have hyy : 0 ≤ y * y := mul_self_nonneg y
    have hhalf : ds * (y * y) / ((d + 2) * (d + 2)) ≤ ds / 2 := by
      rw [div_le_iff₀ hdd]
      nlinarith
    have hnn : 0 ≤ ds * (y * y) / ((d + 2) * (d + 2)) := by positivity
    simp only [IzeroLoop]
    split
    · apply ih
      · linarith
      · exact hnn
      · linarith
      · nlinarith
      · rw [pow_succ] at hsmall
        linarith
    · exact ⟨_, rfl⟩

theorem IzeroLoop_terminates [Archimedean α] (y : α) :
    ∀ (n : Nat) (s ds d : α), 1 ≤ s → 0 ≤ ds → 0 ≤ d →
      2 * (y * y) ≤ (d + 2 + 2 * n) * (d + 2 + 2 * n) →
      ∃ N, ∀ k, ∃ v, IzeroLoop y (N + k) s ds d = some v := by
  intro n
  induction n with
  | zero =>
    intro s ds d hs hds hd hy
    obtain ⟨f, hf⟩ := pow_unbounded_of_one_lt (ds * 10000000) (one_lt_two : (1 : α) < 2)
    refine ⟨f + 1, fun k => ?_⟩
    have h2 : (2 : α) ^ f ≤ 2 ^ (f + k) := pow_le_pow_right₀ one_le_two (Nat.le_add_right f k)
    have := IzeroLoop_exits_of_small y (f + k) s ds d hs hds hd (by simpa using hy)
      (by norm_num at hf ⊢; linarith)
    rwa [Nat.add_right_comm] at this
  | succ n ih =>
    intro s ds d hs hds hd hy
    have hdd : 0 < (d + 2) * (d + 2) := by positivity
    have hnn : 0 ≤ ds * (y * y) / ((d + 2) * (d + 2)) := by
      have := mul_self_nonneg y
      positivity
    obtain ⟨N, hN⟩ := ih (s + ds * (y * y) / ((d + 2) * (d + 2)))
      (ds * (y * y) / ((d + 2) * (d + 2))) (d + 2) (by linarith) hnn (by linarith)
      (by push_cast at hy ⊢; nlinarith)
    refine ⟨N + 1, fun k => ?_⟩
    rw [Nat.add_right_comm]
    simp only [IzeroLoop]
    split
    · exact hN k
    · exact ⟨_, rfl⟩

/-- The loop of `Izero` terminates: enough fuel gives a result, for every `y`. -/
theorem Izero_terminates [Archimedean α] (y : α) :
    ∃ N, ∀ k, ∃ v, Izero (N + k) y = some v := by
  obtain ⟨n, hn⟩ := exists_nat_ge (2 * (y * y))
  apply IzeroLoop_terminates y n 1 1 0 le_rfl zero_le_one le_rfl
  have h0 : (0 : α) ≤ n := Nat.cast_nonneg n
  nlinarith

end

/-! ## The loop of `getsinc` -/

section
variable {α : Type} [LinearOrderedField α]

theorem getsincCoeff_terminates [Archimedean α] (m : CMath α) (P : Nat)
    (beta cutoff izeroBeta kPi : α) (ix : Int) :
    ∃ N, ∀ k, ∃ c, getsincCoeff m P (N + k) beta cutoff izeroBeta kPi ix = some c := by
  by_cases hc : ix = 4 * (P : Int)
  · exact ⟨0, fun k => ⟨1 * cutoff, by simp [getsincCoeff, getsincFsinc, hc]⟩⟩
  · obtain ⟨N, hN⟩ := Izero_terminates
      (beta * m.sqrt (1 - getsincX P ix * getsincX P ix * (1 / 16)))
    refine ⟨N, fun k => ?_⟩
    obtain ⟨v, hv⟩ := hN k
    simp only [getsincCoeff, getsincFsinc, if_neg hc, hv, Option.map_some']
    exact ⟨_, rfl⟩

variable [FloorRing α]

theorem getsincLoop_terminates (m : CMath α) (cfg : BuildConfig) (H : ResamplerHeader)
    (beta cutoff izeroBeta kPi : α) (psinc : Nat → SINC_TYPE α) :
    ∀ n, ∃ N, ∀ k, ∃ buf,
      getsincLoop m cfg H (N + k) beta cutoff izeroBeta kPi psinc n = some buf := by
  intro n
  induction n with
  | zero => exact ⟨0, fun k => ⟨psinc, rfl⟩⟩
  | succ n ih =>
    obtain ⟨N1, h1⟩ := ih
    obtain ⟨N2, h2⟩ := getsincCoeff_terminates m H.SINC_PHASES beta cutoff izeroBeta kPi
      (getsincIx H.SINC_PHASES n)
    refine ⟨N1 + N2, fun k => ?_⟩
    obtain ⟨buf, hb⟩ := h1 (N2 + k)
    obtain ⟨c, hc⟩ := h2 (N1 + k)
    have e1 : N1 + N2 + k = N1 + (N2 + k) := by omega
    have e2 : N1 + N2 + k = N2 + (N1 + k) := by omega
    refine ⟨Function.update buf n (getsincStore cfg H c), ?_⟩
    simp only [getsincLoop]
    rw [e1, hb, ← e1, e2, hc]
    rfl

/-- What the first `n` iterations leave in the buffer: position `i < n` holds the
stored coefficient of kernel offset `getsincIx i`, every other position is
untouched. -/
theorem getsincLoop_spec (m : CMath α) (cfg : BuildConfig) (H : ResamplerHeader) (fuel : Nat)
    (beta cutoff izeroBeta kPi : α) (psinc : Nat → SINC_TYPE α) :
    ∀ n buf, getsincLoop m cfg H fuel beta cutoff izeroBeta kPi psinc n = some buf →
      ∀ i, (i < n → ∃ c, getsincCoeff m H.SINC_PHASES fuel beta cutoff izeroBeta kPi
                (getsincIx H.SINC_PHASES i) = some c ∧ buf i = getsincStore cfg H c) ∧
           (n ≤ i → buf i = psinc i) := by
  intro n
  induction n with
  | zero =>
    intro buf h i
    simp only [getsincLoop, Option.some.injEq] at h
    subst h
    exact ⟨fun hi => absurd hi (Nat.not_lt_zero i), fun _ => rfl⟩
  | succ n ih =>
    intro buf h i
    simp only [getsincLoop, Option.bind_eq_some, Option.map_eq_some'] at h
    obtain ⟨buf0, hb0, c, hc, rfl⟩ := h
    have ih0 := ih buf0 hb0 i
    by_cases hin : i = n
    · subst hin
      refine ⟨fun _ => ⟨c, hc, by simp⟩, fun hle => absurd hle (by omega)⟩
    · rw [Function.update_noteq hin]
      exact ⟨fun hi => ih0.1 (by omega), fun hle => ih0.2 (by omega)⟩

theorem getsinc_terminates (m : CMath α) (cfg : BuildConfig) (H : ResamplerHeader)
    (psinc : Nat → SINC_TYPE α) (beta cutoff : α) :
    ∃ N, ∀ k, ∃ tbl, getsinc m cfg H (N + k) psinc beta cutoff = some tbl := by
  obtain ⟨N1, h1⟩ := Izero_terminates beta
  obtain ⟨v0, hv0⟩ := h1 0
  obtain ⟨N2, h2⟩ := getsincLoop_terminates m cfg H beta (getsincCutoff cutoff) v0
    (4 * m.atan 1 * getsincCutoff cutoff) psinc (8 * H.SINC_PHASES)
  refine ⟨N1 + N2, fun k => ?_⟩
  have hv : Izero (N1 + N2 + k) beta = some v0 := by
    have := Izero_fuel_mono beta v0 (N1 + 0) (N2 + k) hv0
    rwa [Nat.add_zero, ← Nat.add_assoc] at this
  obtain ⟨buf, hb⟩ := h2 (N1 + k)
  have e2 : N1 + N2 + k = N2 + (N1 + k) := by omega
  refine ⟨buf, ?_⟩
  simp only [getsinc, hv, Option.some_bind]
  rw [e2]
  exact hb

/-- The table `getsinc` leaves: position `i < 8 * SINC_PHASES` holds the stored
coefficient of kernel offset `getsincIx i`; positions from `8 * SINC_PHASES` on
keep the previous contents of the buffer. -/
theorem getsinc_spec (m : CMath α) (cfg : BuildConfig) (H : ResamplerHeader) (fuel : Nat)
    (psinc tbl : Nat → SINC_TYPE α) (beta cutoff : α)
    (h : getsinc m cfg H fuel psinc beta cutoff = some tbl) (i : Nat) :
    (i < 8 * H.SINC_PHASES →
      ∃ c, getsincCoeffAt m H.SINC_PHASES fuel beta cutoff (getsincIx H.SINC_PHASES i) = some c ∧
        tbl i = getsincStore cfg H c) ∧
    (8 * H.SINC_PHASES ≤ i → tbl i = psinc i) := by
  simp only [getsinc, Option.bind_eq_some] at h
  obtain ⟨v0, hv0, hl⟩ := h
  have := getsincLoop_spec m cfg H fuel beta _ v0 _ psinc _ tbl hl i
  refine ⟨fun hi => ?_, this.2⟩
  obtain ⟨c, hc, hs⟩ := this.1 hi
  exact ⟨c, by simp only [getsincCoeffAt, hv0, Option.some_bind]; exact hc, hs⟩

/-- Two runs of `getsinc` with the same arguments agree on the whole table,
whatever the buffers held before. -/
theorem getsinc_buffer_independent (m : CMath α) (cfg : BuildConfig) (H : ResamplerHeader)
    (fuel : Nat) (p1 p2 t1 t2 : Nat → SINC_TYPE α) (beta cutoff : α)
    (h1 : getsinc m cfg H fuel p1 beta cutoff = some t1)
    (h2 : getsinc m cfg H fuel p2 beta cutoff = some t2) (i : Nat)
    (hi : i < 8 * H.SINC_PHASES) : t1 i = t2 i := by
  obtain ⟨c1, hc1, e1⟩ := (getsinc_spec m cfg H fuel p1 t1 beta cutoff h1 i).1 hi
  obtain ⟨c2, hc2, e2⟩ := (getsinc_spec m cfg H fuel p2 t2 beta cutoff h2 i).1 hi
  rw [hc1] at hc2
  cases hc2
  rw [e1, e2]

end

/-! ## `InitializeTablesFromScratch` -/

section
variable {α : Type} [LinearOrderedField α] {B : Type}

theorem InitFloatmixerTables_frame (cfg : BuildConfig) (s : CResampler α B) :
    (InitFloatmixerTables cfg s).m_Settings = s.m_Settings ∧
    (InitFloatmixerTables cfg s).m_OldSettings = s.m_OldSettings ∧
    (InitFloatmixerTables cfg s).m_WindowedFIR = s.m_WindowedFIR ∧
    (InitFloatmixerTables cfg s).StaticTablesInitialized = s.StaticTablesInitialized ∧
    (InitFloatmixerTables cfg s).gKaiserSinc = s.gKaiserSinc ∧
    (InitFloatmixerTables cfg s).gDownsample13x = s.gDownsample13x ∧
    (InitFloatmixerTables cfg s).gDownsample2x = s.gDownsample2x ∧
    (InitFloatmixerTables cfg s).blepTables = s.blepTables := by
  unfold InitFloatmixerTables
  split
  · simp
  · split <;> simp

theorem initWindowedFIR_frame (X : Collaborators α B) (s : CResampler α B) (force : Bool) :
    (initWindowedFIR X s force).m_Settings = s.m_Settings ∧
    (initWindowedFIR X s force).StaticTablesInitialized = s.StaticTablesInitialized ∧
    (initWindowedFIR X s force).gKaiserSinc = s.gKaiserSinc ∧
    (initWindowedFIR X s force).gDownsample13x = s.gDownsample13x ∧
    (initWindowedFIR X s force).gDownsample2x = s.gDownsample2x ∧
    (initWindowedFIR X s force).blepTables = s.blepTables ∧
    (initWindowedFIR X s force).FastSincTablef = s.FastSincTablef := by
  unfold initWindowedFIR
  split <;> simp

/-- The windowed-FIR tail regenerates exactly when `force` is set or the
settings differ from the last-applied ones. -/
theorem initWindowedFIR_spec (X : Collaborators α B) (s : CResampler α B) (force : Bool) :
    ((force = true ∨ s.m_Settings ≠ s.m_OldSettings) →
      (initWindowedFIR X s force).m_WindowedFIR =
          X.InitTable s.m_WindowedFIR s.m_Settings.gdWFIRCutoff s.m_Settings.gbWFIRType ∧
        (initWindowedFIR X s force).m_OldSettings = s.m_Settings) ∧
    (¬ (force = true ∨ s.m_Settings ≠ s.m_OldSettings) →
      initWindowedFIR X s force = s) := by
  unfold initWindowedFIR
  constructor
  · intro h
    rw [if_neg]
    · exact ⟨rfl, rfl⟩
    · rcases h with h | h
      · simp [h]
      · simp only [Bool.and_eq_true, beq_iff_eq, Bool.not_eq_true', not_and, Bool.not_eq_false]
        intro e
        exact absurd e.symm h
  · intro h
    rw [if_pos]
    simp only [not_or, Bool.not_eq_true, ne_eq, not_not] at h
    simp [h.1, h.2]

variable [FloorRing α]

theorem initTablesBlock_terminates (m : CMath α) (cfg : BuildConfig) (H : ResamplerHeader)
    (X : Collaborators α B) (s : CResampler α B) :
    ∃ N, ∀ k, ∃ s', initTablesBlock m cfg H X (N + k) s = some s' := by
  obtain ⟨N1, h1⟩ := getsinc_terminates m cfg H (InitFloatmixerTables cfg s).gKaiserSinc
    9.6377 0.97
  obtain ⟨N2, h2⟩ := getsinc_terminates m cfg H (InitFloatmixerTables cfg s).gDownsample13x
    8.5 0.5
  obtain ⟨N3, h3⟩ := getsinc_terminates m cfg H (InitFloatmixerTables cfg s).gDownsample2x
    7.0 0.425
  refine ⟨N1 + N2 + N3, fun k => ?_⟩
  obtain ⟨t1, e1⟩ := h1 (N2 + N3 + k)
  obtain ⟨t2, e2⟩ := h2 (N1 + N3 + k)
  obtain ⟨t3, e3⟩ := h3 (N1 + N2 + k)
  have a1 : N1 + (N2 + N3 + k) = N1 + N2 + N3 + k := by omega
  have a2 : N2 + (N1 + N3 + k) = N1 + N2 + N3 + k := by omega
  have a3 : N3 + (N1 + N2 + k) = N1 + N2 + N3 + k := by omega
  rw [a1] at e1
  rw [a2] at e2
  rw [a3] at e3
  simp only [initTablesBlock, e1, e2, e3, Option.some_bind, Option.map_some']
  exact ⟨_, rfl⟩

/-- What the guarded block does to each member. -/
theorem initTablesBlock_spec (m : CMath α) (cfg : BuildConfig) (H : ResamplerHeader)
    (X : Collaborators α B) (fuel : Nat) (s s' : CResampler α B)
    (h : initTablesBlock m cfg H X fuel s = some s') :
    getsinc m cfg H fuel s.gKaiserSinc 9.6377 0.97 = some s'.gKaiserSinc ∧
    getsinc m cfg H fuel s.gDownsample13x 8.5 0.5 = some s'.gDownsample13x ∧
    getsinc m cfg H fuel s.gDownsample2x 7.0 0.425 = some s'.gDownsample2x ∧
    s'.FastSincTablef = (InitFloatmixerTables cfg s).FastSincTablef ∧
    s'.blepTables = X.InitTables s.blepTables ∧
    s'.StaticTablesInitialized =
      (if cfg.MODPLUG_TRACKER then true else s.StaticTablesInitialized) ∧
    s'.m_Settings = s.m_Settings ∧ s'.m_OldSettings = s.m_OldSettings ∧
    s'.m_WindowedFIR = s.m_WindowedFIR := by
  obtain ⟨f1, f2, f3, f4, f5, f6, f7, f8⟩ := InitFloatmixerTables_frame cfg s
  simp only [initTablesBlock, Option.bind_eq_some, Option.map_eq_some', f5, f6, f7, f8, f4] at h
  obtain ⟨t1, e1, t2, e2, t3, e3, rfl⟩ := h
  exact ⟨e1, e2, e3, rfl, rfl, rfl, f1, f2, f3⟩

theorem InitializeTablesFromScratch_terminates (m : CMath α) (cfg : BuildConfig)
    (H : ResamplerHeader) (X : Collaborators α B) (s : CResampler α B) (force : Bool) :
    ∃ N, ∀ k, ∃ s', InitializeTablesFromScratch m cfg H X (N + k) s force = some s' := by
  unfold InitializeTablesFromScratch
  split
  · obtain ⟨N, hN⟩ := initTablesBlock_terminates m cfg H X s
    refine ⟨N, fun k => ?_⟩
    obtain ⟨s1, h1⟩ := hN k
    rw [h1]
    exact ⟨_, rfl⟩
  · exact ⟨0, fun _ => ⟨_, rfl⟩⟩

/-- The two ways a call can go, by the value of the local
`initParameterIndependentTables`. -/
theorem InitializeTablesFromScratch_cases (m : CMath α) (cfg : BuildConfig)
    (H : ResamplerHeader) (X : Collaborators α B) (fuel : Nat) (s s' : CResampler α B)
    (force : Bool) (h : InitializeTablesFromScratch m cfg H X fuel s force = some s') :
    (initParameterIndependentTables cfg s.StaticTablesInitialized force = true ∧
      ∃ s1, initTablesBlock m cfg H X fuel s = some s1 ∧ s' = initWindowedFIR X s1 force) ∨
    (initParameterIndependentTables cfg s.StaticTablesInitialized force = false ∧
      s' = initWindowedFIR X s force) := by
  unfold InitializeTablesFromScratch at h
  split at h
  · rename_i hc
    simp only [Option.map_eq_some'] at h
    obtain ⟨s1, h1, rfl⟩ := h
    exact Or.inl ⟨hc, s1, h1, rfl⟩
  · rename_i hc
    simp only [Option.map_some', Option.some.injEq] at h
    exact Or.inr ⟨by simpa using hc, h.symm⟩

theorem initParameterIndependentTables_eq (cfg : BuildConfig) (flag force : Bool) :
    initParameterIndependentTables cfg flag force =
      if cfg.MODPLUG_TRACKER then !flag else force := by
  unfold initParameterIndependentTables
  cases force <;> simp

end

/-! ## Claims about `InitializeTablesFromScratch` -/

section
variable {α : Type} [LinearOrderedField α] [FloorRing α] {B : Type}

/-- C1, as stated, fails.  In a MODPLUG_TRACKER build with the flag already set,
`InitializeTablesFromScratch(true)` does not recompute: the local
`initParameterIndependentTables` is false, the call returns a state whose
upsampling table still holds its previous contents (0 at position 3), while a
recomputation by `getsinc(gKaiserSinc, 9.6377, 0.97)` stores 0.97 there. -/
theorem InitializeTablesFromScratch_force_ignored_when_flag_set :
    initParameterIndependentTables trackerBuild true true = false ∧
    (∃ s', InitializeTablesFromScratch ratMath trackerBuild header16 ratCollaborators 0
        (zeroResampler true) true = some s' ∧
      s'.gKaiserSinc 3 = SINC_TYPE.flt 0) ∧
    (∃ fuel tbl, getsinc ratMath trackerBuild header16 fuel (zeroResampler true).gKaiserSinc
        9.6377 0.97 = some tbl ∧ tbl 3 = SINC_TYPE.flt (97 / 100)) := by
  refine ⟨by decide, ⟨_, rfl, ?_⟩, ?_⟩
  · rw [(initWindowedFIR_frame ratCollaborators (zeroResampler true) true).2.2.1]
    rfl
  obtain ⟨N, hN⟩ := getsinc_terminates ratMath trackerBuild header16
    (zeroResampler true).gKaiserSinc 9.6377 0.97
  obtain ⟨tbl, ht⟩ := hN 0
  refine ⟨N + 0, tbl, ht, ?_⟩
  obtain ⟨c, hc, hs⟩ := (getsinc_spec ratMath trackerBuild header16 (N + 0) _ tbl _ _ ht 3).1
    (by decide)
  rw [hs]
  have hix : getsincIx header16.SINC_PHASES 3 = 4 * (header16.SINC_PHASES : Int) := by decide
  simp only [getsincCoeffAt, Option.bind_eq_some] at hc
  obtain ⟨v0, _, hc⟩ := hc
  simp only [getsincCoeff, getsincFsinc, hix, if_true, Option.map_some', Option.some.injEq] at hc
  subst hc
  simp only [getsincStore, trackerBuild, getsincCutoff]
  norm_num

/-- C1 (amended).  For every prior state and every `force` the call returns (with
enough fuel for the series of `Izero`), and the three sinc tables and the cubic
float mirror are recomputed exactly when, in a MODPLUG_TRACKER build, the flag
`StaticTablesInitialized` is not yet set (whatever `force` is), and, in a build
without MODPLUG_TRACKER, when `force` is true; otherwise they are left as they
were. -/
theorem InitializeTablesFromScratch_recomputes_iff (m : CMath α) (cfg : BuildConfig)
    (H : ResamplerHeader) (X : Collaborators α B) (s : CResampler α B) (force : Bool) :
    ∃ N, ∀ k, ∃ s', InitializeTablesFromScratch m cfg H X (N + k) s force = some s' ∧
      ((if cfg.MODPLUG_TRACKER then s.StaticTablesInitialized = false else force = true) →
        getsinc m cfg H (N + k) s.gKaiserSinc 9.6377 0.97 = some s'.gKaiserSinc ∧
        getsinc m cfg H (N + k) s.gDownsample13x 8.5 0.5 = some s'.gDownsample13x ∧
        getsinc m cfg H (N + k) s.gDownsample2x 7.0 0.425 = some s'.gDownsample2x ∧
        s'.FastSincTablef = (InitFloatmixerTables cfg s).FastSincTablef) ∧
      (¬ (if cfg.MODPLUG_TRACKER then s.StaticTablesInitialized = false else force = true) →
        s'.gKaiserSinc = s.gKaiserSinc ∧ s'.gDownsample13x = s.gDownsample13x ∧
        s'.gDownsample2x = s.gDownsample2x ∧ s'.FastSincTablef = s.FastSincTablef) := by
  obtain ⟨N, hN⟩ := InitializeTablesFromScratch_terminates m cfg H X s force
  refine ⟨N, fun k => ?_⟩
  obtain ⟨s', hs'⟩ := hN k
  refine ⟨s', hs', ?_⟩
  have hdec := initParameterIndependentTables_eq cfg s.StaticTablesInitialized force
  rcases InitializeTablesFromScratch_cases m cfg H X (N + k) s s' force hs' with
    ⟨hi, s1, h1, rfl⟩ | ⟨hi, rfl⟩
  · obtain ⟨e1, e2, e3, e4, -⟩ := initTablesBlock_spec m cfg H X (N + k) s s1 h1
    obtain ⟨-, -, w1, w2, w3, -, w4⟩ := initWindowedFIR_frame X s1 force
    rw [w1, w2, w3, w4]
    refine ⟨fun _ => ⟨e1, e2, e3, e4⟩, fun hn => absurd ?_ hn⟩
    rw [hdec] at hi
    cases hc : cfg.MODPLUG_TRACKER <;> simp_all
  · obtain ⟨-, -, w1, w2, w3, -, w4⟩ := initWindowedFIR_frame X s force
    rw [w1, w2, w3, w4]
    refine ⟨fun hp => ?_, fun _ => ⟨rfl, rfl, rfl, rfl⟩⟩
    rw [hdec] at hi
    cases hc : cfg.MODPLUG_TRACKER <;> simp_all

/-- C2.  For every prior state and every `force` the call returns, leaving
`m_Settings` as it was; the windowed-FIR table is regenerated by
`InitTable(m_Settings.gdWFIRCutoff, m_Settings.gbWFIRType)` exactly when `force`
is true or `m_Settings` differs from `m_OldSettings`, and then `m_OldSettings`
equals `m_Settings` afterwards; otherwise the windowed-FIR table and
`m_OldSettings` are unchanged. -/
theorem InitializeTablesFromScratch_windowedFIR_iff (m : CMath α) (cfg : BuildConfig)
    (H : ResamplerHeader) (X : Collaborators α B) (s : CResampler α B) (force : Bool) :
    ∃ N, ∀ k, ∃ s', InitializeTablesFromScratch m cfg H X (N + k) s force = some s' ∧
      s'.m_Settings = s.m_Settings ∧
      ((force = true ∨ s.m_Settings ≠ s.m_OldSettings) →
        s'.m_WindowedFIR =
            X.InitTable s.m_WindowedFIR s.m_Settings.gdWFIRCutoff s.m_Settings.gbWFIRType ∧
          s'.m_OldSettings = s'.m_Settings) ∧
      (¬ (force = true ∨ s.m_Settings ≠ s.m_OldSettings) →
        s'.m_WindowedFIR = s.m_WindowedFIR ∧ s'.m_OldSettings = s.m_OldSettings) := by
  obtain ⟨N, hN⟩ := InitializeTablesFromScratch_terminates m cfg H X s force
  refine ⟨N, fun k => ?_⟩
  obtain ⟨s', hs'⟩ := hN k
  refine ⟨s', hs', ?_⟩
  rcases InitializeTablesFromScratch_cases m cfg H X (N + k) s s' force hs' with
    ⟨-, s1, h1, rfl⟩ | ⟨-, rfl⟩
  · obtain ⟨-, -, -, -, -, -, g1, g2, g3⟩ := initTablesBlock_spec m cfg H X (N + k) s s1 h1
    obtain ⟨w1, -⟩ := initWindowedFIR_frame X s1 force
    obtain ⟨p, q⟩ := initWindowedFIR_spec X s1 force
    rw [g1, g2, g3] at p
    rw [g1, g2] at q
    refine ⟨by rw [w1, g1], fun h => ?_, fun h => ?_⟩
    · exact ⟨(p h).1, by rw [(p h).2, w1, g1]⟩
    · rw [q h]
      exact ⟨g3, g2⟩
  · obtain ⟨w1, -⟩ := initWindowedFIR_frame X s force
    obtain ⟨p, q⟩ := initWindowedFIR_spec X s force
    refine ⟨w1, fun h => ?_, fun h => ?_⟩
    · exact ⟨(p h).1, by rw [(p h).2, w1]⟩
    · rw [q h]
      exact ⟨rfl, rfl⟩

/-- C3.  `InitializeTablesFromScratch(false)` is idempotent: from every state the
first call returns some state `s'`, and a second call started in `s'` returns
`s'` itself (with any fuel, as it computes nothing), so no table, flag or setting
is altered by it. -/
theorem InitializeTablesFromScratch_false_idempotent (m : CMath α) (cfg : BuildConfig)
    (H : ResamplerHeader) (X : Collaborators α B) (s : CResampler α B) :
    ∃ N, ∀ k, ∃ s', InitializeTablesFromScratch m cfg H X (N + k) s false = some s' ∧
      ∀ fuel, InitializeTablesFromScratch m cfg H X fuel s' false = some s' := by
  obtain ⟨N, hN⟩ := InitializeTablesFromScratch_terminates m cfg H X s false
  refine ⟨N, fun k => ?_⟩
  obtain ⟨s', hs'⟩ := hN k
  refine ⟨s', hs', fun fuel => ?_⟩
  have key : ∀ t : CResampler α B,
      initParameterIndependentTables cfg t.StaticTablesInitialized false = false →
      InitializeTablesFromScratch m cfg H X fuel (initWindowedFIR X t false) false
        = some (initWindowedFIR X t false) := by
    intro t ht
    have hflag := (initWindowedFIR_frame X t false).2.1
    have hfix : initWindowedFIR X (initWindowedFIR X t false) false
        = initWindowedFIR X t false := by
      apply (initWindowedFIR_spec X (initWindowedFIR X t false) false).2
      simp only [Bool.false_eq_true, false_or, ne_eq, not_not]
      unfold initWindowedFIR
      split
      · rename_i hc
        simp only [Bool.not_false, Bool.and_true, beq_iff_eq] at hc
        exact hc.symm
      · rfl
    unfold InitializeTablesFromScratch
    rw [hflag, ht]
    simp only [Bool.false_eq_true, if_false, Option.map_some', hfix]
  rcases InitializeTablesFromScratch_cases m cfg H X (N + k) s s' false hs' with
    ⟨hi, s1, h1, rfl⟩ | ⟨hi, rfl⟩
  · apply key
    obtain ⟨-, -, -, -, -, g, -⟩ := initTablesBlock_spec m cfg H X (N + k) s s1 h1
    rw [initParameterIndependentTables_eq] at hi ⊢
    rw [g]
    cases hc : cfg.MODPLUG_TRACKER <;> simp_all
  · exact key s hi

/-- C4.  After a completed call of `InitializeTablesFromScratch` (state `s1`),
changing `m_Settings.gdWFIRCutoff` and calling `InitializeTablesFromScratch(false)`
returns a state in which the three sinc tables, the cubic float mirror, the BLEP
tables and the flag are those of `s1`; what changes is confined to the
windowed-FIR table and `m_OldSettings`, which are regenerated from the new
settings when the new cutoff differs from the applied one. -/
theorem InitializeTablesFromScratch_cutoff_change_frame (m : CMath α) (cfg : BuildConfig)
    (H : ResamplerHeader) (X : Collaborators α B) (fuel : Nat) (s s1 : CResampler α B)
    (force : Bool) (h : InitializeTablesFromScratch m cfg H X fuel s force = some s1)
    (cutoff : α) (fuel2 : Nat) :
    ∃ s2, InitializeTablesFromScratch m cfg H X fuel2
        { s1 with m_Settings := { s1.m_Settings with gdWFIRCutoff := cutoff } } false = some s2 ∧
      s2.gKaiserSinc = s1.gKaiserSinc ∧ s2.gDownsample13x = s1.gDownsample13x ∧
      s2.gDownsample2x = s1.gDownsample2x ∧ s2.FastSincTablef = s1.FastSincTablef ∧
      s2.blepTables = s1.blepTables ∧
      s2.StaticTablesInitialized = s1.StaticTablesInitialized ∧
      s2.m_Settings = { s1.m_Settings with gdWFIRCutoff := cutoff } ∧
      (cutoff ≠ s1.m_OldSettings.gdWFIRCutoff →
        s2.m_WindowedFIR = X.InitTable s1.m_WindowedFIR cutoff s1.m_Settings.gbWFIRType ∧
        s2.m_OldSettings = s2.m_Settings) := by
  have hflag : initParameterIndependentTables cfg s1.StaticTablesInitialized false = false := by
    rcases InitializeTablesFromScratch_cases m cfg H X fuel s s1 force h with
      ⟨hi, t, h1, rfl⟩ | ⟨hi, rfl⟩
    · obtain ⟨-, -, -, -, -, g, -⟩ := initTablesBlock_spec m cfg H X fuel s t h1
      rw [(initWindowedFIR_frame X t force).2.1, initParameterIndependentTables_eq, g]
      cases hc : cfg.MODPLUG_TRACKER <;> simp
    · rw [(initWindowedFIR_frame X s force).2.1, initParameterIndependentTables_eq]
      rw [initParameterIndependentTables_eq] at hi
      cases hc : cfg.MODPLUG_TRACKER <;> cases force <;> simp_all
  refine ⟨initWindowedFIR X
    { s1 with m_Settings := { s1.m_Settings with gdWFIRCutoff := cutoff } } false, ?_, ?_⟩
  · unfold InitializeTablesFromScratch
    simp only [hflag, Bool.false_eq_true, if_false, Option.map_some']
  · obtain ⟨w0, w1, w2, w3, w4, w5, w6⟩ := initWindowedFIR_frame X
      { s1 with m_Settings := { s1.m_Settings with gdWFIRCutoff := cutoff } } false
    refine ⟨w2, w3, w4, w6, w5, w1, w0, fun hne => ?_⟩
    obtain ⟨p, -⟩ := initWindowedFIR_spec X
      { s1 with m_Settings := { s1.m_Settings with gdWFIRCutoff := cutoff } } false
    have := p (Or.inr (by
      intro e
      apply hne
      have := congrArg CResamplerSettings.gdWFIRCutoff e
      simpa using this))
    exact ⟨this.1, by rw [this.2, w0]⟩

/-- C4, on a concrete run: the tracker build, a first call with `force = true` on
the all-zero resampler whose flag is unset, then the cutoff changed to 1/2. -/
theorem InitializeTablesFromScratch_cutoff_change_frame_example :
    ∃ fuel s1, InitializeTablesFromScratch ratMath trackerBuild header16 ratCollaborators fuel
        (zeroResampler false) true = some s1 ∧
      ∃ s2, InitializeTablesFromScratch ratMath trackerBuild header16 ratCollaborators 0
          { s1 with m_Settings := { s1.m_Settings with gdWFIRCutoff := 1 / 2 } } false = some s2 ∧
        s2.gKaiserSinc = s1.gKaiserSinc ∧ s2.gDownsample13x = s1.gDownsample13x ∧
        s2.gDownsample2x = s1.gDownsample2x ∧ s2.FastSincTablef = s1.FastSincTablef ∧
        s2.blepTables = s1.blepTables ∧
        s2.StaticTablesInitialized = s1.StaticTablesInitialized ∧
        s2.m_Settings = { s1.m_Settings with gdWFIRCutoff := 1 / 2 } ∧
        ((1 / 2 : ℚ) ≠ s1.m_OldSettings.gdWFIRCutoff →
          s2.m_WindowedFIR = ratCollaborators.InitTable s1.m_WindowedFIR (1 / 2)
            s1.m_Settings.gbWFIRType ∧
          s2.m_OldSettings = s2.m_Settings) := by
  obtain ⟨N, hN⟩ := InitializeTablesFromScratch_terminates ratMath trackerBuild header16
    ratCollaborators (zeroResampler false) true
  obtain ⟨s1, h1⟩ := hN 0
  exact ⟨N + 0, s1, h1, InitializeTablesFromScratch_cutoff_change_frame ratMath trackerBuild
    header16 ratCollaborators (N + 0) (zeroResampler false) s1 true h1 (1 / 2) 0⟩

/-- C6.  Whenever the call performs the parameter-independent initialisation
(the local `initParameterIndependentTables` is true), it returns a state in which
`gKaiserSinc` is the output of `getsinc` with beta 9.6377 and cutoff 0.97,
`gDownsample13x` that of `getsinc` with 8.5 and 0.5, `gDownsample2x` that of
`getsinc` with 7.0 and 0.425, and, in a MODPLUG_TRACKER build (the only one that
has the flag), `StaticTablesInitialized` is set. -/
theorem InitializeTablesFromScratch_sinc_parameters (m : CMath α) (cfg : BuildConfig)
    (H : ResamplerHeader) (X : Collaborators α B) (s : CResampler α B) (force : Bool)
    (hinit : initParameterIndependentTables cfg s.StaticTablesInitialized force = true) :
    ∃ N, ∀ k, ∃ s', InitializeTablesFromScratch m cfg H X (N + k) s force = some s' ∧
      getsinc m cfg H (N + k) s.gKaiserSinc 9.6377 0.97 = some s'.gKaiserSinc ∧
      getsinc m cfg H (N + k) s.gDownsample13x 8.5 0.5 = some s'.gDownsample13x ∧
      getsinc m cfg H (N + k) s.gDownsample2x 7.0 0.425 = some s'.gDownsample2x ∧
      (cfg.MODPLUG_TRACKER = true → s'.StaticTablesInitialized = true) := by
  obtain ⟨N, hN⟩ := InitializeTablesFromScratch_terminates m cfg H X s force
  refine ⟨N, fun k => ?_⟩
  obtain ⟨s', hs'⟩ := hN k
  refine ⟨s', hs', ?_⟩
  rcases InitializeTablesFromScratch_cases m cfg H X (N + k) s s' force hs' with
    ⟨-, s1, h1, rfl⟩ | ⟨hi, -⟩
  · obtain ⟨e1, e2, e3, -, -, g, -⟩ := initTablesBlock_spec m cfg H X (N + k) s s1 h1
    obtain ⟨-, w0, w1, w2, w3, -⟩ := initWindowedFIR_frame X s1 force
    rw [w1, w2, w3, w0, g]
    exact ⟨e1, e2, e3, fun ht => by simp [ht]⟩
  · rw [hinit] at hi
    cases hi

/-- C6, on a concrete state: the tracker build, flag unset, `force = false`. -/
theorem InitializeTablesFromScratch_sinc_parameters_example :
    initParameterIndependentTables trackerBuild (zeroResampler false).StaticTablesInitialized
        false = true ∧
    ∃ N, ∀ k, ∃ s', InitializeTablesFromScratch ratMath trackerBuild header16 ratCollaborators
        (N + k) (zeroResampler false) false = some s' ∧
      getsinc ratMath trackerBuild header16 (N + k) (zeroResampler false).gKaiserSinc
        9.6377 0.97 = some s'.gKaiserSinc ∧
      getsinc ratMath trackerBuild header16 (N + k) (zeroResampler false).gDownsample13x
        8.5 0.5 = some s'.gDownsample13x ∧
      getsinc ratMath trackerBuild header16 (N + k) (zeroResampler false).gDownsample2x
        7.0 0.425 = some s'.gDownsample2x ∧
      (trackerBuild.MODPLUG_TRACKER = true → s'.StaticTablesInitialized = true) :=
  ⟨by decide, InitializeTablesFromScratch_sinc_parameters ratMath trackerBuild header16
    ratCollaborators (zeroResampler false) false (by decide)⟩

end

/-! ## The cached path -/

section
variable {α : Type} [LinearOrderedField α]

set_option maxRecDepth 100000 in
theorem FastSincTable_length : FastSincTable.length = 256 * 4 := by
  decide

/-- After the first `n` rounds of the loop of InitFloatmixerTables, entry `i < n`
is `FastSincTable[i] * (1 / 16384)` and later entries are untouched. -/
theorem InitFloatmixerTablesLoop_spec (tbl : Nat → α) :
    ∀ n i, (i < n → InitFloatmixerTablesLoop tbl n i
              = ((FastSincTable.getD i 0 : Int) : α) * (1 / 16384)) ∧
           (n ≤ i → InitFloatmixerTablesLoop tbl n i = tbl i) := by
  intro n
  induction n with
  | zero => exact fun i => ⟨fun hi => absurd hi (Nat.not_lt_zero i), fun _ => rfl⟩
  | succ n ih =>
    intro i
    simp only [InitFloatmixerTablesLoop]
    by_cases hin : i = n
    · subst hin
      exact ⟨fun _ => by simp, fun hle => absurd hle (by omega)⟩
    · rw [Function.update_noteq hin]
      exact ⟨fun hi => (ih i).1 (by omega), fun hle => (ih i).2 (by omega)⟩

/-- In a build with the float mirror and without MPT_BUILD_FUZZER,
InitFloatmixerTables determines the first 1024 entries of the mirror. -/
theorem InitFloatmixerTables_mirror {B : Type} (cfg : BuildConfig) (s : CResampler α B)
    (hint : cfg.MPT_INTMIXER = false) (hfuzz : cfg.MPT_BUILD_FUZZER = false) (i : Nat)
    (hi : i < 256 * 4) :
    (InitFloatmixerTables cfg s).FastSincTablef i
      = ((FastSincTable.getD i 0 : Int) : α) * (1 / 16384) := by
  simp only [InitFloatmixerTables, hint, hfuzz, Bool.false_eq_true, if_false]
  exact (InitFloatmixerTablesLoop_spec s.FastSincTablef _ i).1 (by rw [FastSincTable_length]; exact hi)

variable [FloorRing α]

/-- C5.  In a build without MODPLUG_TRACKER, where the tables are instance
members, let the cached resampler be constructed by the first call of
`InitializeTablesFromCache` (instance `a`), let a second instance `b` be
initialised through the cache, and let `InitializeTablesFromScratch(true)` run on
a fresh instance.  All three calls return, and on every index of the sinc tables
the tables of `a` equal those of the fresh instance and those of `b` equal those
of `a`, whatever any of the buffers held before; where the float mirror exists
and is generated (neither MPT_INTMIXER nor MPT_BUILD_FUZZER), the mirror of `a`
equals that of the fresh instance on all 1024 entries. -/
theorem InitializeTablesFromCache_agrees_with_scratch {B : Type} (m : CMath α)
    (cfg : BuildConfig) (H : ResamplerHeader) (X : Collaborators α B)
    (hlib : cfg.MODPLUG_TRACKER = false) (raw a b fresh : CResampler α B) :
    ∃ N, ∀ k, ∃ a' b' cached f',
      InitializeTablesFromCache m cfg H X (N + k) raw none a = some (a', cached) ∧
      InitializeTablesFromCache m cfg H X (N + k) raw (some cached) b = some (b', cached) ∧
      InitializeTablesFromScratch m cfg H X (N + k) fresh true = some f' ∧
      (∀ i, i < 8 * H.SINC_PHASES →
        a'.gKaiserSinc i = f'.gKaiserSinc i ∧ a'.gDownsample13x i = f'.gDownsample13x i ∧
        a'.gDownsample2x i = f'.gDownsample2x i ∧
        b'.gKaiserSinc i = a'.gKaiserSinc i ∧ b'.gDownsample13x i = a'.gDownsample13x i ∧
        b'.gDownsample2x i = a'.gDownsample2x i) ∧
      (cfg.MPT_INTMIXER = false → cfg.MPT_BUILD_FUZZER = false →
        ∀ i, i < 256 * 4 → a'.FastSincTablef i = f'.FastSincTablef i) := by
  obtain ⟨N1, h1⟩ := InitializeTablesFromScratch_terminates m cfg H X raw true
  obtain ⟨N2, h2⟩ := InitializeTablesFromScratch_terminates m cfg H X fresh true
  refine ⟨N1 + N2, fun k => ?_⟩
  obtain ⟨c, hc⟩ := h1 (N2 + k)
  obtain ⟨f', hf⟩ := h2 (N1 + k)
  have a1 : N1 + (N2 + k) = N1 + N2 + k := by omega
  have a2 : N2 + (N1 + k) = N1 + N2 + k := by omega
  rw [a1] at hc
  rw [a2] at hf
  have hforce : ∀ flag, initParameterIndependentTables cfg flag true = true := by
    intro flag
    rw [initParameterIndependentTables_eq, hlib]
    rfl
  -- the tables of the cached and of the fresh instance are outputs of `getsinc`
  have tables : ∀ (r r' : CResampler α B),
      InitializeTablesFromScratch m cfg H X (N1 + N2 + k) r true = some r' →
      getsinc m cfg H (N1 + N2 + k) r.gKaiserSinc 9.6377 0.97 = some r'.gKaiserSinc ∧
      getsinc m cfg H (N1 + N2 + k) r.gDownsample13x 8.5 0.5 = some r'.gDownsample13x ∧
      getsinc m cfg H (N1 + N2 + k) r.gDownsample2x 7.0 0.425 = some r'.gDownsample2x ∧
      r'.FastSincTablef = (InitFloatmixerTables cfg r).FastSincTablef := by
    intro r r' hr
    rcases InitializeTablesFromScratch_cases m cfg H X _ r r' true hr with
      ⟨-, r1, hr1, rfl⟩ | ⟨hi, -⟩
    · obtain ⟨e1, e2, e3, e4, -⟩ := initTablesBlock_spec m cfg H X _ r r1 hr1
      obtain ⟨-, -, w1, w2, w3, -, w4⟩ := initWindowedFIR_frame X r1 true
      rw [w1, w2, w3, w4]
      exact ⟨e1, e2, e3, e4⟩
    · rw [hforce] at hi
      cases hi
  obtain ⟨c1, c2, c3, -⟩ := tables raw c hc
  obtain ⟨g1, g2, g3, g4⟩ := tables fresh f' hf
  refine ⟨copyFromCachedResampler cfg H c a, copyFromCachedResampler cfg H c b, c, f',
    ?_, ?_, hf, ?_, ?_⟩
  · simp only [InitializeTablesFromCache, GetCachedResampler, CResampler_construct_fresh, hc,
      Option.map_some']
  · simp only [InitializeTablesFromCache, GetCachedResampler, Option.map_some']
  · intro i hi
    have hi' : i < H.SINC_PHASES * 8 := by omega
    have k1 : ∀ self : CResampler α B,
        (copyFromCachedResampler cfg H c self).gKaiserSinc i = c.gKaiserSinc i := fun self => by
      simp only [copyFromCachedResampler, std_copy, hi', if_true]
    have k2 : ∀ self : CResampler α B,
        (copyFromCachedResampler cfg H c self).gDownsample13x i = c.gDownsample13x i :=
      fun self => by simp only [copyFromCachedResampler, std_copy, hi', if_true]
    have k3 : ∀ self : CResampler α B,
        (copyFromCachedResampler cfg H c self).gDownsample2x i = c.gDownsample2x i :=
      fun self => by simp only [copyFromCachedResampler, std_copy, hi', if_true]
    rw [k1 a, k2 a, k3 a, k1 b, k2 b, k3 b]
    exact ⟨getsinc_buffer_independent m cfg H _ _ _ _ _ _ _ c1 g1 i hi,
      getsinc_buffer_independent m cfg H _ _ _ _ _ _ _ c2 g2 i hi,
      getsinc_buffer_independent m cfg H _ _ _ _ _ _ _ c3 g3 i hi, rfl, rfl, rfl⟩
  · intro hint hfuzz i hi
    rw [g4, InitFloatmixerTables_mirror cfg fresh hint hfuzz i hi]
    simp only [copyFromCachedResampler]
    exact InitFloatmixerTables_mirror cfg a hint hfuzz i hi

/-- C5, on concrete instances of the library build: the static storage of the
cache and the second caller start from all-zero tables, the first caller and the
fresh instance from other states. -/
theorem InitializeTablesFromCache_agrees_with_scratch_example :
    libraryBuild.MODPLUG_TRACKER = false ∧
    ∃ N, ∀ k, ∃ a' b' cached f',
      InitializeTablesFromCache ratMath libraryBuild header16 ratCollaborators (N + k)
        (zeroResampler false) none (zeroResampler true) = some (a', cached) ∧
      InitializeTablesFromCache ratMath libraryBuild header16 ratCollaborators (N + k)
        (zeroResampler false) (some cached) (zeroResampler false) = some (b', cached) ∧
      InitializeTablesFromScratch ratMath libraryBuild header16 ratCollaborators (N + k)
        { zeroResampler false with gKaiserSinc := fun _ => SINC_TYPE.fixed 5 } true = some f' ∧
      (∀ i, i < 8 * header16.SINC_PHASES →
        a'.gKaiserSinc i = f'.gKaiserSinc i ∧ a'.gDownsample13x i = f'.gDownsample13x i ∧
        a'.gDownsample2x i = f'.gDownsample2x i ∧
        b'.gKaiserSinc i = a'.gKaiserSinc i ∧ b'.gDownsample13x i = a'.gDownsample13x i ∧
        b'.gDownsample2x i = a'.gDownsample2x i) ∧
      (libraryBuild.MPT_INTMIXER = false → libraryBuild.MPT_BUILD_FUZZER = false →
        ∀ i, i < 256 * 4 → a'.FastSincTablef i = f'.FastSincTablef i) :=
  ⟨rfl, InitializeTablesFromCache_agrees_with_scratch ratMath libraryBuild header16
    ratCollaborators rfl (zeroResampler false) (zeroResampler true) (zeroResampler false)
    { zeroResampler false with gKaiserSinc := fun _ => SINC_TYPE.fixed 5 }⟩

end

/-! ## Claims about the coefficients of `getsinc` -/

section
variable {α : Type} [LinearOrderedField α]

theorem IzeroLoop_ge (y : α) :
    ∀ (n : Nat) (s ds d v : α), 0 ≤ ds → 0 ≤ d → IzeroLoop y n s ds d = some v →
      s + ds * (y * y) / ((d + 2) * (d + 2)) ≤ v := by
  intro n
  induction n with
  | zero => intro s ds d v _ _ h; simp [IzeroLoop] at h
  | succ n ih =>
    intro s ds d v hds hd h
    have hyy : 0 ≤ y * y := mul_self_nonneg y
    have hnn : 0 ≤ ds * (y * y) / ((d + 2) * (d + 2)) := by positivity
    simp only [IzeroLoop] at h
    split at h
    · have := ih _ _ _ v hnn (by linarith) h
      have h2 : 0 ≤ ds * (y * y) / ((d + 2) * (d + 2)) * (y * y) / ((d + 2 + 2) * (d + 2 + 2)) := by
        positivity
      linarith
    · simp only [Option.some.injEq] at h
      rw [← h]

/-- Every value `Izero` returns is at least `1 + y² / 4`, the first two terms of
the series. -/
theorem Izero_ge (fuel : Nat) (y v : α) (h : Izero fuel y = some v) : 1 + y * y / 4 ≤ v := by
  have := IzeroLoop_ge y fuel 1 1 0 v zero_le_one le_rfl h
  have e : (1 : α) + 1 * (y * y) / ((0 + 2) * (0 + 2)) = 1 + y * y / 4 := by norm_num
  rwa [e] at this

theorem Izero_one_le (fuel : Nat) (y v : α) (h : Izero fuel y = some v) : 1 ≤ v := by
  have := Izero_ge fuel y v h
  have hyy : 0 ≤ y * y := mul_self_nonneg y
  linarith

theorem Izero_zero (fuel : Nat) : Izero (fuel + 1) (0 : α) = some 1 := by
  simp only [Izero, IzeroLoop]
  rw [if_neg]
  · norm_num
  · norm_num

theorem getsincCutoff_le (cutoff : α) : getsincCutoff cutoff ≤ 0.999 := by
  unfold getsincCutoff
  split
  · exact le_rfl
  · rename_i h
    exact le_of_lt (not_le.mp h)

theorem getsincCutoff_of_ge (cutoff : α) (h : 0.999 ≤ cutoff) : getsincCutoff cutoff = 0.999 := by
  unfold getsincCutoff
  exact if_pos h

theorem getsincCutoff_of_lt (cutoff : α) (h : cutoff < 0.999) : getsincCutoff cutoff = cutoff := by
  unfold getsincCutoff
  exact if_neg (not_le.mpr h)

theorem getsincCutoff_idem (cutoff : α) : getsincCutoff (getsincCutoff cutoff) = getsincCutoff cutoff := by
  rcases le_or_lt (0.999 : α) cutoff with h | h
  · rw [getsincCutoff_of_ge cutoff h, getsincCutoff_of_ge _ le_rfl]
  · rw [getsincCutoff_of_lt cutoff h, getsincCutoff_of_lt cutoff h]

/-- At the kernel centre `fsinc` is 1 and the coefficient is the clamped cutoff. -/
theorem getsincCoeffAt_centre (m : CMath α) (P fuel : Nat) (beta cutoff v0 : α)
    (h0 : Izero fuel beta = some v0) :
    getsincCoeffAt m P fuel beta cutoff (4 * (P : Int)) = some (getsincCutoff cutoff) := by
  simp only [getsincCoeffAt, h0, Option.some_bind, getsincCoeff, getsincFsinc, if_true,
    Option.map_some', one_mul]

/-- The position of phase 0, tap 3 is the one whose kernel offset is the centre. -/
theorem getsincIx_three (P : Nat) : getsincIx P 3 = 4 * (P : Int) := by
  have h1 : (3 &&& 7 : Nat) = 3 := by decide
  have h2 : (3 >>> 3 : Nat) = 0 := by decide
  simp only [getsincIx, h1, h2]
  push_cast
  ring

/-- C7, as stated, fails.  With the real `sin`, `sqrt` and `atan`, 256 phases,
beta = 1 and cutoff = 1/8, the code's coefficient for kernel offset 0 (x = -4)
differs from the specification's formula with window argument
`sqrt(1 - (x/16)²)`: the code's window argument is `sqrt(1 - x*x/16) = 0`. -/
theorem getsincCoeffAt_ne_specKernel :
    ∃ fuel c c',
      getsincCoeffAt (CMath.mk Real.sin Real.sqrt Real.arctan) 256 fuel 1 (1 / 8) 0 = some c ∧
      specKernel (CMath.mk Real.sin Real.sqrt Real.arctan) fuel 1 (getsincCutoff (1 / 8))
        (getsincX 256 0) = some c' ∧
      c ≠ c' := by
  have hx : (getsincX 256 (0 : Int) : ℝ) = -4 := by norm_num [getsincX]
  have hcut : getsincCutoff (1 / 8 : ℝ) = 1 / 8 := getsincCutoff_of_lt _ (by norm_num)
  obtain ⟨N1, h1⟩ := Izero_terminates (1 : ℝ)
  obtain ⟨i0, hi0⟩ := h1 0
  obtain ⟨N3, h3⟩ := Izero_terminates ((1 : ℝ) * Real.sqrt (1 - (-4 / 16) ^ 2))
  obtain ⟨w, hw⟩ := h3 0
  have hi0' : Izero (N1 + N3 + 1) (1 : ℝ) = some i0 := by
    have := Izero_fuel_mono (1 : ℝ) i0 (N1 + 0) (N3 + 1) hi0
    rwa [Nat.add_zero, ← Nat.add_assoc] at this
  have hw' : Izero (N1 + N3 + 1) ((1 : ℝ) * Real.sqrt (1 - (-4 / 16) ^ 2)) = some w := by
    have := Izero_fuel_mono _ w (N3 + 0) (N1 + 1) hw
    have e : N3 + 0 + (N1 + 1) = N1 + N3 + 1 := by omega
    rwa [e] at this
  have hz : Izero (N1 + N3 + 1) (0 : ℝ) = some 1 := Izero_zero (N1 + N3)
  have harg : (1 : ℝ) * Real.sqrt (1 - (-4) * (-4) * (1 / 16)) = 0 := by norm_num
  have hi0pos : (1 : ℝ) ≤ i0 := Izero_one_le _ _ _ hi0
  have hwge := Izero_ge _ _ _ hw
  have hsq : ((1 : ℝ) * Real.sqrt (1 - (-4 / 16) ^ 2)) * ((1 : ℝ) * Real.sqrt (1 - (-4 / 16) ^ 2))
      = 15 / 16 := by
    rw [one_mul, Real.mul_self_sqrt (by norm_num)]
    norm_num
  rw [hsq] at hwge
  have hpi : (0 : ℝ) < Real.pi := Real.pi_pos
  have e1 : (-4 : ℝ) * (4 * Real.arctan 1 * (1 / 8)) = -(Real.pi / 2) := by
    rw [Real.arctan_one]; ring
  have e2 : (-4 : ℝ) * (1 / 8) * (4 * Real.arctan 1) = -(Real.pi / 2) := by
    rw [Real.arctan_one]; ring
  refine ⟨N1 + N3 + 1, Real.sin (-(Real.pi / 2)) * 1 / (i0 * -(Real.pi / 2)) * (1 / 8),
    1 / 8 * Real.sin (-(Real.pi / 2)) / (-(Real.pi / 2)) * w / i0, ?_, ?_, ?_⟩
  · simp only [getsincCoeffAt, getsincCoeff, getsincFsinc, hcut, hi0', Option.some_bind, hx,
      harg, hz, Option.map_some', e1]
    rw [if_neg (by norm_num)]
    rfl
  · simp only [specKernel, hcut, hx, hw', hi0', Option.some_bind, Option.map_some', e2]
  · rw [Real.sin_neg, Real.sin_pi_div_two]
    intro h
    have hi0ne : i0 ≠ 0 := by positivity
    have hpine : Real.pi ≠ 0 := ne_of_gt hpi
    field_simp at h
    have h3 : (w - 1) * (Real.pi * i0) = 0 := by
      ring_nf at h ⊢
      linarith
    rcases mul_eq_zero.mp h3 with h4 | h4
    · linarith
    · have : 0 < Real.pi * i0 := by positivity
      linarith

/-- C7 (amended).  For every beta, every cutoff and every kernel offset `ix` other
than the centre, the computation returns (with enough fuel) and the unquantised
coefficient equals
`cutoff * sin(x*cutoff*π) / (x*cutoff*π) * I0(beta * sqrt(1 - x*x/16)) / I0(beta)`
in exact arithmetic, where `x = (ix - 4*SINC_PHASES) / SINC_PHASES`, `cutoff` is
the clamped cutoff, `π` is `4 * atan(1)` and `I0` is `Izero`. -/
theorem getsincCoeffAt_formula (m : CMath α) [Archimedean α] (P : Nat) (beta cutoff : α)
    (ix : Int) (hne : ix ≠ 4 * (P : Int)) :
    ∃ N, ∀ k, ∃ w i0,
      Izero (N + k) (beta * m.sqrt (1 - getsincX P ix * getsincX P ix / 16)) = some w ∧
      Izero (N + k) beta = some i0 ∧
      getsincCoeffAt m P (N + k) beta cutoff ix =
        some (getsincCutoff cutoff
          * m.sin (getsincX P ix * getsincCutoff cutoff * (4 * m.atan 1))
          / (getsincX P ix * getsincCutoff cutoff * (4 * m.atan 1)) * w / i0) ∧
      (getsincX P ix : α) = ((ix : α) - 4 * (P : α)) / (P : α) := by
  obtain ⟨N1, h1⟩ := Izero_terminates beta
  obtain ⟨N2, h2⟩ := Izero_terminates
    (beta * m.sqrt (1 - getsincX P ix * getsincX P ix / 16))
  refine ⟨N1 + N2, fun k => ?_⟩
  obtain ⟨i0, hi0⟩ := h1 (N2 + k)
  obtain ⟨w, hw⟩ := h2 (N1 + k)
  have a1 : N1 + (N2 + k) = N1 + N2 + k := by omega
  have a2 : N2 + (N1 + k) = N1 + N2 + k := by omega
  rw [a1] at hi0
  rw [a2] at hw
  refine ⟨w, i0, hw, hi0, ?_, ?_⟩
  · have harg : beta * m.sqrt (1 - getsincX P ix * getsincX P ix * (1 / 16))
        = beta * m.sqrt (1 - getsincX P ix * getsincX P ix / 16) := by
      rw [mul_one_div]
    simp only [getsincCoeffAt, getsincCoeff, getsincFsinc, hi0, Option.some_bind, if_neg hne,
      harg, hw, Option.map_some', Option.some.injEq]
    simp only [div_eq_mul_inv, mul_inv]
    ring_nf
  · simp only [getsincX]
    push_cast
    rw [mul_one_div]

/-- C7 (amended), on a concrete input: the rational stand-in math library, 256
phases, beta 1, cutoff 1/8 and kernel offset 0. -/
theorem getsincCoeffAt_formula_example :
    (0 : Int) ≠ 4 * ((256 : Nat) : Int) ∧
    ∃ N, ∀ k, ∃ w i0,
      Izero (N + k) ((1 : ℚ) * ratMath.sqrt (1 - getsincX 256 0 * getsincX 256 0 / 16))
        = some w ∧
      Izero (N + k) (1 : ℚ) = some i0 ∧
      getsincCoeffAt ratMath 256 (N + k) 1 (1 / 8) 0 =
        some (getsincCutoff (1 / 8)
          * ratMath.sin (getsincX 256 0 * getsincCutoff (1 / 8) * (4 * ratMath.atan 1))
          / (getsincX 256 0 * getsincCutoff (1 / 8) * (4 * ratMath.atan 1)) * w / i0) ∧
      (getsincX 256 0 : ℚ) = (((0 : Int) : ℚ) - 4 * ((256 : Nat) : ℚ)) / ((256 : Nat) : ℚ) :=
  ⟨by decide, getsincCoeffAt_formula ratMath 256 1 (1 / 8) 0 (by decide)⟩

/-- C8, as stated, fails.  With the real `sin`, `sqrt` and `atan`, 256 phases,
beta = 1 and cutoff = 1/4, the coefficient `c` produced in loop iteration 0 is
computed from kernel offset 1792 (x = 3), is not zero and is stored at table
position 0 (tap 0 of phase 0); the kernel at x = (0 - 4*256)/256 = -4 (kernel
offset 0) is 0, and so is the entry at tap 7 - (0 & 7) = 7 of phase 0. -/
theorem getsinc_loop_offset_is_not_kernel_offset :
    ∃ fuel tbl c,
      getsinc (CMath.mk Real.sin Real.sqrt Real.arctan) libraryBuild header16 fuel
        (fun _ => SINC_TYPE.flt 0) 1 (1 / 4) = some tbl ∧
      getsincIx 256 0 = 1792 ∧ (getsincX 256 1792 : ℝ) = 3 ∧ (getsincX 256 0 : ℝ) = -4 ∧
      getsincCoeffAt (CMath.mk Real.sin Real.sqrt Real.arctan) 256 fuel 1 (1 / 4)
        (getsincIx 256 0) = some c ∧
      tbl 0 = SINC_TYPE.flt c ∧
      getsincCoeffAt (CMath.mk Real.sin Real.sqrt Real.arctan) 256 fuel 1 (1 / 4) 0 = some 0 ∧
      tbl 7 = SINC_TYPE.flt 0 ∧
      c ≠ 0 := by
  have hcut : getsincCutoff (1 / 4 : ℝ) = 1 / 4 := getsincCutoff_of_lt _ (by norm_num)
  have hix0 : getsincIx 256 0 = 1792 := by decide
  have hix7 : getsincIx 256 7 = 0 := by decide
  have hx3 : (getsincX 256 (1792 : Int) : ℝ) = 3 := by norm_num [getsincX]
  have hx4 : (getsincX 256 (0 : Int) : ℝ) = -4 := by norm_num [getsincX]
  have hpi : (0 : ℝ) < Real.pi := Real.pi_pos
  obtain ⟨N, hN⟩ := getsinc_terminates (CMath.mk Real.sin Real.sqrt Real.arctan) libraryBuild
    header16 (fun _ => SINC_TYPE.flt 0) 1 (1 / 4)
  obtain ⟨tbl, ht⟩ := hN 0
  obtain ⟨c, hc, hs⟩ := (getsinc_spec _ libraryBuild header16 (N + 0) _ tbl _ _ ht 0).1
    (by decide)
  obtain ⟨c7, hc7, hs7⟩ := (getsinc_spec _ libraryBuild header16 (N + 0) _ tbl _ _ ht 7).1
    (by decide)
  have hP : header16.SINC_PHASES = 256 := rfl
  rw [hP] at hc hc7
  rw [hix7] at hc7
  have hstore : ∀ v : ℝ, getsincStore libraryBuild header16 v = SINC_TYPE.flt v := fun v => rfl
  rw [hstore] at hs hs7
  -- the kernel at offset 0 (x = -4) vanishes: sin(-π) = 0
  have e4 : (-4 : ℝ) * (4 * Real.arctan 1 * (1 / 4)) = -Real.pi := by
    rw [Real.arctan_one]; ring
  have hzero : c7 = 0 := by
    simp only [getsincCoeffAt, getsincCoeff, getsincFsinc, hcut, Option.bind_eq_some, hx4, e4,
      Real.sin_neg, Real.sin_pi] at hc7
    obtain ⟨i0, -, h⟩ := hc7
    rw [if_neg (by norm_num)] at h
    simp only [Option.map_eq_some'] at h
    obtain ⟨f, ⟨iz, -, rfl⟩, rfl⟩ := h
    simp
  -- the coefficient of iteration 0 (x = 3) is positive: sin(3π/4) > 0
  have e3 : (3 : ℝ) * (4 * Real.arctan 1 * (1 / 4)) = 3 * Real.pi / 4 := by
    rw [Real.arctan_one]; ring
  have hpos : 0 < c := by
    have hc' := hc
    rw [hix0] at hc'
    simp only [getsincCoeffAt, getsincCoeff, getsincFsinc, hcut, Option.bind_eq_some, hx3, e3]
      at hc'
    obtain ⟨i0, hi0, h⟩ := hc'
    rw [if_neg (by norm_num)] at h
    simp only [Option.map_eq_some'] at h
    obtain ⟨f, ⟨iz, hiz, rfl⟩, rfl⟩ := h
    have h1 : (1 : ℝ) ≤ i0 := Izero_one_le _ _ _ hi0
    have h2 : (1 : ℝ) ≤ iz := Izero_one_le _ _ _ hiz
    have h3 : 0 < Real.sin (3 * Real.pi / 4) :=
      Real.sin_pos_of_pos_of_lt_pi (by positivity) (by linarith)
    positivity
  refine ⟨N + 0, tbl, c, ht, hix0, hx3, hx4, hc, hs, ?_, ?_, ne_of_gt hpos⟩
  · rw [hzero] at hc7
    exact hc7
  · rw [hs7, hzero]

theorem land_seven (n : Nat) : n &&& 7 = n % 8 :=
  Nat.and_pow_two_sub_one_eq_mod n 3

theorem shiftRight_three (n : Nat) : n >>> 3 = n / 8 :=
  Nat.shiftRight_eq_div_pow n 3

/-- C8 (amended).  For each loop index `isrc` below `8 * SINC_PHASES`, `getsinc`
returns (with enough fuel) and the coefficient produced in iteration `isrc` is
the kernel evaluated at `x = (ix - 4*SINC_PHASES) / SINC_PHASES` for the kernel
offset `ix = (7 - (isrc & 7)) * SINC_PHASES + (isrc >> 3)`; it is stored at table
position `isrc`, that is, as tap `isrc & 7` of phase `isrc >> 3`. -/
theorem getsinc_coefficient_position [FloorRing α] (m : CMath α) (cfg : BuildConfig)
    (H : ResamplerHeader) (psinc : Nat → SINC_TYPE α) (beta cutoff : α) (isrc : Nat)
    (h : isrc < 8 * H.SINC_PHASES) :
    ∃ N, ∀ k, ∃ tbl c,
      getsinc m cfg H (N + k) psinc beta cutoff = some tbl ∧
      getsincIx H.SINC_PHASES isrc
        = (7 - ((isrc &&& 7 : Nat) : Int)) * (H.SINC_PHASES : Int) + ((isrc >>> 3 : Nat) : Int) ∧
      getsincCoeffAt m H.SINC_PHASES (N + k) beta cutoff (getsincIx H.SINC_PHASES isrc)
        = some c ∧
      (getsincX H.SINC_PHASES (getsincIx H.SINC_PHASES isrc) : α)
        = (((getsincIx H.SINC_PHASES isrc : Int) : α) - 4 * (H.SINC_PHASES : α))
            / (H.SINC_PHASES : α) ∧
      tbl isrc = getsincStore cfg H c ∧
      tbl (8 * (isrc >>> 3) + (isrc &&& 7)) = getsincStore cfg H c ∧
      isrc &&& 7 < 8 ∧ isrc >>> 3 < H.SINC_PHASES := by
  obtain ⟨N, hN⟩ := getsinc_terminates m cfg H psinc beta cutoff
  refine ⟨N, fun k => ?_⟩
  obtain ⟨tbl, ht⟩ := hN k
  obtain ⟨c, hc, hs⟩ := (getsinc_spec m cfg H (N + k) psinc tbl beta cutoff ht isrc).1 h
  have hpos : 8 * (isrc >>> 3) + (isrc &&& 7) = isrc := by
    rw [land_seven, shiftRight_three]
    omega
  refine ⟨tbl, c, ht, rfl, hc, ?_, hs, by rw [hpos]; exact hs, ?_, ?_⟩
  · simp only [getsincX]
    push_cast
    rw [mul_one_div]
  · rw [land_seven]
    omega
  · rw [shiftRight_three]
    omega

/-- C8 (amended), on a concrete input: the rational stand-in math library, 256
phases, the fixed-point library build, loop index 0. -/
theorem getsinc_coefficient_position_example :
    0 < 8 * header16.SINC_PHASES ∧
    ∃ N, ∀ k, ∃ tbl c,
      getsinc ratMath libraryIntBuild header16 (N + k) (fun _ => SINC_TYPE.fixed 0) 1 (1 / 4)
        = some tbl ∧
      getsincIx header16.SINC_PHASES 0
        = (7 - ((0 &&& 7 : Nat) : Int)) * (header16.SINC_PHASES : Int)
            + ((0 >>> 3 : Nat) : Int) ∧
      getsincCoeffAt ratMath header16.SINC_PHASES (N + k) 1 (1 / 4)
        (getsincIx header16.SINC_PHASES 0) = some c ∧
      (getsincX header16.SINC_PHASES (getsincIx header16.SINC_PHASES 0) : ℚ)
        = (((getsincIx header16.SINC_PHASES 0 : Int) : ℚ) - 4 * (header16.SINC_PHASES : ℚ))
            / (header16.SINC_PHASES : ℚ) ∧
      tbl 0 = getsincStore libraryIntBuild header16 c ∧
      tbl (8 * (0 >>> 3) + (0 &&& 7)) = getsincStore libraryIntBuild header16 c ∧
      0 &&& 7 < 8 ∧ 0 >>> 3 < header16.SINC_PHASES :=
  ⟨by decide, getsinc_coefficient_position ratMath libraryIntBuild header16
    (fun _ => SINC_TYPE.fixed 0) 1 (1 / 4) 0 (by decide)⟩

/-- The saturating round of a non-negative value whose rounding fits the
destination range is the rounding itself. -/
theorem saturate_round_of_fits [FloorRing α] (lo hi : Int) (v : α) (hv : 0 ≤ v)
    (hlo : lo ≤ round v) (hhi : round v ≤ hi) : saturate_round lo hi v = round v := by
  have hr : round v = ⌊v + 1 / 2⌋ := round_eq v
  rw [hr] at hlo hhi ⊢
  simp only [saturate_round, if_pos hv]
  rw [if_neg (not_lt.mpr hlo), if_neg (not_lt.mpr hhi)]

/-- C9.  At the kernel centre `4 * SINC_PHASES` the sinc factor is 1 and the
unquantised coefficient is the clamped cutoff.  For the upsampling table (beta
9.6377, cutoff 0.97) the entry at position 3 (phase 0, tap 3), whose kernel
offset is the centre, is the stored form of 0.97: 0.97 itself in the
floating-point build, and `round(0.97 * 2^SINC_QUANTSHIFT)` in the fixed-point
build when that value lies in the range of `SINC_TYPE`. -/
theorem getsinc_centre_coefficient [FloorRing α] (m : CMath α) (cfg : BuildConfig)
    (H : ResamplerHeader) (hP : 0 < H.SINC_PHASES) (psinc : Nat → SINC_TYPE α)
    (beta cutoff : α) :
    ∃ N, ∀ k,
      (∀ izeroBeta kPi : α,
        getsincFsinc m H.SINC_PHASES (N + k) beta izeroBeta kPi (4 * (H.SINC_PHASES : Int))
          = some 1) ∧
      getsincCoeffAt m H.SINC_PHASES (N + k) beta cutoff (4 * (H.SINC_PHASES : Int))
        = some (getsincCutoff cutoff) ∧
      ∃ tbl, getsinc m cfg H (N + k) psinc 9.6377 0.97 = some tbl ∧
        getsincIx H.SINC_PHASES 3 = 4 * (H.SINC_PHASES : Int) ∧
        getsincCoeffAt m H.SINC_PHASES (N + k) 9.6377 0.97 (getsincIx H.SINC_PHASES 3)
          = some 0.97 ∧
        tbl 3 = getsincStore cfg H 0.97 ∧
        (cfg.MPT_INTMIXER = false → tbl 3 = SINC_TYPE.flt 0.97) ∧
        (cfg.MPT_INTMIXER = true →
          H.SINC_TYPE_min ≤ round ((0.97 : α) * 2 ^ H.SINC_QUANTSHIFT) →
          round ((0.97 : α) * 2 ^ H.SINC_QUANTSHIFT) ≤ H.SINC_TYPE_max →
          tbl 3 = SINC_TYPE.fixed (round ((0.97 : α) * 2 ^ H.SINC_QUANTSHIFT))) := by
  obtain ⟨N1, h1⟩ := Izero_terminates beta
  obtain ⟨N2, h2⟩ := getsinc_terminates m cfg H psinc 9.6377 0.97
  refine ⟨N1 + N2, fun k => ?_⟩
  obtain ⟨v0, hv0⟩ := h1 (N2 + k)
  obtain ⟨tbl, ht⟩ := h2 (N1 + k)
  have a1 : N1 + (N2 + k) = N1 + N2 + k := by omega
  have a2 : N2 + (N1 + k) = N1 + N2 + k := by omega
  rw [a1] at hv0
  rw [a2] at ht
  have hcut : getsincCutoff (0.97 : α) = 0.97 := getsincCutoff_of_lt _ (by norm_num)
  obtain ⟨c, hc, hs⟩ := (getsinc_spec m cfg H _ psinc tbl _ _ ht 3).1 (by omega)
  have hc' := hc
  simp only [getsincCoeffAt, Option.bind_eq_some] at hc'
  obtain ⟨v1, hv1, -⟩ := hc'
  have hcentre := getsincCoeffAt_centre m H.SINC_PHASES (N1 + N2 + k) 9.6377 0.97 v1 hv1
  rw [hcut, ← getsincIx_three] at hcentre
  rw [hcentre] at hc
  cases hc
  refine ⟨fun _ _ => by simp only [getsincFsinc, if_true],
    getsincCoeffAt_centre m H.SINC_PHASES _ beta cutoff v0 hv0,
    tbl, ht, getsincIx_three _, hcentre, hs, ?_, ?_⟩
  · intro hint
    rw [hs]
    simp only [getsincStore, hint, Bool.false_eq_true, if_false]
  · intro hint hlo hhi
    rw [hs]
    simp only [getsincStore, hint, if_true, Nat.one_shiftLeft, Nat.cast_pow, Nat.cast_ofNat]
    rw [saturate_round_of_fits _ _ _ (by positivity) hlo hhi]

/-- C9, on a concrete input: the rational stand-in math library, 256 phases and
a 16-bit `SINC_TYPE` with quantisation shift 15, fixed-point library build. -/
theorem getsinc_centre_coefficient_example :
    0 < header16.SINC_PHASES ∧
    ∃ N, ∀ k,
      (∀ izeroBeta kPi : ℚ,
        getsincFsinc ratMath header16.SINC_PHASES (N + k) 7 izeroBeta kPi
          (4 * (header16.SINC_PHASES : Int)) = some 1) ∧
      getsincCoeffAt ratMath header16.SINC_PHASES (N + k) 7 2 (4 * (header16.SINC_PHASES : Int))
        = some (getsincCutoff 2) ∧
      ∃ tbl, getsinc ratMath libraryIntBuild header16 (N + k) (fun _ => SINC_TYPE.fixed 0)
          9.6377 0.97 = some tbl ∧
        getsincIx header16.SINC_PHASES 3 = 4 * (header16.SINC_PHASES : Int) ∧
        getsincCoeffAt ratMath header16.SINC_PHASES (N + k) 9.6377 0.97
          (getsincIx header16.SINC_PHASES 3) = some 0.97 ∧
        tbl 3 = getsincStore libraryIntBuild header16 0.97 ∧
        (libraryIntBuild.MPT_INTMIXER = false → tbl 3 = SINC_TYPE.flt 0.97) ∧
        (libraryIntBuild.MPT_INTMIXER = true →
          header16.SINC_TYPE_min ≤ round ((0.97 : ℚ) * 2 ^ header16.SINC_QUANTSHIFT) →
          round ((0.97 : ℚ) * 2 ^ header16.SINC_QUANTSHIFT) ≤ header16.SINC_TYPE_max →
          tbl 3 = SINC_TYPE.fixed (round ((0.97 : ℚ) * 2 ^ header16.SINC_QUANTSHIFT))) :=
  ⟨by decide, getsinc_centre_coefficient ratMath libraryIntBuild header16 (by decide)
    (fun _ => SINC_TYPE.fixed 0) 7 2⟩

/-- C10.  `getsinc` clamps its cutoff to at most 0.999: the effective cutoff is
0.999 for every cutoff at or above 0.999 and the cutoff itself below 0.999, so it
never exceeds 0.999; `getsinc` returns (with enough fuel), its table is the one
it produces for the effective cutoff, and for a cutoff at or above 0.999 it is
the table of `getsinc(beta, 0.999)`. -/
theorem getsinc_cutoff_clamp [FloorRing α] (m : CMath α) (cfg : BuildConfig)
    (H : ResamplerHeader) (psinc : Nat → SINC_TYPE α) (beta cutoff : α) :
    getsincCutoff cutoff ≤ 0.999 ∧
    (0.999 ≤ cutoff → getsincCutoff cutoff = 0.999) ∧
    (cutoff < 0.999 → getsincCutoff cutoff = cutoff) ∧
    ∃ N, ∀ k, ∃ tbl,
      getsinc m cfg H (N + k) psinc beta cutoff = some tbl ∧
      getsinc m cfg H (N + k) psinc beta (getsincCutoff cutoff) = some tbl ∧
      (0.999 ≤ cutoff → getsinc m cfg H (N + k) psinc beta 0.999 = some tbl) := by
  refine ⟨getsincCutoff_le cutoff, getsincCutoff_of_ge cutoff, getsincCutoff_of_lt cutoff, ?_⟩
  obtain ⟨N, hN⟩ := getsinc_terminates m cfg H psinc beta cutoff
  refine ⟨N, fun k => ?_⟩
  obtain ⟨tbl, ht⟩ := hN k
  have hclamp : getsinc m cfg H (N + k) psinc beta (getsincCutoff cutoff)
      = getsinc m cfg H (N + k) psinc beta cutoff := by
    simp only [getsinc, getsincCutoff_idem]
  refine ⟨tbl, ht, by rw [hclamp]; exact ht, fun hge => ?_⟩
  rw [← getsincCutoff_of_ge cutoff hge, hclamp]
  exact ht

end

/-! ## Comparing two runs of `Izero` -/

section
variable {α : Type} [LinearOrderedField α]

/-- One loop body executed on two runs with `t1 ≤ t2` for the squares of the
arguments: the new term and sum of the first run stay below those of the
second, the ratio term/sum stays ordered, and so the second run continues
whenever the first does. -/
theorem Izero_step_facts (t1 t2 s1 ds1 s2 ds2 d : α) (ht1 : 0 ≤ t1) (ht : t1 ≤ t2)
    (hd : 0 ≤ d) (h1 : 0 ≤ ds1) (h12 : ds1 ≤ ds2) (hs1 : 0 < s1) (hs2 : 0 < s2)
    (hr : ds1 * s2 ≤ ds2 * s1) :
    0 ≤ ds1 * t1 / ((d + 2) * (d + 2)) ∧
    ds1 * t1 / ((d + 2) * (d + 2)) ≤ ds2 * t2 / ((d + 2) * (d + 2)) ∧
    0 < s1 + ds1 * t1 / ((d + 2) * (d + 2)) ∧
    0 < s2 + ds2 * t2 / ((d + 2) * (d + 2)) ∧
    ds1 * t1 / ((d + 2) * (d + 2)) * (s2 + ds2 * t2 / ((d + 2) * (d + 2)))
      ≤ ds2 * t2 / ((d + 2) * (d + 2)) * (s1 + ds1 * t1 / ((d + 2) * (d + 2))) ∧
    (ds1 * t1 / ((d + 2) * (d + 2)) > 1E-7 * (s1 + ds1 * t1 / ((d + 2) * (d + 2))) →
      ds2 * t2 / ((d + 2) * (d + 2)) > 1E-7 * (s2 + ds2 * t2 / ((d + 2) * (d + 2)))) := by
  have hD : 0 < (d + 2) * (d + 2) := by positivity
  have h2 : 0 ≤ ds2 := le_trans h1 h12
  have ht2 : 0 ≤ t2 := le_trans ht1 ht
  have ha1 : 0 ≤ ds1 * t1 / ((d + 2) * (d + 2)) := by positivity
  have ha2 : 0 ≤ ds2 * t2 / ((d + 2) * (d + 2)) := by positivity
  have ha12 : ds1 * t1 / ((d + 2) * (d + 2)) ≤ ds2 * t2 / ((d + 2) * (d + 2)) :=
    div_le_div_of_nonneg_right (mul_le_mul h12 ht ht1 h2) (le_of_lt hD)
  have hcross : ds1 * t1 / ((d + 2) * (d + 2)) * s2 ≤ ds2 * t2 / ((d + 2) * (d + 2)) * s1 := by
    rw [div_mul_eq_mul_div, div_mul_eq_mul_div]
    apply div_le_div_of_nonneg_right _ (le_of_lt hD)
    have e1 : ds1 * t1 * s2 = ds1 * s2 * t1 := by ring
    have e2 : ds2 * t2 * s1 = ds2 * s1 * t2 := by ring
    rw [e1, e2]
    exact mul_le_mul hr ht ht1 (mul_nonneg h2 (le_of_lt hs1))
  generalize ds1 * t1 / ((d + 2) * (d + 2)) = a1 at ha1 ha12 hcross ⊢
  generalize ds2 * t2 / ((d + 2) * (d + 2)) = a2 at ha2 ha12 hcross ⊢
  have hps1 : 0 < s1 + a1 := by linarith
  have hps2 : 0 < s2 + a2 := by linarith
  have hratio : a1 * (s2 + a2) ≤ a2 * (s1 + a1) := by
    have e1 : a1 * (s2 + a2) = a1 * s2 + a1 * a2 := by ring
    have e2 : a2 * (s1 + a1) = a2 * s1 + a1 * a2 := by ring
    rw [e1, e2]
    linarith
  refine ⟨ha1, ha12, hps1, hps2, hratio, fun hc => ?_⟩
  by_contra hn
  have hn' := not_lt.mp hn
  have k1 : 1E-7 * (s1 + a1) * (s2 + a2) < a1 * (s2 + a2) := mul_lt_mul_of_pos_right hc hps2
  have k2 : a2 * (s1 + a1) ≤ 1E-7 * (s2 + a2) * (s1 + a1) :=
    mul_le_mul_of_nonneg_right hn' (le_of_lt hps1)
  have k3 : 1E-7 * (s2 + a2) * (s1 + a1) = 1E-7 * (s1 + a1) * (s2 + a2) := by ring
  linarith

/-- A run on the smaller argument leaves the loop no later than a run on the
larger one. -/
theorem IzeroLoop_exits_no_later (y1 y2 : α) (ht : y1 * y1 ≤ y2 * y2) :
    ∀ (n : Nat) (s1 ds1 s2 ds2 d v2 : α), 0 ≤ d → 0 ≤ ds1 → ds1 ≤ ds2 → 0 < s1 → 0 < s2 →
      ds1 * s2 ≤ ds2 * s1 → IzeroLoop y2 n s2 ds2 d = some v2 →
      ∃ v1, IzeroLoop y1 n s1 ds1 d = some v1 := by
  intro n
  induction n with
  | zero => intro s1 ds1 s2 ds2 d v2 _ _ _ _ _ _ h; simp [IzeroLoop] at h
  | succ n ih =>
    intro s1 ds1 s2 ds2 d v2 hd h1 h12 hs1 hs2 hr h
    obtain ⟨f1, f2, f3, f4, f5, f6⟩ :=
      Izero_step_facts (y1 * y1) (y2 * y2) s1 ds1 s2 ds2 d (mul_self_nonneg y1) ht hd h1 h12
        hs1 hs2 hr
    simp only [IzeroLoop] at h ⊢
    split
    · rename_i hc
      rw [if_pos (f6 hc)] at h
      exact ih _ _ _ _ _ v2 (by linarith) f1 f2 f3 f4 f5 h
    · exact ⟨_, rfl⟩

/-- The results of two runs differ by at least the difference of the sums after
the first loop body. -/
theorem IzeroLoop_compare (y1 y2 : α) (ht : y1 * y1 ≤ y2 * y2) :
    ∀ (n1 n2 : Nat) (s1 ds1 s2 ds2 d v1 v2 : α), 0 ≤ d → 0 ≤ ds1 → ds1 ≤ ds2 → 0 < s1 →
      0 < s2 → ds1 * s2 ≤ ds2 * s1 →
      IzeroLoop y1 n1 s1 ds1 d = some v1 → IzeroLoop y2 n2 s2 ds2 d = some v2 →
      (s2 + ds2 * (y2 * y2) / ((d + 2) * (d + 2)))
        - (s1 + ds1 * (y1 * y1) / ((d + 2) * (d + 2))) ≤ v2 - v1 := by
  intro n1
  induction n1 with
  | zero => intro n2 s1 ds1 s2 ds2 d v1 v2 _ _ _ _ _ _ h; simp [IzeroLoop] at h
  | succ n1 ih =>
    intro n2 s1 ds1 s2 ds2 d v1 v2 hd h1 h12 hs1 hs2 hr e1 e2
    obtain ⟨f1, f2, f3, f4, f5, f6⟩ :=
      Izero_step_facts (y1 * y1) (y2 * y2) s1 ds1 s2 ds2 d (mul_self_nonneg y1) ht hd h1 h12
        hs1 hs2 hr
    cases n2 with
    | zero => simp [IzeroLoop] at e2
    | succ n2 =>
      simp only [IzeroLoop] at e1 e2
      split at e1
      · rename_i hc
        rw [if_pos (f6 hc)] at e2
        have hd2 : (0 : α) ≤ d + 2 := by linarith
        have := ih n2 _ _ _ _ _ v1 v2 hd2 f1 f2 f3 f4 f5 e1 e2
        obtain ⟨-, g2, -⟩ :=
          Izero_step_facts (y1 * y1) (y2 * y2) _ _ _ _ (d + 2) (mul_self_nonneg y1) ht hd2 f1
            f2 f3 f4 f5
        linarith
      · simp only [Option.some.injEq] at e1
        split at e2
        · have hge := IzeroLoop_ge y2 n2 _ _ _ v2 (le_trans f1 f2) (by linarith) e2
          have hnn : 0 ≤ ds2 * (y2 * y2) / ((d + 2) * (d + 2)) * (y2 * y2)
              / ((d + 2 + 2) * (d + 2 + 2)) := by
            have := mul_self_nonneg y2
            have := le_trans f1 f2
            positivity
          linarith
        · simp only [Option.some.injEq] at e2
          rw [← e1, ← e2]

/-- Quantitative monotonicity of `Izero` in the square of its argument. -/
theorem Izero_compare (y1 y2 v1 v2 : α) (n1 n2 : Nat) (ht : y1 * y1 ≤ y2 * y2)
    (e1 : Izero n1 y1 = some v1) (e2 : Izero n2 y2 = some v2) :
    (y2 * y2 - y1 * y1) / 4 ≤ v2 - v1 := by
  have := IzeroLoop_compare y1 y2 ht n1 n2 1 1 1 1 0 v1 v2 le_rfl zero_le_one le_rfl
    zero_lt_one zero_lt_one le_rfl e1 e2
  have e : ((1 : α) + 1 * (y2 * y2) / ((0 + 2) * (0 + 2)))
      - (1 + 1 * (y1 * y1) / ((0 + 2) * (0 + 2))) = (y2 * y2 - y1 * y1) / 4 := by
    norm_num
    ring
  rwa [e] at this

theorem Izero_exits_no_later (y1 y2 v2 : α) (n : Nat) (ht : y1 * y1 ≤ y2 * y2)
    (e2 : Izero n y2 = some v2) : ∃ v1, Izero n y1 = some v1 :=
  IzeroLoop_exits_no_later y1 y2 ht n 1 1 1 1 0 v2 le_rfl zero_le_one le_rfl zero_lt_one
    zero_lt_one le_rfl e2

/-- One loop body from the state after `j` bodies leads to the state after
`j + 1` bodies. -/
theorem IzeroLoop_state_step (y : α) (fuel j : Nat) :
    IzeroLoop y (fuel + 1) (IzeroState y j).1 (IzeroState y j).2.1 (IzeroState y j).2.2
      = if (IzeroState y (j + 1)).2.1 > 1E-7 * (IzeroState y (j + 1)).1 then
          IzeroLoop y fuel (IzeroState y (j + 1)).1 (IzeroState y (j + 1)).2.1
            (IzeroState y (j + 1)).2.2
        else some (IzeroState y (j + 1)).1 := by
  simp only [IzeroLoop, IzeroState]

/-- A run that returns does so at the first state whose term is at most
`1E-7` times its sum. -/
theorem IzeroLoop_exit_index (y : α) :
    ∀ (fuel j : Nat) (v : α),
      IzeroLoop y fuel (IzeroState y j).1 (IzeroState y j).2.1 (IzeroState y j).2.2 = some v →
      ∃ n, j < n ∧ n ≤ j + fuel ∧ v = (IzeroState y n).1 ∧
        (IzeroState y n).2.1 ≤ 1E-7 * (IzeroState y n).1 ∧
        ∀ i, j < i → i < n → (IzeroState y i).2.1 > 1E-7 * (IzeroState y i).1 := by
  intro fuel
  induction fuel with
  | zero => intro j v h; simp [IzeroLoop] at h
  | succ fuel ih =>
    intro j v h
    rw [IzeroLoop_state_step] at h
    split at h
    · rename_i hc
      obtain ⟨n, h1, h2, h3, h4, h5⟩ := ih (j + 1) v h
      refine ⟨n, by omega, by omega, h3, h4, fun i hi1 hi2 => ?_⟩
      by_cases hij : i = j + 1
      · rw [hij]; exact hc
      · exact h5 i (by omega) hi2
    · rename_i hc
      simp only [Option.some.injEq] at h
      exact ⟨j + 1, by omega, by omega, h.symm, not_lt.mp hc, fun i hi1 hi2 => by omega⟩

/-- With the exit index known, that much fuel suffices. -/
theorem IzeroLoop_of_exit_index (y : α) :
    ∀ (m j : Nat),
      (∀ i, j < i → i < j + m + 1 → (IzeroState y i).2.1 > 1E-7 * (IzeroState y i).1) →
      (IzeroState y (j + m + 1)).2.1 ≤ 1E-7 * (IzeroState y (j + m + 1)).1 →
      ∀ k, IzeroLoop y (m + 1 + k) (IzeroState y j).1 (IzeroState y j).2.1 (IzeroState y j).2.2
        = some (IzeroState y (j + m + 1)).1 := by
  intro m
  induction m with
  | zero =>
    intro j _ hexit k
    have e : 0 + 1 + k = k + 1 := by omega
    rw [e, IzeroLoop_state_step, if_neg (not_lt.mpr hexit)]
  | succ m ih =>
    intro j hcont hexit k
    have e : m + 1 + 1 + k = (m + 1 + k) + 1 := by omega
    rw [e, IzeroLoop_state_step, if_pos (hcont (j + 1) (by omega) (by omega))]
    have e2 : j + (m + 1) + 1 = (j + 1) + m + 1 := by omega
    rw [e2] at hexit ⊢
    exact ih (j + 1) (fun i hi1 hi2 => hcont i (by omega) (by omega)) hexit k

theorem IzeroState_succ (y : α) (n : Nat) (s ds d : α) (h : IzeroState y n = (s, ds, d)) :
    IzeroState y (n + 1)
      = (s + ds * (y * y) / ((d + 2) * (d + 2)), ds * (y * y) / ((d + 2) * (d + 2)), d + 2) := by
  simp only [IzeroState, h]

/-- The run of the loop at `y = 10`, state by state: the term exceeds `1E-7`
times the sum after each of the first 15 rounds and no longer after the 16th. -/
theorem IzeroState_ten :
    (∀ i, 0 < i → i < 16 →
      (IzeroState (10 : α) i).2.1 > 1E-7 * (IzeroState (10 : α) i).1) ∧
    (IzeroState (10 : α) 16).2.1 ≤ 1E-7 * (IzeroState (10 : α) 16).1 := by
  have h0 : IzeroState (10 : α) 0 = (1, 1, 0) := rfl
  have h1 : IzeroState (10 : α) 1 = (26, 25, 2) :=
    (IzeroState_succ 10 0 _ _ _ h0).trans (by norm_num)
  have h2 : IzeroState (10 : α) 2 = (729 / 4, 625 / 4, 4) :=
    (IzeroState_succ 10 1 _ _ _ h1).trans (by norm_num)
  have h3 : IzeroState (10 : α) 3 = (11093 / 18, 15625 / 36, 6) :=
    (IzeroState_succ 10 2 _ _ _ h2).trans (by norm_num)
  have h4 : IzeroState (10 : α) 4 = (745601 / 576, 390625 / 576, 8) :=
    (IzeroState_succ 10 3 _ _ _ h3).trans (by norm_num)
  have h5 : IzeroState (10 : α) 5 = (189371 / 96, 390625 / 576, 10) :=
    (IzeroState_succ 10 4 _ _ _ h4).trans (by norm_num)
  have h6 : IzeroState (10 : α) 6 = (50669761 / 20736, 9765625 / 20736, 12) :=
    (IzeroState_succ 10 5 _ _ _ h5).trans (by norm_num)
  have h7 : IzeroState (10 : α) 7 = (1363479457 / 508032, 244140625 / 1016064, 14) :=
    (IzeroState_succ 10 6 _ _ _ h6).trans (by norm_num)
  have h8 : IzeroState (10 : α) 8 = (60209628707 / 21676032, 6103515625 / 65028096, 16) :=
    (IzeroState_succ 10 7 _ _ _ h7).trans (by norm_num)
  have h9 : IzeroState (10 : α) 9 = (7391763833213 / 2633637888, 152587890625 / 5267275776, 18) :=
    (IzeroState_succ 10 8 _ _ _ h8).trans (by norm_num)
  have h10 : IzeroState (10 : α) 10 = (59286698556329 / 21069103104, 152587890625 / 21069103104, 20) :=
    (IzeroState_succ 10 9 _ _ _ h9).trans (by norm_num)
  have h11 : IzeroState (10 : α) 11 = (398750290143413 / 141631193088, 3814697265625 / 2549361475584, 22) :=
    (IzeroState_succ 10 10 _ _ _ h10).trans (by norm_num)
  have h12 : IzeroState (10 : α) 12 = (21095022846599329 / 7492001071104, 95367431640625 / 367108052484096, 24) :=
    (IzeroState_succ 10 11 _ _ _ h11).trans (by norm_num)
  have h13 : IzeroState (10 : α) 13 = (87345134189240029537 / 31020630434906112, 2384185791015625 / 62041260869812224, 26) :=
    (IzeroState_succ 10 12 _ _ _ h12).trans (by norm_num)
  have h14 : IzeroState (10 : α) 14 = (877932107867355563311 / 311797105909825536, 59604644775390625 / 12160087130483195904, 28) :=
    (IzeroState_succ 10 13 _ _ _ h13).trans (by norm_num)
  have h15 : IzeroState (10 : α) 15 = (154077114733043289056393 / 54720392087174381568, 59604644775390625 / 109440784174348763136, 30) :=
    (IzeroState_succ 10 14 _ _ _ h14).trans (by norm_num)
  have h16 : IzeroState (10 : α) 16 = (78887484233434283381638841 / 28016840748633283362816, 1490116119384765625 / 28016840748633283362816, 32) :=
    (IzeroState_succ 10 15 _ _ _ h15).trans (by norm_num)
  refine ⟨fun i hi1 hi2 => ?_, ?_⟩
  · interval_cases i
    · rw [h1]; norm_num
    · rw [h2]; norm_num
    · rw [h3]; norm_num
    · rw [h4]; norm_num
    · rw [h5]; norm_num
    · rw [h6]; norm_num
    · rw [h7]; norm_num
    · rw [h8]; norm_num
    · rw [h9]; norm_num
    · rw [h10]; norm_num
    · rw [h11]; norm_num
    · rw [h12]; norm_num
    · rw [h13]; norm_num
    · rw [h14]; norm_num
    · rw [h15]; norm_num
  · rw [h16]; norm_num

/-- At `y = 10` the loop returns after 16 rounds. -/
theorem Izero_ten : Izero 16 (10 : α) = some (IzeroState (10 : α) 16).1 := by
  obtain ⟨hcont, hexit⟩ := IzeroState_ten (α := α)
  exact IzeroLoop_of_exit_index (10 : α) 15 0 (fun i h1 h2 => hcont i h1 (by omega))
    hexit 0

/-! ## Claims about `Izero` -/

/-- C14.  `Izero(0)` returns exactly 1: with `y = 0` the term after the first
loop body is 0 and the sum is 1, the loop condition `ds > 1E-7 * s` is false, so
the loop leaves after its first round (one unit of fuel is enough) and the
result is the zero-order term. -/
theorem Izero_zero_returns_one :
    (IzeroState (0 : α) 1).2.1 = 0 ∧ (IzeroState (0 : α) 1).1 = 1 ∧
    ¬ ((IzeroState (0 : α) 1).2.1 > 1E-7 * (IzeroState (0 : α) 1).1) ∧
    Izero 1 (0 : α) = some 1 ∧ ∀ fuel, Izero (fuel + 1) (0 : α) = some 1 := by
  have h1 : IzeroState (0 : α) 1 = (1, 0, 2) :=
    (IzeroState_succ 0 0 _ _ _ rfl).trans (by norm_num)
  refine ⟨by rw [h1], by rw [h1], by rw [h1]; norm_num, Izero_zero 0, fun fuel => Izero_zero fuel⟩

/-- C15 (amended).  Evaluated in exact arithmetic, `Izero`, with its
data-dependent truncation of the power series, is strictly increasing on
`y > 0`: for `0 < y1 < y2` both calls return (with enough fuel) and
`Izero(y1) < Izero(y2)`. -/
theorem Izero_strictly_increasing [Archimedean α] (y1 y2 : α) (h0 : 0 < y1) (h : y1 < y2) :
    ∃ N, ∀ k, ∃ v1 v2, Izero (N + k) y1 = some v1 ∧ Izero (N + k) y2 = some v2 ∧ v1 < v2 := by
  obtain ⟨N1, h1⟩ := Izero_terminates y1
  obtain ⟨N2, h2⟩ := Izero_terminates y2
  refine ⟨N1 + N2, fun k => ?_⟩
  obtain ⟨v1, e1⟩ := h1 (N2 + k)
  obtain ⟨v2, e2⟩ := h2 (N1 + k)
  have a1 : N1 + (N2 + k) = N1 + N2 + k := by omega
  have a2 : N2 + (N1 + k) = N1 + N2 + k := by omega
  rw [a1] at e1
  rw [a2] at e2
  have hsq : y1 * y1 < y2 * y2 := mul_self_lt_mul_self (le_of_lt h0) h
  have := Izero_compare y1 y2 v1 v2 _ _ (le_of_lt hsq) e1 e2
  exact ⟨v1, v2, e1, e2, by linarith⟩

/-- C15 (amended), on a concrete input: `y1 = 1`, `y2 = 2` over the rationals. -/
theorem Izero_strictly_increasing_example :
    (0 : ℚ) < 1 ∧ (1 : ℚ) < 2 ∧
    ∃ N, ∀ k, ∃ v1 v2 : ℚ, Izero (N + k) 1 = some v1 ∧ Izero (N + k) 2 = some v2 ∧ v1 < v2 :=
  ⟨by norm_num, by norm_num, Izero_strictly_increasing 1 2 (by norm_num) (by norm_num)⟩

/-- C16.  The loop of `Izero` terminates for every `y`: there is a number `n ≥ 1`
of rounds after which the call returns the sum `s` (with fuel `n` or more), the
last added term then satisfying `ds ≤ 1E-7 * s` while every earlier round had
`ds > 1E-7 * s`; and for `|y| ≤ 10` this number is below 20. -/
theorem Izero_loop_terminates_within [Archimedean α] (y : α) :
    ∃ n, 0 < n ∧ (∀ k, Izero (n + k) y = some (IzeroState y n).1) ∧
      (IzeroState y n).2.1 ≤ 1E-7 * (IzeroState y n).1 ∧
      (∀ j, 0 < j → j < n → (IzeroState y j).2.1 > 1E-7 * (IzeroState y j).1) ∧
      (|y| ≤ 10 → n < 20) := by
  -- some fuel on which the call returns: 16 when |y| ≤ 10
  have hfuel : ∃ F v, Izero F y = some v ∧ (|y| ≤ 10 → F ≤ 16) := by
    by_cases hy : |y| ≤ 10
    · have hsq : y * y ≤ 10 * 10 := by
        rw [← abs_mul_abs_self y]
        exact mul_self_le_mul_self (abs_nonneg y) hy
      obtain ⟨v, hv⟩ := Izero_exits_no_later y 10 _ 16 hsq Izero_ten
      exact ⟨16, v, hv, fun _ => le_rfl⟩
    · obtain ⟨N, hN⟩ := Izero_terminates y
      obtain ⟨v, hv⟩ := hN 0
      exact ⟨N + 0, v, hv, fun h => absurd h hy⟩
  obtain ⟨F, v, hv, hF⟩ := hfuel
  obtain ⟨n, h1, h2, -, h4, h5⟩ := IzeroLoop_exit_index y F 0 v hv
  obtain ⟨m, rfl⟩ : ∃ m, n = m + 1 := ⟨n - 1, by omega⟩
  refine ⟨m + 1, h1, fun k => ?_, h4, h5, fun hy => ?_⟩
  · have := IzeroLoop_of_exit_index y m 0 (fun i hi1 hi2 => h5 i hi1 (by omega))
      (by rw [Nat.zero_add]; exact h4) k
    rw [Nat.zero_add] at this
    exact this
  · have := hF hy
    omega

/-- C16, on a concrete input: `y = 3` over the rationals (an Archimedean
field). -/
theorem Izero_loop_terminates_within_example :
    ∃ n, 0 < n ∧ (∀ k, Izero (n + k) (3 : ℚ) = some (IzeroState (3 : ℚ) n).1) ∧
      (IzeroState (3 : ℚ) n).2.1 ≤ 1E-7 * (IzeroState (3 : ℚ) n).1 ∧
      (∀ j, 0 < j → j < n → (IzeroState (3 : ℚ) j).2.1 > 1E-7 * (IzeroState (3 : ℚ) j).1) ∧
      (|(3 : ℚ)| ≤ 10 → n < 20) :=
  Izero_loop_terminates_within (3 : ℚ)

/-! ## Range of the kernel offset and of `x` -/

theorem getsincIx_range (P isrc : Nat) (h : isrc < 8 * P) :
    0 ≤ getsincIx P isrc ∧ getsincIx P isrc < 8 * (P : Int) := by
  simp only [getsincIx, land_seven, shiftRight_three]
  have hr : isrc % 8 < 8 := Nat.mod_lt _ (by norm_num)
  have hq : isrc / 8 < P := by omega
  have hr' : (0 : Int) ≤ 7 - ((isrc % 8 : Nat) : Int) := by omega
  have hP : (0 : Int) ≤ (P : Int) := Int.natCast_nonneg P
  have h1 : (0 : Int) ≤ (7 - ((isrc % 8 : Nat) : Int)) * (P : Int) := mul_nonneg hr' hP
  have h2 : (7 - ((isrc % 8 : Nat) : Int)) * (P : Int) ≤ 7 * (P : Int) :=
    mul_le_mul_of_nonneg_right (by omega) hP
  constructor
  · omega
  · omega

/-- For a table position, `x` lies in `[-4, 4)` and the radicand passed to
`sqrt` lies in `[0, 1]`. -/
theorem getsincX_range (P isrc : Nat) (hP : 0 < P) (h : isrc < 8 * P) :
    (-4 : α) ≤ getsincX P (getsincIx P isrc) ∧ (getsincX P (getsincIx P isrc) : α) < 4 ∧
    (0 : α) ≤ 1 - getsincX P (getsincIx P isrc) * getsincX P (getsincIx P isrc) * (1 / 16) ∧
    (1 : α) - getsincX P (getsincIx P isrc) * getsincX P (getsincIx P isrc) * (1 / 16) ≤ 1 := by
  obtain ⟨h1, h2⟩ := getsincIx_range P isrc h
  have hPα : (0 : α) < (P : α) := Nat.cast_pos.mpr hP
  have c1 : ((0 : Int) : α) ≤ ((getsincIx P isrc : Int) : α) := Int.cast_le.mpr h1
  have c2 : ((getsincIx P isrc : Int) : α) < ((8 * (P : Int) : Int) : α) := Int.cast_lt.mpr h2
  push_cast at c1 c2
  have hx : (getsincX P (getsincIx P isrc) : α)
      = (((getsincIx P isrc : Int) : α) - 4 * (P : α)) / (P : α) := by
    simp only [getsincX]
    push_cast
    rw [mul_one_div]
  have lo : (-4 : α) ≤ getsincX P (getsincIx P isrc) := by
    rw [hx, le_div_iff₀ hPα]
    linarith
  have hi : (getsincX P (getsincIx P isrc) : α) < 4 := by
    rw [hx, div_lt_iff₀ hPα]
    linarith
  have hsq : getsincX P (getsincIx P isrc) * getsincX P (getsincIx P isrc) ≤ (16 : α) := by
    nlinarith
  have hnn := mul_self_nonneg (getsincX P (getsincIx P isrc) : α)
  refine ⟨lo, hi, by linarith, by linarith⟩

/-- Away from the centre `x` is not zero. -/
theorem getsincX_ne_zero (P : Nat) (hP : 0 < P) (ix : Int) (hne : ix ≠ 4 * (P : Int)) :
    (getsincX P ix : α) ≠ 0 := by
  have hPα : (P : α) ≠ 0 := Nat.cast_ne_zero.mpr (by omega)
  simp only [getsincX]
  intro h0
  rcases mul_eq_zero.mp h0 with h1 | h1
  · apply hne
    have : ix - 4 * (P : Int) = 0 := by exact_mod_cast h1
    omega
  · exact absurd h1 (one_div_ne_zero hPα)

theorem getsincCutoff_pos (cutoff : α) (h : 0 < cutoff) : 0 < getsincCutoff cutoff := by
  unfold getsincCutoff
  split
  · norm_num
  · exact h

/-- C17 (amended).  Evaluated in exact arithmetic, `getsinc` has no undefined
numeric step: for every beta, every cutoff > 0 and every table position, `x` lies
in `[-4, 4)` and the radicand `1 - x*x/16` passed to `sqrt` is non-negative;
`Izero(beta)` returns a value of at least 1, and at every position other than
the kernel centre `x` is not zero and the divisor `izeroBeta * xPi` is not zero
(`atan(1)` being non-zero); at the centre the explicit branch gives `fsinc = 1`
without dividing. -/
theorem getsinc_no_undefined_step [Archimedean α] (m : CMath α) (P : Nat) (hP : 0 < P)
    (beta cutoff : α) (hc : 0 < cutoff) (hatan : m.atan 1 ≠ 0) (isrc : Nat)
    (h : isrc < 8 * P) :
    (-4 : α) ≤ getsincX P (getsincIx P isrc) ∧ (getsincX P (getsincIx P isrc) : α) < 4 ∧
    (0 : α) ≤ 1 - getsincX P (getsincIx P isrc) * getsincX P (getsincIx P isrc) * (1 / 16) ∧
    ∃ N, ∀ k, ∃ izeroBeta, Izero (N + k) beta = some izeroBeta ∧ 1 ≤ izeroBeta ∧
      (getsincIx P isrc ≠ 4 * (P : Int) →
        (getsincX P (getsincIx P isrc) : α) ≠ 0 ∧
        izeroBeta * (getsincX P (getsincIx P isrc) * (4 * m.atan 1 * getsincCutoff cutoff))
          ≠ 0) ∧
      (getsincIx P isrc = 4 * (P : Int) →
        ∀ kPi, getsincFsinc m P (N + k) beta izeroBeta kPi (getsincIx P isrc) = some 1) := by
  obtain ⟨r1, r2, r3, -⟩ := getsincX_range (α := α) P isrc hP h
  refine ⟨r1, r2, r3, ?_⟩
  obtain ⟨N, hN⟩ := Izero_terminates beta
  refine ⟨N, fun k => ?_⟩
  obtain ⟨v, hv⟩ := hN k
  have hv1 : 1 ≤ v := Izero_one_le _ _ _ hv
  refine ⟨v, hv, hv1, fun hne => ?_, fun heq kPi => ?_⟩
  · have hx := getsincX_ne_zero (α := α) P hP _ hne
    have hcut := getsincCutoff_pos cutoff hc
    refine ⟨hx, mul_ne_zero (by positivity) (mul_ne_zero hx (mul_ne_zero ?_ (ne_of_gt hcut)))⟩
    exact mul_ne_zero (by norm_num) hatan
  · simp only [getsincFsinc, heq, if_true]

/-- C17 (amended), on a concrete input: the rational stand-in math library, 256 phases,
beta 8.5, cutoff 1/2 and table position 0. -/
theorem getsinc_no_undefined_step_example :
    0 < 256 ∧ (0 : ℚ) < 1 / 2 ∧ ratMath.atan 1 ≠ 0 ∧ 0 < 8 * 256 ∧
    (-4 : ℚ) ≤ getsincX 256 (getsincIx 256 0) ∧ (getsincX 256 (getsincIx 256 0) : ℚ) < 4 ∧
    (0 : ℚ) ≤ 1 - getsincX 256 (getsincIx 256 0) * getsincX 256 (getsincIx 256 0) * (1 / 16) ∧
    ∃ N, ∀ k, ∃ izeroBeta : ℚ, Izero (N + k) 8.5 = some izeroBeta ∧ 1 ≤ izeroBeta ∧
      (getsincIx 256 0 ≠ 4 * ((256 : Nat) : Int) →
        (getsincX 256 (getsincIx 256 0) : ℚ) ≠ 0 ∧
        izeroBeta * (getsincX 256 (getsincIx 256 0)
          * (4 * ratMath.atan 1 * getsincCutoff (1 / 2))) ≠ 0) ∧
      (getsincIx 256 0 = 4 * ((256 : Nat) : Int) →
        ∀ kPi, getsincFsinc ratMath 256 (N + k) 8.5 izeroBeta kPi (getsincIx 256 0)
          = some 1) :=
  ⟨by norm_num, by norm_num, by norm_num [ratMath], by norm_num,
    getsinc_no_undefined_step ratMath 256 (by norm_num) 8.5 (1 / 2) (by norm_num)
      (by norm_num [ratMath]) 0 (by norm_num)⟩

/-! ## Magnitude of the coefficients -/

/-- A value of magnitude at most `0.999 * 2^Q`, `Q ≥ 9`, rounds half away from
zero to an integer strictly between `-2^Q` and `2^Q`, and is not saturated by a
destination range that contains those integers. -/
theorem saturate_round_in_range [FloorRing α] (lo hi : Int) (Q : Nat) (v : α) (hQ : 9 ≤ Q)
    (hv : |v| ≤ 0.999 * 2 ^ Q) (hlo : lo ≤ -(2 : Int) ^ Q) (hhi : (2 : Int) ^ Q - 1 ≤ hi) :
    saturate_round lo hi v = (if 0 ≤ v then ⌊v + 1 / 2⌋ else ⌈v - 1 / 2⌉) ∧
    -(2 : Int) ^ Q < saturate_round lo hi v ∧ saturate_round lo hi v < (2 : Int) ^ Q := by
  have h512 : (512 : α) ≤ 2 ^ Q := by
    have : (2 : α) ^ 9 ≤ 2 ^ Q := pow_le_pow_right₀ one_le_two hQ
    norm_num at this
    exact this
  obtain ⟨hv1, hv2⟩ := abs_le.mp hv
  norm_num at hv1 hv2
  have hpowZ : (0 : Int) < (2 : Int) ^ Q := by positivity
  have key : -(2 : Int) ^ Q < (if 0 ≤ v then ⌊v + 1 / 2⌋ else ⌈v - 1 / 2⌉) ∧
      (if 0 ≤ v then ⌊v + 1 / 2⌋ else ⌈v - 1 / 2⌉) < (2 : Int) ^ Q := by
    split
    · rename_i h0
      constructor
      · have : (0 : Int) ≤ ⌊v + 1 / 2⌋ := Int.floor_nonneg.mpr (by linarith)
        omega
      · rw [Int.floor_lt]
        push_cast
        linarith
    · rename_i h0
      have h0' : v < 0 := not_le.mp h0
      constructor
      · rw [Int.lt_ceil]
        push_cast
        linarith
      · have : ⌈v - 1 / 2⌉ ≤ (0 : Int) := Int.ceil_le.mpr (by push_cast; linarith)
        omega
  obtain ⟨k1, k2⟩ := key
  have e : saturate_round lo hi v = (if 0 ≤ v then ⌊v + 1 / 2⌋ else ⌈v - 1 / 2⌉) := by
    simp only [saturate_round]
    rw [if_neg (by omega), if_neg (by omega)]
  rw [e]
  exact ⟨rfl, k1, k2⟩

end

/-! ## The real `sin` and `sqrt` meet the assumptions made of the math library -/

section
variable {α : Type} [LinearOrderedField α] [FloorRing α]

/-- If the loop returns after `n + j` iterations it returns after `n`. -/
theorem getsincLoop_prefix (m : CMath α) (cfg : BuildConfig) (H : ResamplerHeader) (fuel : Nat)
    (beta cutoff izeroBeta kPi : α) (psinc : Nat → SINC_TYPE α) (n : Nat) :
    ∀ j buf, getsincLoop m cfg H fuel beta cutoff izeroBeta kPi psinc (n + j) = some buf →
      ∃ b, getsincLoop m cfg H fuel beta cutoff izeroBeta kPi psinc n = some b := by
  intro j
  induction j with
  | zero => intro buf h; exact ⟨buf, h⟩
  | succ j ih =>
    intro buf h
    rw [← Nat.add_assoc] at h
    simp only [getsincLoop, Option.bind_eq_some] at h
    obtain ⟨b0, hb0, -⟩ := h
    exact ih b0 hb0

/-- C13.  `getsinc` is deterministic and overwrites its whole output.  Started on
two buffers with arbitrary previous contents, both runs return (with enough
fuel) and their tables agree on all `8 * SINC_PHASES` entries, each entry being
the stored coefficient of its own position; nothing beyond the table is written;
and each entry is written exactly once, by the iteration of its own index: after
the first `n` iterations the entries below `n` already hold their final values
and the entries from `n` on still hold the previous contents. -/
theorem getsinc_deterministic_overwrite (m : CMath α) (cfg : BuildConfig) (H : ResamplerHeader)
    (p1 p2 : Nat → SINC_TYPE α) (beta cutoff : α) :
    ∃ N, ∀ k, ∃ t1 t2 izeroBeta,
      getsinc m cfg H (N + k) p1 beta cutoff = some t1 ∧
      getsinc m cfg H (N + k) p2 beta cutoff = some t2 ∧
      (∀ i, i < 8 * H.SINC_PHASES → t1 i = t2 i) ∧
      (∀ i, i < 8 * H.SINC_PHASES →
        ∃ c, getsincCoeffAt m H.SINC_PHASES (N + k) beta cutoff (getsincIx H.SINC_PHASES i)
            = some c ∧ t1 i = getsincStore cfg H c) ∧
      (∀ i, 8 * H.SINC_PHASES ≤ i → t1 i = p1 i) ∧
      Izero (N + k) beta = some izeroBeta ∧
      (∀ n, n ≤ 8 * H.SINC_PHASES →
        ∃ buf, getsincLoop m cfg H (N + k) beta (getsincCutoff cutoff) izeroBeta
            (4 * m.atan 1 * getsincCutoff cutoff) p1 n = some buf ∧
          (∀ i, i < n → buf i = t1 i) ∧ (∀ i, n ≤ i → buf i = p1 i)) := by
  obtain ⟨N1, h1⟩ := getsinc_terminates m cfg H p1 beta cutoff
  obtain ⟨N2, h2⟩ := getsinc_terminates m cfg H p2 beta cutoff
  refine ⟨N1 + N2, fun k => ?_⟩
  obtain ⟨t1, e1⟩ := h1 (N2 + k)
  obtain ⟨t2, e2⟩ := h2 (N1 + k)
  have a1 : N1 + (N2 + k) = N1 + N2 + k := by omega
  have a2 : N2 + (N1 + k) = N1 + N2 + k := by omega
  rw [a1] at e1
  rw [a2] at e2
  have hloop := e1
  simp only [getsinc, Option.bind_eq_some] at hloop
  obtain ⟨izb, hizb, hl⟩ := hloop
  refine ⟨t1, t2, izb, e1, e2,
    fun i hi => getsinc_buffer_independent m cfg H _ p1 p2 t1 t2 beta cutoff e1 e2 i hi,
    fun i hi => (getsinc_spec m cfg H _ p1 t1 beta cutoff e1 i).1 hi,
    fun i hi => (getsinc_spec m cfg H _ p1 t1 beta cutoff e1 i).2 hi, hizb, fun n hn => ?_⟩
  obtain ⟨j, hj⟩ : ∃ j, 8 * H.SINC_PHASES = n + j := ⟨8 * H.SINC_PHASES - n, by omega⟩
  rw [hj] at hl
  obtain ⟨buf, hbuf⟩ := getsincLoop_prefix m cfg H _ beta _ izb _ p1 n j t1 hl
  refine ⟨buf, hbuf, fun i hi => ?_, fun i hi => ?_⟩
  · obtain ⟨c, hc, hs⟩ := (getsincLoop_spec m cfg H _ beta _ izb _ p1 n buf hbuf i).1 hi
    obtain ⟨c', hc', hs'⟩ := (getsincLoop_spec m cfg H _ beta _ izb _ p1 (n + j) t1 hl i).1
      (by omega)
    rw [hc] at hc'
    cases hc'
    rw [hs, hs']
  · exact (getsincLoop_spec m cfg H _ beta _ izb _ p1 n buf hbuf i).2 hi

end

/-! ## The cubic-spline table `FastSincTable` -/

theorem rowsAll_getD (P : Int → Int → Int → Int → Bool) :
    ∀ (p : Nat) (l : List Int), rowsAll P l = true → 4 * p + 3 < l.length →
      P (l.getD (4 * p) 0) (l.getD (4 * p + 1) 0) (l.getD (4 * p + 2) 0)
        (l.getD (4 * p + 3) 0) = true := by
  intro p
  induction p with
  | zero =>
    intro l h hlen
    match l, h, hlen with
    | a :: b :: c :: d :: rest, h, _ =>
      simp only [rowsAll, Bool.and_eq_true] at h
      simpa using h.1
  | succ p ih =>
    intro l h hlen
    match l, h, hlen with
    | a :: b :: c :: d :: rest, h, hlen =>
      simp only [rowsAll, Bool.and_eq_true] at h
      have hlen' : 4 * p + 3 < rest.length := by
        simp only [List.length_cons] at hlen
        omega
      have := ih rest h.2 hlen'
      have g : ∀ k, (a :: b :: c :: d :: rest).getD (4 * (p + 1) + k) 0
          = rest.getD (4 * p + k) 0 := by
        intro k
        have e : 4 * (p + 1) + k = (4 * p + k) + 1 + 1 + 1 + 1 := by ring
        rw [e]
        simp only [List.getD_cons_succ]
      have g0 := g 0
      rw [Nat.add_zero, Nat.add_zero] at g0
      rw [g0, g 1, g 2, g 3]
      exact this

set_option maxRecDepth 100000 in
theorem FastSincTable_row_sums :
    rowsAll (fun a b c d => decide (|a + b + c + d - 16384| ≤ 16)) FastSincTable = true := by
  decide

set_option maxRecDepth 100000 in
theorem FastSincTable_int16 :
    (FastSincTable.all fun n => decide (-32768 ≤ n ∧ n ≤ 32767)) = true := by
  decide

theorem FastSincTable_getD_int16 (i : Nat) :
    -32768 ≤ FastSincTable.getD i 0 ∧ FastSincTable.getD i 0 ≤ 32767 := by
  by_cases hi : i < FastSincTable.length
  · have hmem : FastSincTable.getD i 0 ∈ FastSincTable := by
      rw [List.getD_eq_getElem _ _ hi]
      exact List.getElem_mem hi
    have := List.all_eq_true.mp FastSincTable_int16 _ hmem
    simpa using this
  · rw [List.getD_eq_default _ _ (not_lt.mp hi)]
    norm_num

section
variable {α : Type} [LinearOrderedField α] {B : Type}

/-- C18.  Row 0 of `FastSincTable` (entries 0..3) is `{0, 16384, 0, 0}`, and in a
build that has and generates the float mirror (neither MPT_INTMIXER nor
MPT_BUILD_FUZZER) row 0 of the mirror after InitFloatmixerTables is
`{0, 1, 0, 0}`. -/
theorem FastSincTable_row_zero (cfg : BuildConfig) (hint : cfg.MPT_INTMIXER = false)
    (hfuzz : cfg.MPT_BUILD_FUZZER = false) (s : CResampler α B) :
    FastSincTable.take 4 = [0, 16384, 0, 0] ∧
    FastSincTable.getD 0 0 = 0 ∧ FastSincTable.getD 1 0 = 16384 ∧
    FastSincTable.getD 2 0 = 0 ∧ FastSincTable.getD 3 0 = 0 ∧
    (InitFloatmixerTables cfg s).FastSincTablef 0 = 0 ∧
    (InitFloatmixerTables cfg s).FastSincTablef 1 = 1 ∧
    (InitFloatmixerTables cfg s).FastSincTablef 2 = 0 ∧
    (InitFloatmixerTables cfg s).FastSincTablef 3 = 0 := by
  have t0 : FastSincTable.getD 0 0 = 0 := rfl
  have t1 : FastSincTable.getD 1 0 = 16384 := rfl
  have t2 : FastSincTable.getD 2 0 = 0 := rfl
  have t3 : FastSincTable.getD 3 0 = 0 := rfl
  refine ⟨rfl, t0, t1, t2, t3, ?_, ?_, ?_, ?_⟩
  · rw [InitFloatmixerTables_mirror cfg s hint hfuzz 0 (by norm_num), t0]
    norm_num
  · rw [InitFloatmixerTables_mirror cfg s hint hfuzz 1 (by norm_num), t1]
    norm_num
  · rw [InitFloatmixerTables_mirror cfg s hint hfuzz 2 (by norm_num), t2]
    norm_num
  · rw [InitFloatmixerTables_mirror cfg s hint hfuzz 3 (by norm_num), t3]
    norm_num

/-- C18, on a concrete input: the floating-point library build and the all-zero
resampler. -/
theorem FastSincTable_row_zero_example :
    libraryBuild.MPT_INTMIXER = false ∧ libraryBuild.MPT_BUILD_FUZZER = false ∧
    FastSincTable.take 4 = [0, 16384, 0, 0] ∧
    (InitFloatmixerTables libraryBuild (zeroResampler false)).FastSincTablef 0 = 0 ∧
    (InitFloatmixerTables libraryBuild (zeroResampler false)).FastSincTablef 1 = 1 ∧
    (InitFloatmixerTables libraryBuild (zeroResampler false)).FastSincTablef 2 = 0 ∧
    (InitFloatmixerTables libraryBuild (zeroResampler false)).FastSincTablef 3 = 0 := by
  obtain ⟨h0, -, -, -, -, h1, h2, h3, h4⟩ :=
    FastSincTable_row_zero libraryBuild rfl rfl (zeroResampler false)
  exact ⟨rfl, rfl, h0, h1, h2, h3, h4⟩

/-- C19.  For every phase `p` below 256 the four fixed-point taps
`FastSincTable[4p .. 4p+3]` sum to 16384 up to 16, so the sum divided by 16384 is
within 1e-3 of 1. -/
theorem FastSincTable_unity_gain (p : Nat) (hp : p < 256) :
    |FastSincTable.getD (4 * p) 0 + FastSincTable.getD (4 * p + 1) 0
        + FastSincTable.getD (4 * p + 2) 0 + FastSincTable.getD (4 * p + 3) 0 - 16384| ≤ 16 ∧
    |(((FastSincTable.getD (4 * p) 0 + FastSincTable.getD (4 * p + 1) 0
        + FastSincTable.getD (4 * p + 2) 0 + FastSincTable.getD (4 * p + 3) 0 : Int) : ℚ))
        / 16384 - 1| ≤ 1 / 1000 := by
  have h := rowsAll_getD _ p FastSincTable FastSincTable_row_sums
    (by rw [FastSincTable_length]; omega)
  simp only [decide_eq_true_eq] at h
  refine ⟨h, ?_⟩
  generalize FastSincTable.getD (4 * p) 0 + FastSincTable.getD (4 * p + 1) 0
    + FastSincTable.getD (4 * p + 2) 0 + FastSincTable.getD (4 * p + 3) 0 = t at h ⊢
  obtain ⟨h1, h2⟩ := abs_le.mp h
  have c1 : (((-16 : Int)) : ℚ) ≤ ((t - 16384 : Int) : ℚ) := Int.cast_le.mpr h1
  have c2 : ((t - 16384 : Int) : ℚ) ≤ ((16 : Int) : ℚ) := Int.cast_le.mpr h2
  push_cast at c1 c2
  rw [abs_le]
  constructor
  · rw [le_sub_iff_add_le, le_div_iff₀ (by norm_num)]
    linarith
  · rw [sub_le_iff_le_add, div_le_iff₀ (by norm_num)]
    linarith

/-- C19, on a concrete phase: `p = 128`, the row `{-1024, 9216, 9216, -1024}`. -/
theorem FastSincTable_unity_gain_example :
    128 < 256 ∧
    |FastSincTable.getD (4 * 128) 0 + FastSincTable.getD (4 * 128 + 1) 0
        + FastSincTable.getD (4 * 128 + 2) 0 + FastSincTable.getD (4 * 128 + 3) 0 - 16384|
      ≤ 16 ∧
    |(((FastSincTable.getD (4 * 128) 0 + FastSincTable.getD (4 * 128 + 1) 0
        + FastSincTable.getD (4 * 128 + 2) 0 + FastSincTable.getD (4 * 128 + 3) 0 : Int) : ℚ))
        / 16384 - 1| ≤ 1 / 1000 :=
  ⟨by norm_num, FastSincTable_unity_gain 128 (by norm_num)⟩

/-- An integer of 16-bit range divided by 16384 is a binary32 value. -/
theorem representableBinary32_int16_div (n : Int) (h1 : -32768 ≤ n) (h2 : n ≤ 32767) :
    representableBinary32 ((n : α) / 16384) := by
  refine ⟨n, -14, ?_, by norm_num, by norm_num, ?_⟩
  · rw [abs_lt]
    constructor <;> omega
  · rw [zpow_neg, div_eq_mul_inv]
    norm_num

/-- C20.  In the floating-point mixer build (and without MPT_BUILD_FUZZER), after
InitFloatmixerTables every entry `i < 1024` of the float mirror is
`FastSincTable[i] / 16384`, and this value is exactly representable in binary32,
so the scaling by the power of two `1/16384` loses no precision; entries from
1024 on are untouched. -/
theorem InitFloatmixerTables_exact (cfg : BuildConfig) (hint : cfg.MPT_INTMIXER = false)
    (hfuzz : cfg.MPT_BUILD_FUZZER = false) (s : CResampler α B) (i : Nat) :
    (i < 1024 →
      (InitFloatmixerTables cfg s).FastSincTablef i
          = ((FastSincTable.getD i 0 : Int) : α) / 16384 ∧
        representableBinary32 (((FastSincTable.getD i 0 : Int) : α) / 16384) ∧
        -32768 ≤ FastSincTable.getD i 0 ∧ FastSincTable.getD i 0 ≤ 32767) ∧
    (1024 ≤ i → (InitFloatmixerTables cfg s).FastSincTablef i = s.FastSincTablef i) := by
  obtain ⟨r1, r2⟩ := FastSincTable_getD_int16 i
  constructor
  · intro hi
    refine ⟨?_, representableBinary32_int16_div _ r1 r2, r1, r2⟩
    rw [InitFloatmixerTables_mirror cfg s hint hfuzz i (by omega), mul_one_div]
  · intro hi
    simp only [InitFloatmixerTables, hint, hfuzz, Bool.false_eq_true, if_false]
    exact (InitFloatmixerTablesLoop_spec s.FastSincTablef _ i).2
      (by rw [FastSincTable_length]; omega)

/-- C20, on a concrete input: the floating-point library build, the all-zero
resampler and entry 5 (`FastSincTable[5] = 16383`). -/
theorem InitFloatmixerTables_exact_example :
    libraryBuild.MPT_INTMIXER = false ∧ libraryBuild.MPT_BUILD_FUZZER = false ∧
    (InitFloatmixerTables libraryBuild (zeroResampler false)).FastSincTablef 5
      = (16383 : ℚ) / 16384 ∧
    representableBinary32 ((16383 : ℚ) / 16384) := by
  obtain ⟨h, -⟩ := InitFloatmixerTables_exact libraryBuild rfl rfl (zeroResampler false) 5
  obtain ⟨h1, h2, -⟩ := h (by norm_num)
  have t5 : FastSincTable.getD 5 0 = 16383 := rfl
  rw [t5] at h1 h2
  exact ⟨rfl, rfl, by simpa using h1, by simpa using h2⟩

end

/-! ## Exact values of `Izero` used for the downsampling table -/

section
variable {α : Type} [LinearOrderedField α]

theorem IzeroState_succ_sq (y t : α) (ht : y * y = t) (n : Nat) (s ds d : α)
    (h : IzeroState y n = (s, ds, d)) :
    IzeroState y (n + 1)
      = (s + ds * t / ((d + 2) * (d + 2)), ds * t / ((d + 2) * (d + 2)), d + 2) := by
  rw [← ht]
  exact IzeroState_succ y n s ds d h

/-- The value of `Izero` at an argument whose square is 289/4 (`y = 8.5`): the loop
leaves after 14 rounds. -/
theorem Izero_of_sq_289_4 (y : α) (ht : y * y = 289 / 4) :
    ∀ k, Izero (14 + k) y = some (124709304914887890818292201905090818688683 / 182547212898789616815059433192161280000) := by
  have h0 : IzeroState y 0 = (1, 1, 0) := rfl
  have h1 : IzeroState y 1 = (305 / 16, 289 / 16, 2) :=
    (IzeroState_succ_sq y _ ht 0 _ _ _ h0).trans (by norm_num)
  have h2 : IzeroState y 2 = (103041 / 1024, 83521 / 1024, 4) :=
    (IzeroState_succ_sq y _ ht 1 _ _ _ h1).trans (by norm_num)
  have h3 : IzeroState y 3 = (38975473 / 147456, 24137569 / 147456, 6) :=
    (IzeroState_succ_sq y _ ht 2 _ _ _ h2).trans (by norm_num)
  have h4 : IzeroState y 4 = (16953478529 / 37748736, 6975757441 / 37748736, 8) :=
    (IzeroState_succ_sq y _ ht 3 _ _ _ h3).trans (by norm_num)
  have h5 : IzeroState y 5 = (2932461770683 / 5033164800, 2015993900449 / 15099494400, 10) :=
    (IzeroState_succ_sq y _ ht 4 _ _ _ h4).trans (by norm_num)
  have h6 : IzeroState y 6 = (1129983235393997 / 1739461754880, 582622237229761 / 8697308774400, 12) :=
    (IzeroState_succ_sq y _ ht 5 _ _ _ h5).trans (by norm_num)
  have h7 : IzeroState y 7 = (4597912109303869169 / 6818690079129600, 168377826559400929 / 6818690079129600, 14) :=
    (IzeroState_succ_sq y _ ht 6 _ _ _ h6).trans (by norm_num)
  have h8 : IzeroState y 8 = (1585641063934276299179 / 2327446213676236800, 48661191875666868481 / 6982338641028710400, 16) :=
    (IzeroState_succ_sq y _ ht 7 _ _ _ h7).trans (by norm_num)
  have h9 : IzeroState y 9 = (6179035541028533976198961 / 9049110878773208678400, 14063084452067724991009 / 9049110878773208678400, 18) :=
    (IzeroState_succ_sq y _ ht 8 _ _ _ h8).trans (by norm_num)
  have h10 : IzeroState y 10 = (9890521097052301934440739201 / 14478577406037133885440000, 4064231406647572522401601 / 14478577406037133885440000, 20) :=
    (IzeroState_succ_sq y _ ht 9 _ _ _ h9).trans (by norm_num)
  have h11 : IzeroState y 11 = (85107659585643456415716645137 / 124580114924835072009830400, 1174562876521148458974062689 / 28030525858087891202211840000, 22) :=
    (IzeroState_succ_sq y _ ht 10 _ _ _ h10).trans (by norm_num)
  have h12 : IzeroState y 12 = (44120150177868882417812152343137921 / 64582331577034501329896079360000, 339448671314611904643504117121 / 64582331577034501329896079360000, 24) :=
    (IzeroState_succ_sq y _ ht 11 _ _ _ h11).trans (by norm_num)
  have h13 : IzeroState y 13 = (119300984181623467980604501908534786353 / 174630624584301291596038998589440000, 98100666009922840441972689847969 / 174630624584301291596038998589440000, 26) :=
    (IzeroState_succ_sq y _ ht 12 _ _ _ h12).trans (by norm_num)
  have h14 : IzeroState y 14 = (124709304914887890818292201905090818688683 / 182547212898789616815059433192161280000, 28351092476867700887730107366063041 / 547641638696368850445178299576483840000, 28) :=
    (IzeroState_succ_sq y _ ht 13 _ _ _ h13).trans (by norm_num)
  have hcont : ∀ i, 0 < i → i < 0 + 13 + 1 →
      (IzeroState y i).2.1 > 1E-7 * (IzeroState y i).1 := by
    intro i hi1 hi2
    interval_cases i
    · rw [h1]; norm_num
    · rw [h2]; norm_num
    · rw [h3]; norm_num
    · rw [h4]; norm_num
    · rw [h5]; norm_num
    · rw [h6]; norm_num
    · rw [h7]; norm_num
    · rw [h8]; norm_num
    · rw [h9]; norm_num
    · rw [h10]; norm_num
    · rw [h11]; norm_num
    · rw [h12]; norm_num
    · rw [h13]; norm_num
  have hexit : (IzeroState y (0 + 13 + 1)).2.1 ≤ 1E-7 * (IzeroState y (0 + 13 + 1)).1 := by
    have e : IzeroState y (0 + 13 + 1) = IzeroState y 14 := rfl
    rw [e, h14]; norm_num
  intro k
  have := IzeroLoop_of_exit_index y 13 0 hcont hexit k
  have e : IzeroState y (0 + 13 + 1) = IzeroState y 14 := rfl
  rw [e, h14] at this
  exact this

/-- The value of `Izero` at an argument whose square is 4335/64
(`y = 8.5 * sqrt(15/16)`): the loop leaves after 14 rounds. -/
theorem Izero_of_sq_4335_64 (y : α) (ht : y * y = 4335 / 64) :
    ∀ k, Izero (14 + k) y = some (567067631882033620208880204841867884972313288062601 / 1069260820794893811527006475586606067373379158016) := by
  have h0 : IzeroState y 0 = (1, 1, 0) := rfl
  have h1 : IzeroState y 1 = (4591 / 256, 4335 / 256, 2) :=
    (IzeroState_succ_sq y _ ht 0 _ _ _ h0).trans (by norm_num)
  have h2 : IzeroState y 2 = (23493409 / 262144, 18792225 / 262144, 4) :=
    (IzeroState_succ_sq y _ ht 1 _ _ _ h1).trans (by norm_num)
  have h3 : IzeroState y 3 = (15065901079 / 67108864, 9051588375 / 67108864, 6) :=
    (IzeroState_succ_sq y _ ht 2 _ _ _ h2).trans (by norm_num)
  have h4 : IzeroState y 4 = (100948566425209 / 274877906944, 39238635605625 / 274877906944, 8) :=
    (IzeroState_succ_sq y _ ht 3 _ _ _ h3).trans (by norm_num)
  have h5 : IzeroState y 5 = (32646812418868879 / 70368744177664, 6803979414015375 / 70368744177664, 10) :=
    (IzeroState_succ_sq y _ ht 4 _ _ _ h4).trans (by norm_num)
  have h6 : IzeroState y 6 = (36707586001339137721 / 72057594037927936, 3277250084417405625 / 72057594037927936, 12) :=
    (IzeroState_succ_sq y _ ht 5 _ _ _ h5).trans (by norm_num)
  have h7 : IzeroState y 7 = (474666837916747596956599 / 903890459611768029184, 14206879115949453384375 / 903890459611768029184, 14) :=
    (IzeroState_succ_sq y _ ht 6 _ _ _ h6).trans (by norm_num)
  have h8 : IzeroState y 8 = (7838528293395633508958183641 / 14809341290279207390150656, 61586820967640880421265625 / 14809341290279207390150656, 16) :=
    (IzeroState_succ_sq y _ ht 7 _ _ _ h7).trans (by norm_num)
  have h9 : IzeroState y 9 = (2009959278527735551338062746471 / 3791191370311477091878567936, 3296035418453373044767734375 / 3791191370311477091878567936, 18) :=
    (IzeroState_succ_sq y _ ht 8 _ _ _ h8).trans (by norm_num)
  have h10 : IzeroState y 10 = (2058769833753961019456138977526929 / 3882179963198952542083653566464, 571532541559814885962725140625 / 3882179963198952542083653566464, 20) :=
    (IzeroState_succ_sq y _ ht 9 _ _ _ h9).trans (by norm_num)
  have h11 : IzeroState y 11 = (63774931963930358336204009381358762079 / 120254406540050753943583252874788864, 2477593567661797530648413484609375 / 120254406540050753943583252874788864, 22) :=
    (IzeroState_succ_sq y _ ht 10 _ _ _ h10).trans (by norm_num)
  have h12 : IzeroState y 12 = (37317616385499119739652697820743891855887 / 70366007026863984021845286253590740992, 1193374235090432477262319161753515625 / 492562049188047888152917003775135186944, 24) :=
    (IzeroState_succ_sq y _ ht 11 _ _ _ h11).trans (by norm_num)
  have h13 : IzeroState y 13 = (11301570660392946531939129161770212362261900551 / 21310204496071703833047801251327448727945216, 5173277309117024788932153566201490234375 / 21310204496071703833047801251327448727945216, 26) :=
    (IzeroState_succ_sq y _ ht 12 _ _ _ h12).trans (by norm_num)
  have h14 : IzeroState y 14 = (567067631882033620208880204841867884972313288062601 / 1069260820794893811527006475586606067373379158016, 22426157135022302460020885709483460166015625 / 1069260820794893811527006475586606067373379158016, 28) :=
    (IzeroState_succ_sq y _ ht 13 _ _ _ h13).trans (by norm_num)
  have hcont : ∀ i, 0 < i → i < 0 + 13 + 1 →
      (IzeroState y i).2.1 > 1E-7 * (IzeroState y i).1 := by
    intro i hi1 hi2
    interval_cases i
    · rw [h1]; norm_num
    · rw [h2]; norm_num
    · rw [h3]; norm_num
    · rw [h4]; norm_num
    · rw [h5]; norm_num
    · rw [h6]; norm_num
    · rw [h7]; norm_num
    · rw [h8]; norm_num
    · rw [h9]; norm_num
    · rw [h10]; norm_num
    · rw [h11]; norm_num
    · rw [h12]; norm_num
    · rw [h13]; norm_num
  have hexit : (IzeroState y (0 + 13 + 1)).2.1 ≤ 1E-7 * (IzeroState y (0 + 13 + 1)).1 := by
    have e : IzeroState y (0 + 13 + 1) = IzeroState y 14 := rfl
    rw [e, h14]; norm_num
  intro k
  have := IzeroLoop_of_exit_index y 13 0 hcont hexit k
  have e : IzeroState y (0 + 13 + 1) = IzeroState y 14 := rfl
  rw [e, h14] at this
  exact this

/-- Off the centre, a returned coefficient is the quotient the code computes,
for the values `Izero` returned. -/
theorem getsincCoeffAt_cases (m : CMath α) (P fuel : Nat) (beta cutoff c : α) (ix : Int)
    (hne : ix ≠ 4 * (P : Int)) (h : getsincCoeffAt m P fuel beta cutoff ix = some c) :
    ∃ izb iz, Izero fuel beta = some izb ∧
      Izero fuel (beta * m.sqrt (1 - getsincX P ix * getsincX P ix * (1 / 16))) = some iz ∧
      c = m.sin (getsincX P ix * (4 * m.atan 1 * getsincCutoff cutoff)) * iz
          / (izb * (getsincX P ix * (4 * m.atan 1 * getsincCutoff cutoff)))
          * getsincCutoff cutoff := by
  simp only [getsincCoeffAt, getsincCoeff, getsincFsinc, if_neg hne, Option.bind_eq_some,
    Option.map_eq_some'] at h
  obtain ⟨izb, hizb, f, ⟨iz, hiz, rfl⟩, rfl⟩ := h
  exact ⟨izb, iz, hizb, hiz, rfl⟩

end

/-! ## Phase 0 of the downsampling table `gDownsample13x` -/

/-- With the real `sin`, `sqrt` and `atan` and 256 phases, the eight taps of
phase 0 of `getsinc(8.5, 0.5)` (positions 0..7, x = 3, 2, 1, 0, -1, -2, -3, -4)
sum to less than 0.999: the taps at x = ±2 and -4 vanish, those at x = ±3 are
negative, the centre is 0.5 and the two taps at x = ±1 are
`Izero(8.5*sqrt(15/16)) / (Izero(8.5) * π)` each, below 0.2485. -/
theorem gDownsample13x_phase_zero_sum :
    ∃ fuel tbl c0 c1 c2 c3 c4 c5 c6 c7,
      getsinc (CMath.mk Real.sin Real.sqrt Real.arctan) libraryBuild header16 fuel
        (fun _ => SINC_TYPE.flt 0) 8.5 0.5 = some tbl ∧
      tbl 0 = SINC_TYPE.flt c0 ∧ tbl 1 = SINC_TYPE.flt c1 ∧ tbl 2 = SINC_TYPE.flt c2 ∧
      tbl 3 = SINC_TYPE.flt c3 ∧ tbl 4 = SINC_TYPE.flt c4 ∧ tbl 5 = SINC_TYPE.flt c5 ∧
      tbl 6 = SINC_TYPE.flt c6 ∧ tbl 7 = SINC_TYPE.flt c7 ∧
      c0 + c1 + c2 + c3 + c4 + c5 + c6 + c7 < (0.999 : ℝ) := by
  have hpi : (0 : ℝ) < Real.pi := Real.pi_pos
  have hpi2 := Real.pi_gt_d2
  have hcut : getsincCutoff (0.5 : ℝ) = 0.5 := getsincCutoff_of_lt _ (by norm_num)
  have hk : (4 : ℝ) * Real.arctan 1 * 0.5 = Real.pi / 2 := by
    rw [Real.arctan_one]; ring
  obtain ⟨N, hN⟩ := getsinc_terminates (CMath.mk Real.sin Real.sqrt Real.arctan) libraryBuild
    header16 (fun _ => SINC_TYPE.flt 0) 8.5 0.5
  obtain ⟨tbl, ht⟩ := hN 20
  have hP : header16.SINC_PHASES = 256 := rfl
  have hstore : ∀ v : ℝ, getsincStore libraryBuild header16 v = SINC_TYPE.flt v := fun v => rfl
  -- the two values of `Izero` that matter
  have efuel : N + 20 = 14 + (N + 6) := by omega
  have hb : Izero (N + 20) (8.5 : ℝ) = some
      (124709304914887890818292201905090818688683 / 182547212898789616815059433192161280000) := by
    rw [efuel]
    exact Izero_of_sq_289_4 (8.5 : ℝ) (by norm_num) (N + 6)
  have h1 : Izero (N + 20) ((8.5 : ℝ) * Real.sqrt (15 / 16)) = some
      (567067631882033620208880204841867884972313288062601
        / 1069260820794893811527006475586606067373379158016) := by
    rw [efuel]
    refine Izero_of_sq_4335_64 _ ?_ (N + 6)
    rw [mul_mul_mul_comm, Real.mul_self_sqrt (by norm_num)]
    norm_num
  -- every position of phase 0: the coefficient and its table entry
  have pos : ∀ i, i < 8 → ∃ c : ℝ,
      getsincCoeffAt (CMath.mk Real.sin Real.sqrt Real.arctan) 256 (N + 20) 8.5 0.5
        (getsincIx 256 i) = some c ∧ tbl i = SINC_TYPE.flt c := by
    intro i hi
    obtain ⟨c, hc, hs⟩ := (getsinc_spec _ libraryBuild header16 (N + 20) _ tbl _ _ ht i).1
      (by rw [hP]; omega)
    rw [hP] at hc
    exact ⟨c, hc, by rw [hs, hstore]⟩
  -- off the centre: the coefficient in terms of `x`
  have off : ∀ (ix : Int) (c : ℝ), ix ≠ 4 * ((256 : Nat) : Int) →
      getsincCoeffAt (CMath.mk Real.sin Real.sqrt Real.arctan) 256 (N + 20) 8.5 0.5 ix = some c →
      ∃ iz : ℝ, 1 ≤ iz ∧
        Izero (N + 20) (8.5 * Real.sqrt (1 - getsincX 256 ix * getsincX 256 ix * (1 / 16)))
          = some iz ∧
        c = Real.sin (getsincX 256 ix * (Real.pi / 2)) * iz
            / (124709304914887890818292201905090818688683
                / 182547212898789616815059433192161280000 * (getsincX 256 ix * (Real.pi / 2)))
            * 0.5 := by
    intro ix c hne hc
    obtain ⟨izb, iz, e1, e2, e3⟩ := getsincCoeffAt_cases _ 256 _ _ _ c ix hne hc
    rw [hb] at e1
    cases e1
    rw [hcut, hk] at e3
    exact ⟨iz, Izero_one_le _ _ _ e2, e2, e3⟩
  have x0 : (getsincX 256 (getsincIx 256 0) : ℝ) = 3 := by
    rw [show getsincIx 256 0 = 1792 by decide]; norm_num [getsincX]
  have x1 : (getsincX 256 (getsincIx 256 1) : ℝ) = 2 := by
    rw [show getsincIx 256 1 = 1536 by decide]; norm_num [getsincX]
  have x2 : (getsincX 256 (getsincIx 256 2) : ℝ) = 1 := by
    rw [show getsincIx 256 2 = 1280 by decide]; norm_num [getsincX]
  have x4 : (getsincX 256 (getsincIx 256 4) : ℝ) = -1 := by
    rw [show getsincIx 256 4 = 768 by decide]; norm_num [getsincX]
  have x5 : (getsincX 256 (getsincIx 256 5) : ℝ) = -2 := by
    rw [show getsincIx 256 5 = 512 by decide]; norm_num [getsincX]
  have x6 : (getsincX 256 (getsincIx 256 6) : ℝ) = -3 := by
    rw [show getsincIx 256 6 = 256 by decide]; norm_num [getsincX]
  have x7 : (getsincX 256 (getsincIx 256 7) : ℝ) = -4 := by
    rw [show getsincIx 256 7 = 0 by decide]; norm_num [getsincX]
  have s3 : Real.sin (3 * (Real.pi / 2)) = -1 := by
    rw [show (3 : ℝ) * (Real.pi / 2) = Real.pi / 2 + Real.pi by ring, Real.sin_add_pi,
      Real.sin_pi_div_two]
  have s2 : Real.sin (2 * (Real.pi / 2)) = 0 := by
    rw [show (2 : ℝ) * (Real.pi / 2) = Real.pi by ring, Real.sin_pi]
  have s1 : Real.sin (1 * (Real.pi / 2)) = 1 := by
    rw [one_mul, Real.sin_pi_div_two]
  have sm1 : Real.sin (-1 * (Real.pi / 2)) = -1 := by
    rw [show (-1 : ℝ) * (Real.pi / 2) = -(Real.pi / 2) by ring, Real.sin_neg,
      Real.sin_pi_div_two]
  have sm2 : Real.sin (-2 * (Real.pi / 2)) = 0 := by
    rw [show (-2 : ℝ) * (Real.pi / 2) = -Real.pi by ring, Real.sin_neg, Real.sin_pi, neg_zero]
  have sm3 : Real.sin (-3 * (Real.pi / 2)) = 1 := by
    rw [show (-3 : ℝ) * (Real.pi / 2) = -(3 * (Real.pi / 2)) by ring, Real.sin_neg, s3, neg_neg]
  have sm4 : Real.sin (-4 * (Real.pi / 2)) = 0 := by
    rw [show (-4 : ℝ) * (Real.pi / 2) = -(2 * Real.pi) by ring, Real.sin_neg, Real.sin_two_pi,
      neg_zero]
  obtain ⟨c0, k0, t0⟩ := pos 0 (by norm_num)
  obtain ⟨c1, k1, t1⟩ := pos 1 (by norm_num)
  obtain ⟨c2, k2, t2⟩ := pos 2 (by norm_num)
  obtain ⟨c3, k3, t3⟩ := pos 3 (by norm_num)
  obtain ⟨c4, k4, t4⟩ := pos 4 (by norm_num)
  obtain ⟨c5, k5, t5⟩ := pos 5 (by norm_num)
  obtain ⟨c6, k6, t6⟩ := pos 6 (by norm_num)
  obtain ⟨c7, k7, t7⟩ := pos 7 (by norm_num)
  -- the taps that vanish
  have v1 : c1 = 0 := by
    obtain ⟨iz, -, -, e⟩ := off _ c1 (by decide) k1
    rw [x1, s2] at e
    rw [e]; simp
  have v5 : c5 = 0 := by
    obtain ⟨iz, -, -, e⟩ := off _ c5 (by decide) k5
    rw [x5, sm2] at e
    rw [e]; simp
  have v7 : c7 = 0 := by
    obtain ⟨iz, -, -, e⟩ := off _ c7 (by decide) k7
    rw [x7, sm4] at e
    rw [e]; simp
  -- the taps at x = ±3 are not positive
  have v0 : c0 ≤ 0 := by
    obtain ⟨iz, hiz, -, e⟩ := off _ c0 (by decide) k0
    rw [x0, s3] at e
    rw [e]
    have : 0 ≤ iz / (124709304914887890818292201905090818688683
        / 182547212898789616815059433192161280000 * (3 * (Real.pi / 2))) * 0.5 := by positivity
    have e' : -1 * iz / (124709304914887890818292201905090818688683
        / 182547212898789616815059433192161280000 * (3 * (Real.pi / 2))) * 0.5
        = -(iz / (124709304914887890818292201905090818688683
        / 182547212898789616815059433192161280000 * (3 * (Real.pi / 2))) * 0.5) := by ring
    rw [e']
    linarith
  have v6 : c6 ≤ 0 := by
    obtain ⟨iz, hiz, -, e⟩ := off _ c6 (by decide) k6
    rw [x6, sm3] at e
    rw [e]
    have : 0 ≤ iz / (124709304914887890818292201905090818688683
        / 182547212898789616815059433192161280000 * (3 * (Real.pi / 2))) * 0.5 := by positivity
    have e' : 1 * iz / (124709304914887890818292201905090818688683
        / 182547212898789616815059433192161280000 * (-3 * (Real.pi / 2))) * 0.5
        = -(iz / (124709304914887890818292201905090818688683
        / 182547212898789616815059433192161280000 * (3 * (Real.pi / 2))) * 0.5) := by
      field_simp
    rw [e']
    linarith
  -- the centre
  have v3 : c3 = 0.5 := by
    have := getsincCoeffAt_centre (CMath.mk Real.sin Real.sqrt Real.arctan) 256 (N + 20)
      (8.5 : ℝ) 0.5 _ hb
    rw [hcut] at this
    rw [show getsincIx 256 3 = 4 * ((256 : Nat) : Int) by decide, this] at k3
    exact (Option.some.inj k3).symm
  -- the taps at x = ±1
  have r15 : (1 : ℝ) - 1 * 1 * (1 / 16) = 15 / 16 := by norm_num
  have r15' : (1 : ℝ) - -1 * -1 * (1 / 16) = 15 / 16 := by norm_num
  have bound : ∀ p : ℝ, 0 < p → (3.14 : ℝ) < p →
      567067631882033620208880204841867884972313288062601
          / 1069260820794893811527006475586606067373379158016
        / (124709304914887890818292201905090818688683
            / 182547212898789616815059433192161280000 * (p / 2)) * 0.5 ≤ (0.2485 : ℝ) := by
    intro p hp hp2
    rw [div_mul_eq_mul_div, div_le_iff₀ (by positivity)]
    norm_num
    linarith
  have v2 : c2 ≤ 0.2485 := by
    obtain ⟨iz, -, e2, e⟩ := off _ c2 (by decide) k2
    rw [x2, r15, h1] at e2
    cases e2
    rw [x2, s1] at e
    rw [e, one_mul, one_mul]
    exact bound Real.pi hpi hpi2
  have v4 : c4 ≤ 0.2485 := by
    obtain ⟨iz, -, e2, e⟩ := off _ c4 (by decide) k4
    rw [x4, r15', h1] at e2
    cases e2
    rw [x4, sm1] at e
    rw [e]
    have e' : -1 * (567067631882033620208880204841867884972313288062601
          / 1069260820794893811527006475586606067373379158016 : ℝ)
        / (124709304914887890818292201905090818688683
            / 182547212898789616815059433192161280000 * (-1 * (Real.pi / 2))) * 0.5
        = 567067631882033620208880204841867884972313288062601
          / 1069260820794893811527006475586606067373379158016
        / (124709304914887890818292201905090818688683
            / 182547212898789616815059433192161280000 * (Real.pi / 2)) * 0.5 := by
      field_simp
    rw [e']
    exact bound Real.pi hpi hpi2
  refine ⟨N + 20, tbl, c0, c1, c2, c3, c4, c5, c6, c7, ht, t0, t1, t2, t3, t4, t5, t6, t7, ?_⟩
  rw [v1, v3, v5, v7]
  norm_num
  linarith

/-! ## Claim about the gain of a phase -/

/-- C12, as stated, fails.  With the real `sin`, `sqrt` and `atan` and 256
phases, the eight taps of phase 0 of the downsampling table `getsinc(8.5, 0.5)`
(table entries 0..7, floating-point build) sum to a value that is not within
1e-3 of 1: the sum is below 0.999. -/
theorem getsinc_downsample_phase_sum_not_unity :
    ∃ fuel tbl c0 c1 c2 c3 c4 c5 c6 c7,
      getsinc (CMath.mk Real.sin Real.sqrt Real.arctan) libraryBuild header16 fuel
        (fun _ => SINC_TYPE.flt 0) 8.5 0.5 = some tbl ∧
      tbl 0 = SINC_TYPE.flt c0 ∧ tbl 1 = SINC_TYPE.flt c1 ∧ tbl 2 = SINC_TYPE.flt c2 ∧
      tbl 3 = SINC_TYPE.flt c3 ∧ tbl 4 = SINC_TYPE.flt c4 ∧ tbl 5 = SINC_TYPE.flt c5 ∧
      tbl 6 = SINC_TYPE.flt c6 ∧ tbl 7 = SINC_TYPE.flt c7 ∧
      ¬ (|c0 + c1 + c2 + c3 + c4 + c5 + c6 + c7 - 1| ≤ (0.001 : ℝ)) := by
  obtain ⟨fuel, tbl, c0, c1, c2, c3, c4, c5, c6, c7, h, t0, t1, t2, t3, t4, t5, t6, t7, hs⟩ :=
    gDownsample13x_phase_zero_sum
  refine ⟨fuel, tbl, c0, c1, c2, c3, c4, c5, c6, c7, h, t0, t1, t2, t3, t4, t5, t6, t7, ?_⟩
  intro habs
  have := (abs_le.mp habs).1
  norm_num at this hs
  linarith

/-! ## The index map of `getsinc` -/

/-- The kernel offset of a table position, with the mask and the shift written
as remainder and quotient by 8. -/
theorem getsincIx_eq (P isrc : Nat) :
    getsincIx P isrc = (7 - ((isrc % 8 : Nat) : Int)) * (P : Int) + ((isrc / 8 : Nat) : Int) := by
  simp only [getsincIx, land_seven, shiftRight_three]

/-- Two table positions below `8 * SINC_PHASES` with the same kernel offset are
the same position. -/
theorem getsincIx_injective (P i j : Nat) (hi : i < 8 * P) (hj : j < 8 * P)
    (h : getsincIx P i = getsincIx P j) : i = j := by
  rw [getsincIx_eq, getsincIx_eq] at h
  have hqi : i / 8 < P := by omega
  have hqj : j / 8 < P := by omega
  have hri : i % 8 < 8 := Nat.mod_lt _ (by norm_num)
  have hrj : j % 8 < 8 := Nat.mod_lt _ (by norm_num)
  obtain ⟨a, ha⟩ : ∃ a, i % 8 = a := ⟨_, rfl⟩
  obtain ⟨b, hb⟩ : ∃ b, j % 8 = b := ⟨_, rfl⟩
  rw [ha, hb] at h
  rw [ha] at hri
  rw [hb] at hrj
  have hab : a = b := by
    interval_cases a <;> interval_cases b <;> first | rfl | (exfalso; push_cast at h; omega)
  subst hab
  have hq : i / 8 = j / 8 := by
    have : ((i / 8 : Nat) : Int) = ((j / 8 : Nat) : Int) := by linarith
    exact_mod_cast this
  omega

/-- Every kernel offset below `8 * SINC_PHASES` is the offset of a table
position. -/
theorem getsincIx_surjective (P k : Nat) (hk : k < 8 * P) :
    ∃ isrc, isrc < 8 * P ∧ getsincIx P isrc = (k : Int) := by
  have hP : 0 < P := by omega
  have hq : k / P < 8 := (Nat.div_lt_iff_lt_mul hP).mpr hk
  have hr : k % P < P := Nat.mod_lt _ hP
  have hk' : P * (k / P) + k % P = k := Nat.div_add_mod k P
  generalize k / P = q at hq hk'
  generalize k % P = r at hr hk'
  refine ⟨8 * r + (7 - q), by omega, ?_⟩
  rw [getsincIx_eq]
  have e1 : (8 * r + (7 - q)) % 8 = 7 - q := by omega
  have e2 : (8 * r + (7 - q)) / 8 = r := by omega
  rw [e1, e2, Nat.cast_sub (by omega)]
  have : ((P * q + r : Nat) : Int) = (k : Int) := by rw [hk']
  push_cast at this ⊢
  linarith

/-- C25.  With `phase = isrc >> 3` and `tap = isrc & 7`, the map from a table
position `isrc` to the kernel offset `ix = (7 - tap) * SINC_PHASES + phase` sends
`[0, 8 * SINC_PHASES)` into itself, is injective there and reaches every offset
of the range, so each offset is the image of exactly one position; the kernel
centre `4 * SINC_PHASES` is the image of position 3 (phase 0, tap 3) and of no
other position. -/
theorem getsincIx_bijection (P : Nat) (hP : 0 < P) :
    (∀ isrc, isrc < 8 * P →
      getsincIx P isrc
        = (7 - ((isrc &&& 7 : Nat) : Int)) * (P : Int) + ((isrc >>> 3 : Nat) : Int) ∧
      0 ≤ getsincIx P isrc ∧ getsincIx P isrc < 8 * (P : Int)) ∧
    (∀ i j, i < 8 * P → j < 8 * P → getsincIx P i = getsincIx P j → i = j) ∧
    (∀ k : Nat, k < 8 * P →
      ∃ isrc, isrc < 8 * P ∧ getsincIx P isrc = (k : Int) ∧
        ∀ j, j < 8 * P → getsincIx P j = (k : Int) → j = isrc) ∧
    3 < 8 * P ∧ 3 >>> 3 = 0 ∧ 3 &&& 7 = 3 ∧
    (∀ isrc, isrc < 8 * P → (getsincIx P isrc = 4 * (P : Int) ↔ isrc = 3)) := by
  refine ⟨fun isrc h => ⟨rfl, getsincIx_range P isrc h⟩, getsincIx_injective P, ?_, by omega,
    by decide, by decide, ?_⟩
  · intro k hk
    obtain ⟨isrc, h1, h2⟩ := getsincIx_surjective P k hk
    exact ⟨isrc, h1, h2, fun j hj e => getsincIx_injective P j isrc hj h1 (e.trans h2.symm)⟩
  · intro isrc h
    constructor
    · intro e
      exact getsincIx_injective P isrc 3 h (by omega) (e.trans (getsincIx_three P).symm)
    · rintro rfl
      exact getsincIx_three P

/-- C25, at the 256 phases of the sinc tables. -/
theorem getsincIx_bijection_example :
    0 < 256 ∧
    (∀ isrc, isrc < 8 * 256 →
      getsincIx 256 isrc
        = (7 - ((isrc &&& 7 : Nat) : Int)) * ((256 : Nat) : Int) + ((isrc >>> 3 : Nat) : Int) ∧
      0 ≤ getsincIx 256 isrc ∧ getsincIx 256 isrc < 8 * ((256 : Nat) : Int)) ∧
    (∀ i j, i < 8 * 256 → j < 8 * 256 → getsincIx 256 i = getsincIx 256 j → i = j) ∧
    (∀ k : Nat, k < 8 * 256 →
      ∃ isrc, isrc < 8 * 256 ∧ getsincIx 256 isrc = (k : Int) ∧
        ∀ j, j < 8 * 256 → getsincIx 256 j = (k : Int) → j = isrc) ∧
    3 < 8 * 256 ∧ 3 >>> 3 = 0 ∧ 3 &&& 7 = 3 ∧
    (∀ isrc, isrc < 8 * 256 → (getsincIx 256 isrc = 4 * ((256 : Nat) : Int) ↔ isrc = 3)) :=
  ⟨by decide, getsincIx_bijection 256 (by decide)⟩

/-! ## Mirror symmetry of `FastSincTable` -/

set_option maxRecDepth 100000 in
/-- From row 1 on, the table read backwards is the table itself. -/
theorem FastSincTable_drop_reverse :
    (FastSincTable.drop 4).reverse = FastSincTable.drop 4 := by
  decide

set_option maxRecDepth 100000 in
theorem FastSincTable_row_128 :
    (FastSincTable.drop (4 * 128)).take 4 = [(-1024 : Int), 9216, 9216, -1024] := by
  decide

/-- An entry of a list that equals its own reverse is found again at the
mirrored index. -/
theorem getD_of_reverse_eq (l : List Int) (h : l.reverse = l) (j : Nat) (hj : j < l.length) :
    l.getD j 0 = l.getD (l.length - 1 - j) 0 := by
  have h1 : l.getD j 0 = l.reverse.getD j 0 := by rw [h]
  rw [h1, List.getD_eq_getElem _ _ (by rw [List.length_reverse]; exact hj),
    List.getD_eq_getElem _ _ (by omega), List.getElem_reverse]

/-- C27.  `FastSincTable` is mirror-symmetric in phase: for every phase `p` with
`1 ≤ p ≤ 255` and every tap `t < 4`, entry `4p + t` equals entry
`4(256 - p) + (3 - t)`; row 128 is `-1024, 9216, 9216, -1024`. -/
theorem FastSincTable_mirror_symmetric (p t : Nat) (hp1 : 1 ≤ p) (hp : p ≤ 255) (ht : t < 4) :
    FastSincTable.getD (4 * p + t) 0 = FastSincTable.getD (4 * (256 - p) + (3 - t)) 0 ∧
    FastSincTable.getD (4 * 128) 0 = -1024 ∧ FastSincTable.getD (4 * 128 + 1) 0 = 9216 ∧
    FastSincTable.getD (4 * 128 + 2) 0 = 9216 ∧ FastSincTable.getD (4 * 128 + 3) 0 = -1024 := by
  have hlen : (FastSincTable.drop 4).length = 1020 := by
    rw [List.length_drop, FastSincTable_length]
  have hd : ∀ i, FastSincTable.getD (4 + i) 0 = (FastSincTable.drop 4).getD i 0 := by
    intro i
    simp only [List.getD_eq_getElem?_getD, List.getElem?_drop]
  have hrow : ∀ i, i < 4 → FastSincTable.getD (4 * 128 + i) 0
      = ([(-1024 : Int), 9216, 9216, -1024]).getD i 0 := by
    intro i hi
    rw [← FastSincTable_row_128]
    simp only [List.getD_eq_getElem?_getD, List.getElem?_take, List.getElem?_drop, hi, if_true]
  refine ⟨?_, hrow 0 (by omega), hrow 1 (by omega), hrow 2 (by omega), hrow 3 (by omega)⟩
  have e1 : 4 * p + t = 4 + (4 * p + t - 4) := by omega
  have e2 : 4 * (256 - p) + (3 - t) = 4 + (1020 - 1 - (4 * p + t - 4)) := by omega
  rw [e1, e2, hd, hd, ← hlen]
  exact getD_of_reverse_eq _ FastSincTable_drop_reverse _ (by rw [hlen]; omega)

/-- C27, at phase 1, tap 0: entry 4 equals entry 1023. -/
theorem FastSincTable_mirror_symmetric_example :
    (1 ≤ 1 ∧ 1 ≤ 255 ∧ 0 < 4) ∧
    FastSincTable.getD (4 * 1 + 0) 0 = FastSincTable.getD (4 * (256 - 1) + (3 - 0)) 0 ∧
    FastSincTable.getD (4 * 128) 0 = -1024 ∧ FastSincTable.getD (4 * 128 + 1) 0 = 9216 ∧
    FastSincTable.getD (4 * 128 + 2) 0 = 9216 ∧ FastSincTable.getD (4 * 128 + 3) 0 = -1024 :=
  ⟨by decide, FastSincTable_mirror_symmetric 1 0 (by decide) (by decide) (by decide)⟩

/-! ## The windowed-FIR table on the cached path -/

section
variable {α : Type} [LinearOrderedField α] {B : Type}

/-- The calling instance after the copies from the cached instance: the
windowed-FIR table is the cached one on its whole extent and the settings are
untouched. -/
theorem copyFromCachedResampler_windowedFIR (cfg : BuildConfig) (H : ResamplerHeader)
    (cached self : CResampler α B) :
    (∀ i, i < H.WFIR_LUTLEN * H.WFIR_WIDTH →
      (copyFromCachedResampler cfg H cached self).m_WindowedFIR.lut i
        = cached.m_WindowedFIR.lut i) ∧
    (copyFromCachedResampler cfg H cached self).m_Settings = self.m_Settings ∧
    (copyFromCachedResampler cfg H cached self).m_OldSettings = self.m_OldSettings := by
  obtain ⟨f1, f2, -⟩ := InitFloatmixerTables_frame cfg self
  refine ⟨fun i hi => ?_, f1, f2⟩
  simp only [copyFromCachedResampler, std_copy, hi, if_true]

variable [FloorRing α]

/-- A forced call of `InitializeTablesFromScratch` outside the tracker build
regenerates the windowed-FIR table from the instance's own settings, and each
sinc table is the output of `getsinc`. -/
theorem InitializeTablesFromScratch_forced (m : CMath α) (cfg : BuildConfig)
    (H : ResamplerHeader) (X : Collaborators α B) (fuel : Nat) (s s' : CResampler α B)
    (hlib : cfg.MODPLUG_TRACKER = false)
    (h : InitializeTablesFromScratch m cfg H X fuel s true = some s') :
    s'.m_WindowedFIR = X.InitTable s.m_WindowedFIR s.m_Settings.gdWFIRCutoff
      s.m_Settings.gbWFIRType ∧
    s'.m_Settings = s.m_Settings ∧ s'.m_OldSettings = s.m_Settings ∧
    getsinc m cfg H fuel s.gKaiserSinc 9.6377 0.97 = some s'.gKaiserSinc ∧
    getsinc m cfg H fuel s.gDownsample13x 8.5 0.5 = some s'.gDownsample13x ∧
    getsinc m cfg H fuel s.gDownsample2x 7.0 0.425 = some s'.gDownsample2x ∧
    s'.FastSincTablef = (InitFloatmixerTables cfg s).FastSincTablef := by
  rcases InitializeTablesFromScratch_cases m cfg H X fuel s s' true h with
    ⟨-, s1, h1, rfl⟩ | ⟨hi, -⟩
  · obtain ⟨e1, e2, e3, e4, -, -, e5, -, e6⟩ := initTablesBlock_spec m cfg H X fuel s s1 h1
    obtain ⟨w0, -, w1, w2, w3, -, w4⟩ := initWindowedFIR_frame X s1 true
    obtain ⟨t1, t2⟩ := (initWindowedFIR_spec X s1 true).1 (Or.inl rfl)
    rw [w0, w1, w2, w3, w4, t1, t2, e5, e6]
    exact ⟨rfl, rfl, rfl, e1, e2, e3, e4⟩
  · rw [initParameterIndependentTables_eq, hlib] at hi
    cases hi

/-- C26.  `InitializeTablesFromCache` returns (with enough fuel), and whatever
the calling instance's settings are, afterwards every entry of the caller's
windowed-FIR table (indices below `WFIR_LUTLEN * WFIR_WIDTH`) is the entry of the
cached instance's table, while the caller's `m_Settings` and `m_OldSettings` are
what they were.  When the call constructs the cached instance (outside the
tracker build), the cached table is the one `InitTable` generates for the cached
instance's own cutoff and type; when the cached instance exists already, it is
left as it is.  The caller's settings do not enter the table. -/
theorem InitializeTablesFromCache_windowedFIR (m : CMath α) (cfg : BuildConfig)
    (H : ResamplerHeader) (X : Collaborators α B) (raw : CResampler α B)
    (s_CachedResampler : Option (CResampler α B)) (self : CResampler α B) :
    ∃ N, ∀ k, ∃ self' cached,
      InitializeTablesFromCache m cfg H X (N + k) raw s_CachedResampler self
        = some (self', cached) ∧
      (∀ i, i < H.WFIR_LUTLEN * H.WFIR_WIDTH →
        self'.m_WindowedFIR.lut i = cached.m_WindowedFIR.lut i) ∧
      self'.m_Settings = self.m_Settings ∧ self'.m_OldSettings = self.m_OldSettings ∧
      (s_CachedResampler = none → cfg.MODPLUG_TRACKER = false →
        cached.m_WindowedFIR = X.InitTable raw.m_WindowedFIR raw.m_Settings.gdWFIRCutoff
          raw.m_Settings.gbWFIRType) ∧
      (∀ c, s_CachedResampler = some c → cached = c) ∧
      (∀ other : CResampler α B, ∃ other',
        InitializeTablesFromCache m cfg H X (N + k) raw s_CachedResampler other
          = some (other', cached) ∧
        ∀ i, i < H.WFIR_LUTLEN * H.WFIR_WIDTH →
          other'.m_WindowedFIR.lut i = self'.m_WindowedFIR.lut i) := by
  cases s_CachedResampler with
  | some c =>
    refine ⟨0, fun k => ⟨copyFromCachedResampler cfg H c self, c, ?_, ?_⟩⟩
    · simp only [InitializeTablesFromCache, GetCachedResampler, Option.map_some']
    · obtain ⟨g1, g2, g3⟩ := copyFromCachedResampler_windowedFIR cfg H c self
      refine ⟨g1, g2, g3, fun hn => Option.noConfusion hn, fun c' hc => Option.some.inj hc,
        fun other => ?_⟩
      refine ⟨copyFromCachedResampler cfg H c other, ?_, fun i hi => ?_⟩
      · simp only [InitializeTablesFromCache, GetCachedResampler, Option.map_some']
      · rw [g1 i hi, (copyFromCachedResampler_windowedFIR cfg H c other).1 i hi]
  | none =>
    obtain ⟨N, hN⟩ := InitializeTablesFromScratch_terminates m cfg H X raw true
    refine ⟨N, fun k => ?_⟩
    obtain ⟨c, hc⟩ := hN k
    refine ⟨copyFromCachedResampler cfg H c self, c, ?_, ?_⟩
    · simp only [InitializeTablesFromCache, GetCachedResampler, CResampler_construct_fresh, hc,
        Option.map_some']
    · obtain ⟨g1, g2, g3⟩ := copyFromCachedResampler_windowedFIR cfg H c self
      refine ⟨g1, g2, g3,
        fun _ hlib => (InitializeTablesFromScratch_forced m cfg H X _ raw c hlib hc).1,
        fun c' hc' => Option.noConfusion hc', fun other => ?_⟩
      refine ⟨copyFromCachedResampler cfg H c other, ?_, fun i hi => ?_⟩
      · simp only [InitializeTablesFromCache, GetCachedResampler, CResampler_construct_fresh, hc,
          Option.map_some']
      · rw [g1 i hi, (copyFromCachedResampler_windowedFIR cfg H c other).1 i hi]

end

/-! ## The fuzzing build -/

section
variable {α : Type} [LinearOrderedField α] [FloorRing α]

/-- Position 3 of a table written by `getsinc` holds the stored form of the
clamped cutoff. -/
theorem getsinc_position_three (m : CMath α) (cfg : BuildConfig) (H : ResamplerHeader)
    (fuel : Nat) (psinc tbl : Nat → SINC_TYPE α) (beta cutoff : α) (hP : 0 < H.SINC_PHASES)
    (h : getsinc m cfg H fuel psinc beta cutoff = some tbl) :
    tbl 3 = getsincStore cfg H (getsincCutoff cutoff) := by
  obtain ⟨c, hc, hs⟩ := (getsinc_spec m cfg H fuel psinc tbl beta cutoff h 3).1 (by omega)
  have hc' := hc
  simp only [getsincCoeffAt, Option.bind_eq_some] at hc'
  obtain ⟨v1, hv1, -⟩ := hc'
  have hcentre := getsincCoeffAt_centre m H.SINC_PHASES fuel beta cutoff v1 hv1
  rw [← getsincIx_three, hc] at hcentre
  cases hcentre
  exact hs

end

/-- C21, evaluated on the code.  In the fuzzing build (MPT_BUILD_FUZZER defined)
a forced call of `InitializeTablesFromScratch` on an instance whose tables are
all zero returns (with enough fuel) an instance in which position 3 of the three
sinc tables holds the cutoffs 0.97, 0.5 and 0.425, so the sinc tables are not in
their zero state, and the windowed-FIR table is what `InitTable` returns for the
instance's settings.  Only the float mirror of the cubic table is left at zero. -/
theorem InitializeTablesFromScratch_fuzzer_build_generates :
    fuzzerBuild.MPT_BUILD_FUZZER = true ∧
    ∃ N, ∀ k, ∃ r,
      InitializeTablesFromScratch ratMath fuzzerBuild header16 ratCollaborators (N + k)
        (zeroResampler false) true = some r ∧
      r.gKaiserSinc 3 = SINC_TYPE.flt (97 / 100) ∧
      r.gDownsample13x 3 = SINC_TYPE.flt (1 / 2) ∧
      r.gDownsample2x 3 = SINC_TYPE.flt (17 / 40) ∧
      r.gKaiserSinc 3 ≠ (zeroResampler false).gKaiserSinc 3 ∧
      r.gDownsample13x 3 ≠ (zeroResampler false).gDownsample13x 3 ∧
      r.gDownsample2x 3 ≠ (zeroResampler false).gDownsample2x 3 ∧
      r.m_WindowedFIR
        = ratCollaborators.InitTable (zeroResampler false).m_WindowedFIR (97 / 100) 7 ∧
      r.FastSincTablef = (zeroResampler false).FastSincTablef := by
  refine ⟨rfl, ?_⟩
  obtain ⟨N, hN⟩ := InitializeTablesFromScratch_terminates ratMath fuzzerBuild header16
    ratCollaborators (zeroResampler false) true
  refine ⟨N, fun k => ?_⟩
  obtain ⟨r, hr⟩ := hN k
  obtain ⟨w, -, -, g1, g2, g3, f⟩ := InitializeTablesFromScratch_forced ratMath fuzzerBuild
    header16 ratCollaborators _ (zeroResampler false) r rfl hr
  have hP : 0 < header16.SINC_PHASES := by decide
  have k1 := getsinc_position_three ratMath fuzzerBuild header16 _ _ _ _ _ hP g1
  have k2 := getsinc_position_three ratMath fuzzerBuild header16 _ _ _ _ _ hP g2
  have k3 := getsinc_position_three ratMath fuzzerBuild header16 _ _ _ _ _ hP g3
  have c1 : getsincCutoff (0.97 : ℚ) = 97 / 100 := by
    rw [getsincCutoff_of_lt _ (by norm_num)]; norm_num
  have c2 : getsincCutoff (0.5 : ℚ) = 1 / 2 := by
    rw [getsincCutoff_of_lt _ (by norm_num)]; norm_num
  have c3 : getsincCutoff (0.425 : ℚ) = 17 / 40 := by
    rw [getsincCutoff_of_lt _ (by norm_num)]; norm_num
  rw [c1] at k1
  rw [c2] at k2
  rw [c3] at k3
  have s1 : r.gKaiserSinc 3 = SINC_TYPE.flt (97 / 100) := k1
  have s2 : r.gDownsample13x 3 = SINC_TYPE.flt (1 / 2) := k2
  have s3 : r.gDownsample2x 3 = SINC_TYPE.flt (17 / 40) := k3
  refine ⟨r, hr, s1, s2, s3, ?_, ?_, ?_, w, ?_⟩
  · rw [s1]
    simp only [zeroResampler, ne_eq, SINC_TYPE.flt.injEq]
    norm_num
  · rw [s2]
    simp only [zeroResampler, ne_eq, SINC_TYPE.flt.injEq]
    norm_num
  · rw [s3]
    simp only [zeroResampler, ne_eq, SINC_TYPE.flt.injEq]
    norm_num
  · rw [f]
    rfl

/-- C26, on concrete instances of the library build: the cached instance is
constructed from an all-zero instance with filter type 7, the caller has filter
type 3.  After the call the caller's table holds the entries generated for type
7, not those `InitTable` generates for the caller's own settings, and the
caller's settings are still its own. -/
theorem InitializeTablesFromCache_windowedFIR_example :
    ∃ N, ∀ k, ∃ self' cached,
      InitializeTablesFromCache ratMath libraryBuild header16 ratCollaborators (N + k)
        (zeroResampler false) none otherSettingsResampler = some (self', cached) ∧
      self'.m_WindowedFIR.lut 0 = 8 ∧
      (ratCollaborators.InitTable otherSettingsResampler.m_WindowedFIR
        otherSettingsResampler.m_Settings.gdWFIRCutoff
        otherSettingsResampler.m_Settings.gbWFIRType).lut 0 = 4 ∧
      self'.m_Settings.gbWFIRType = 3 ∧ self'.m_OldSettings.gbWFIRType = 2 := by
  obtain ⟨N, hN⟩ := InitializeTablesFromCache_windowedFIR ratMath libraryBuild header16
    ratCollaborators (zeroResampler false) none otherSettingsResampler
  refine ⟨N, fun k => ?_⟩
  obtain ⟨self', cached, h, hl, hs, ho, hc, -, -⟩ := hN k
  refine ⟨self', cached, h, ?_, rfl, by rw [hs]; rfl, by rw [ho]; rfl⟩
  rw [hl 0 (by decide), hc rfl rfl]
  rfl

/-! ## The list of supported extensions -/

set_option maxRecDepth 100000 in
/-- C23.  In every build and for both values of `otherFormats`, the list
`GetSupportedExtensions` returns contains no empty extension and no extension
twice, and every non-empty extension of `modFormatInfo` and of
`modContainerInfo` is in it; `amf`, `ams` and `dmf`, which two formats share,
occur once each. -/
theorem GetSupportedExtensions_distinct_and_complete (cfg : BuildConfig) (sw : FormatSwitches)
    (otherFormats : Bool) :
    (∀ e ∈ GetSupportedExtensions cfg sw otherFormats, e ≠ "") ∧
    (GetSupportedExtensions cfg sw otherFormats).Nodup ∧
    (∀ f ∈ modFormatInfo sw, f.extension ≠ "" →
      f.extension ∈ GetSupportedExtensions cfg sw otherFormats) ∧
    (∀ c ∈ modContainerInfo cfg, c.extension ≠ "" →
      c.extension ∈ GetSupportedExtensions cfg sw otherFormats) ∧
    (GetSupportedExtensions cfg sw otherFormats).count "amf" = 1 ∧
    (GetSupportedExtensions cfg sw otherFormats).count "ams" = 1 ∧
    (GetSupportedExtensions cfg sw otherFormats).count "dmf" = 1 := by
  obtain ⟨t, i, z⟩ := cfg
  obtain ⟨x, a⟩ := sw
  cases t <;> cases i <;> cases z <;> cases x <;> cases a <;> cases otherFormats <;> decide

/-! ## The fade laws on the unit interval -/

theorem real_logb_fade (pos : ℝ) (h0 : 0 ≤ pos) (h1 : pos ≤ 1) :
    0 ≤ Real.logb 10 (1.0 + pos * 99.0) * 0.5 ∧ Real.logb 10 (1.0 + pos * 99.0) * 0.5 ≤ 1 := by
  have hb : (1 : ℝ) < 10 := by norm_num
  have hx1 : (1 : ℝ) ≤ 1.0 + pos * 99.0 := by norm_num; positivity
  have hx2 : (1.0 + pos * 99.0 : ℝ) ≤ 100 := by norm_num; linarith
  have l0 : 0 ≤ Real.logb 10 (1.0 + pos * 99.0) := Real.logb_nonneg hb hx1
  have l2 : Real.logb 10 (1.0 + pos * 99.0) ≤ 2 := by
    rw [Real.logb_le_iff_le_rpow hb (by linarith)]
    have : (10 : ℝ) ^ (2 : ℝ) = 100 := by
      rw [Real.rpow_two]
      norm_num
    rw [this]
    exact hx2
  constructor
  · norm_num at l0 ⊢
    linarith
  · norm_num at l2 ⊢
    linarith

/-- C24.  With the real `sqrt`, `log10`, `sin` and `cos`, and constants `M_PI`
arbitrary and `0 ≤ M_PI_2 ≤ π` (in particular the exact `π` and `π/2`), every
fade law maps `[0, 1]` into `[0, 1]`: for every integer value of `Law` and every
`pos` with `0 ≤ pos ≤ 1`, `GetFadeFunc(law)(pos)` lies in `[0, 1]`; a value of
`Law` outside the enumerators 0..5 selects `LinearFunc`. -/
theorem GetFadeFunc_unit_interval (fadeLaw : Int) (pos M_PI M_PI_2 : ℝ) (h0 : 0 ≤ pos)
    (h1 : pos ≤ 1) (hq0 : 0 ≤ M_PI_2) (hq1 : M_PI_2 ≤ Real.pi) :
    0 ≤ Fade.GetFadeFunc
        (FadeMath.mk Real.sqrt (Real.logb 10) Real.sin Real.cos M_PI M_PI_2) fadeLaw pos ∧
    Fade.GetFadeFunc
        (FadeMath.mk Real.sqrt (Real.logb 10) Real.sin Real.cos M_PI M_PI_2) fadeLaw pos ≤ 1 ∧
    ((fadeLaw < 0 ∨ 5 < fadeLaw) →
      Fade.GetFadeFunc
        (FadeMath.mk Real.sqrt (Real.logb 10) Real.sin Real.cos M_PI M_PI_2) fadeLaw
        = Fade.LinearFunc) := by
  have hout : (fadeLaw < 0 ∨ 5 < fadeLaw) →
      Fade.GetFadeFunc
        (FadeMath.mk Real.sqrt (Real.logb 10) Real.sin Real.cos M_PI M_PI_2) fadeLaw
        = Fade.LinearFunc := by
    intro h
    simp only [Fade.GetFadeFunc, Fade.kLinear, Fade.kPow, Fade.kSqrt, Fade.kLog,
      Fade.kQuarterSine, Fade.kHalfSine]
    have n0 : ¬ fadeLaw = 0 := by omega
    have n1 : ¬ fadeLaw = 1 := by omega
    have n2 : ¬ fadeLaw = 2 := by omega
    have n3 : ¬ fadeLaw = 3 := by omega
    have n4 : ¬ fadeLaw = 4 := by omega
    have n5 : ¬ fadeLaw = 5 := by omega
    rw [if_neg n0, if_neg n1, if_neg n2, if_neg n3, if_neg n4, if_neg n5]
  refine ⟨?_, ?_, hout⟩
  · simp only [Fade.GetFadeFunc]
    split_ifs
    · exact h0
    · exact mul_nonneg h0 h0
    · exact Real.sqrt_nonneg pos
    · exact (real_logb_fade pos h0 h1).1
    · exact Real.sin_nonneg_of_nonneg_of_le_pi (mul_nonneg hq0 h0)
        (le_trans (mul_le_of_le_one_right hq0 h1) hq1)
    · have := Real.neg_one_le_cos (M_PI + M_PI * pos)
      simp only [Fade.HalfSineFunc]
      norm_num
      linarith
    · exact h0
  · simp only [Fade.GetFadeFunc]
    split_ifs
    · exact h1
    · simp only [Fade.PowFunc]
      nlinarith
    · exact Real.sqrt_le_one.mpr h1
    · exact (real_logb_fade pos h0 h1).2
    · exact Real.sin_le_one _
    · have := Real.cos_le_one (M_PI + M_PI * pos)
      simp only [Fade.HalfSineFunc]
      norm_num
      linarith
    · exact h1

/-- C24, at the half-sine law with the exact constants, position 1/2. -/
theorem GetFadeFunc_unit_interval_example :
    ((0 : ℝ) ≤ 1 / 2 ∧ (1 / 2 : ℝ) ≤ 1 ∧ 0 ≤ Real.pi / 2 ∧ Real.pi / 2 ≤ Real.pi) ∧
    0 ≤ Fade.GetFadeFunc
        (FadeMath.mk Real.sqrt (Real.logb 10) Real.sin Real.cos Real.pi (Real.pi / 2))
        Fade.kHalfSine (1 / 2) ∧
    Fade.GetFadeFunc
        (FadeMath.mk Real.sqrt (Real.logb 10) Real.sin Real.cos Real.pi (Real.pi / 2))
        Fade.kHalfSine (1 / 2) ≤ 1 ∧
    ((Fade.kHalfSine < 0 ∨ 5 < Fade.kHalfSine) →
      Fade.GetFadeFunc
        (FadeMath.mk Real.sqrt (Real.logb 10) Real.sin Real.cos Real.pi (Real.pi / 2))
        Fade.kHalfSine = Fade.LinearFunc) :=
  have hpi : (0 : ℝ) ≤ Real.pi := Real.pi_pos.le
  ⟨⟨by norm_num, by norm_num, by linarith, by linarith⟩,
    GetFadeFunc_unit_interval Fade.kHalfSine (1 / 2) Real.pi (Real.pi / 2) (by norm_num)
      (by norm_num) (by linarith) (by linarith)⟩

/-! ## The day number of a date -/

theorem toInt32_of_fits (x : Int) (h1 : -2147483648 ≤ x) (h2 : x < 2147483648) :
    toInt32 x = x := by
  unfold toInt32
  omega

/-- The day number as a sum over the year that starts in March. -/
theorem ToDaynum_eq (y m d : Int) (hy : 1 ≤ y) (hm1 : 1 ≤ m) (hm2 : m ≤ 12) :
    ToDaynum y m d
      = (y - (if m ≤ 2 then 1 else 0)) * 365 + (y - (if m ≤ 2 then 1 else 0)) / 4
        - (y - (if m ≤ 2 then 1 else 0)) / 100 + (y - (if m ≤ 2 then 1 else 0)) / 400
        + (((m + 9) % 12) * 306 + 5) / 10 + (d - 1) := by
  have h1 : Int.tmod (m + 9) 12 = (m + 9) % 12 := Int.tmod_eq_emod (by omega) (by norm_num)
  have h2 : Int.tdiv ((m + 9) % 12) 10 = ((m + 9) % 12) / 10 :=
    Int.tdiv_eq_ediv (by omega) (by norm_num)
  have h3 : ((m + 9) % 12) / 10 = if m ≤ 2 then 1 else 0 := by
    split <;> omega
  simp only [ToDaynum, h1, h2, h3]
  have hy' : 0 ≤ y - (if m ≤ 2 then 1 else 0) := by split <;> omega
  rw [Int.tdiv_eq_ediv hy' (by norm_num), Int.tdiv_eq_ediv hy' (by norm_num),
    Int.tdiv_eq_ediv hy' (by norm_num), Int.tdiv_eq_ediv (by omega) (by norm_num)]

/-- The leap days before year `Y`, compared with `0.2425 * Y`. -/
theorem centuries_bounds (Y : Int) :
    2425 * Y - 14775 ≤ 10000 * (Y / 4 - Y / 100 + Y / 400) ∧
    10000 * (Y / 4 - Y / 100 + Y / 400) ≤ 2425 * Y + 7200 := by
  omega

/-- The first estimate of the year in `FromDaynum` is the year or the year
after. -/
theorem year_estimate (Y doy g : Int) (h0 : 0 ≤ doy) (hdoy : doy ≤ 366)
    (hg : g = Y * 365 + Y / 4 - Y / 100 + Y / 400 + doy) :
    (10000 * g + 14780) / 3652425 = Y ∨ (10000 * g + 14780) / 3652425 = Y + 1 := by
  obtain ⟨hA1, hA2⟩ := centuries_bounds Y
  have hg' : g = Y * 365 + (Y / 4 - Y / 100 + Y / 400) + doy := by omega
  clear hg
  generalize Y / 4 - Y / 100 + Y / 400 = A at hA1 hA2 hg'
  omega

/-- A year has at most 366 days. -/
theorem day_of_year_le (Y doy g : Int)
    (hg : g = Y * 365 + Y / 4 - Y / 100 + Y / 400 + doy)
    (h1 : g < (Y + 1) * 365 + (Y + 1) / 4 - (Y + 1) / 100 + (Y + 1) / 400) : doy ≤ 366 := by
  omega

theorem day_number_nonneg (Y doy g : Int) (hY : 0 ≤ Y) (h0 : 0 ≤ doy)
    (hg : g = Y * 365 + Y / 4 - Y / 100 + Y / 400 + doy) : 0 ≤ 10000 * g + 14780 := by
  omega

theorem day_number_sub (Y doy g : Int)
    (hg : g = Y * 365 + Y / 4 - Y / 100 + Y / 400 + doy) :
    g - (365 * Y + Y / 4 - Y / 100 + Y / 400) = doy := by
  omega

theorem day_number_sub_next (Y g : Int)
    (h1 : g < (Y + 1) * 365 + (Y + 1) / 4 - (Y + 1) / 100 + (Y + 1) / 400) :
    g - (365 * (Y + 1) + (Y + 1) / 4 - (Y + 1) / 100 + (Y + 1) / 400) < 0 := by
  omega

/-- The month index, month and day that `FromDaynum` computes from a day of the
year fit `int32`, and the truncating divisions act on non-negative values. -/
theorem day_of_year_facts (Y doy : Int) (hY : 0 ≤ Y) (hY2 : Y ≤ 10000) (h0 : 0 ≤ doy)
    (hdoy : doy ≤ 366) :
    0 ≤ 100 * doy + 52 ∧ 0 ≤ (100 * doy + 52) / 3060 + 2 ∧
    0 ≤ (100 * doy + 52) / 3060 * 306 + 5 ∧
    toInt32 (Y + ((100 * doy + 52) / 3060 + 2) / 12)
      = Y + ((100 * doy + 52) / 3060 + 2) / 12 ∧
    toInt32 (((100 * doy + 52) / 3060 + 2) % 12 + 1)
      = ((100 * doy + 52) / 3060 + 2) % 12 + 1 ∧
    toInt32 (doy - ((100 * doy + 52) / 3060 * 306 + 5) / 10 + 1)
      = doy - ((100 * doy + 52) / 3060 * 306 + 5) / 10 + 1 := by
  have b1 : 0 ≤ (100 * doy + 52) / 3060 := by omega
  have b2 : (100 * doy + 52) / 3060 ≤ 11 := by omega
  generalize (100 * doy + 52) / 3060 = mi at b1 b2
  refine ⟨by omega, by omega, by omega, toInt32_of_fits _ (by omega) (by omega),
    toInt32_of_fits _ (by omega) (by omega), toInt32_of_fits _ (by omega) (by omega)⟩

/-- `FromDaynum` on the day number of day `doy` of the year that starts in
March of year `Y`. -/
theorem FromDaynum_of_parts (Y doy g : Int) (hY : 0 ≤ Y) (hY2 : Y ≤ 10000) (h0 : 0 ≤ doy)
    (hg : g = Y * 365 + Y / 4 - Y / 100 + Y / 400 + doy)
    (h1 : g < (Y + 1) * 365 + (Y + 1) / 4 - (Y + 1) / 100 + (Y + 1) / 400) :
    FromDaynum g
      = (Y + ((100 * doy + 52) / 3060 + 2) / 12, ((100 * doy + 52) / 3060 + 2) % 12 + 1,
          doy - ((100 * doy + 52) / 3060 * 306 + 5) / 10 + 1) := by
  have hdoy : doy ≤ 366 := day_of_year_le Y doy g hg h1
  have hg0 : 0 ≤ 10000 * g + 14780 := day_number_nonneg Y doy g hY h0 hg
  have hy0 := year_estimate Y doy g h0 hdoy hg
  have hddd := day_number_sub Y doy g hg
  have hneg := day_number_sub_next Y g h1
  obtain ⟨n1, n2, n3, f1, f2, f3⟩ := day_of_year_facts Y doy hY hY2 h0 hdoy
  have hY1 : (0 : Int) ≤ Y + 1 := Int.add_nonneg hY (by norm_num)
  have k1 : Int.tdiv (100 * doy + 52) 3060 = (100 * doy + 52) / 3060 :=
    Int.tdiv_eq_ediv n1 (by norm_num)
  have k2 : Int.tmod ((100 * doy + 52) / 3060 + 2) 12 = ((100 * doy + 52) / 3060 + 2) % 12 :=
    Int.tmod_eq_emod n2 (by norm_num)
  have k3 : Int.tdiv ((100 * doy + 52) / 3060 + 2) 12 = ((100 * doy + 52) / 3060 + 2) / 12 :=
    Int.tdiv_eq_ediv n2 (by norm_num)
  have k4 : Int.tdiv ((100 * doy + 52) / 3060 * 306 + 5) 10
      = ((100 * doy + 52) / 3060 * 306 + 5) / 10 :=
    Int.tdiv_eq_ediv n3 (by norm_num)
  have q1 : Int.tdiv Y 4 = Y / 4 := Int.tdiv_eq_ediv hY (by norm_num)
  have q2 : Int.tdiv Y 100 = Y / 100 := Int.tdiv_eq_ediv hY (by norm_num)
  have q3 : Int.tdiv Y 400 = Y / 400 := Int.tdiv_eq_ediv hY (by norm_num)
  have r1 : Int.tdiv (Y + 1) 4 = (Y + 1) / 4 := Int.tdiv_eq_ediv hY1 (by norm_num)
  have r2 : Int.tdiv (Y + 1) 100 = (Y + 1) / 100 := Int.tdiv_eq_ediv hY1 (by norm_num)
  have r3 : Int.tdiv (Y + 1) 400 = (Y + 1) / 400 := Int.tdiv_eq_ediv hY1 (by norm_num)
  have hpos : ¬ doy < 0 := not_lt.mpr h0
  unfold FromDaynum
  simp only []
  rw [Int.tdiv_eq_ediv hg0 (by norm_num)]
  rcases hy0 with e | e
  · rw [e, q1, q2, q3, hddd, if_neg hpos, if_neg hpos, k1, k2, k3, k4, f1, f2, f3]
  · rw [e, r1, r2, r3, if_pos hneg, if_pos hneg, add_sub_cancel_right, q1, q2, q3, hddd, k1, k2,
      k3, k4, f1, f2, f3]

/-- The month index `FromDaynum` computes from the day of the March-based year
of a date is the month index `ToDaynum` started from. -/
theorem month_index (m d : Int) (hm1 : 1 ≤ m) (hm2 : m ≤ 12) (hd1 : 1 ≤ d) (hd31 : d ≤ 31)
    (h30 : (m = 4 ∨ m = 6 ∨ m = 9 ∨ m = 11) → d ≤ 30) (h29 : m = 2 → d ≤ 29) :
    (100 * (((m + 9) % 12 * 306 + 5) / 10 + (d - 1)) + 52) / 3060 = (m + 9) % 12 := by
  have hm : m = 1 ∨ m = 2 ∨ m = 3 ∨ m = 4 ∨ m = 5 ∨ m = 6 ∨ m = 7 ∨ m = 8 ∨ m = 9 ∨ m = 10 ∨
      m = 11 ∨ m = 12 := by omega
  rcases hm with h | h | h | h | h | h | h | h | h | h | h | h <;> subst h <;>
    norm_num at h30 h29 ⊢ <;> omega

/-- The day of the March-based year of a date, and how `FromDaynum` finds month
and day back from it. -/
theorem month_roundtrip (m d : Int) (hm1 : 1 ≤ m) (hm2 : m ≤ 12) (hd1 : 1 ≤ d) (hd31 : d ≤ 31)
    (h30 : (m = 4 ∨ m = 6 ∨ m = 9 ∨ m = 11) → d ≤ 30) (h29 : m = 2 → d ≤ 29) :
    0 ≤ ((m + 9) % 12 * 306 + 5) / 10 + (d - 1) ∧
    (2 < m → ((m + 9) % 12 * 306 + 5) / 10 + (d - 1) ≤ 305) ∧
    (m ≤ 2 → ((m + 9) % 12 * 306 + 5) / 10 + (d - 1) ≤ 336 + d) ∧
    (m = 1 → ((m + 9) % 12 * 306 + 5) / 10 + (d - 1) ≤ 336) ∧
    ((100 * (((m + 9) % 12 * 306 + 5) / 10 + (d - 1)) + 52) / 3060 + 2) / 12
      = (if m ≤ 2 then 1 else 0) ∧
    ((100 * (((m + 9) % 12 * 306 + 5) / 10 + (d - 1)) + 52) / 3060 + 2) % 12 + 1 = m ∧
    ((m + 9) % 12 * 306 + 5) / 10 + (d - 1)
      - ((100 * (((m + 9) % 12 * 306 + 5) / 10 + (d - 1)) + 52) / 3060 * 306 + 5) / 10 + 1
      = d := by
  rw [month_index m d hm1 hm2 hd1 hd31 h30 h29]
  have hm : m = 1 ∨ m = 2 ∨ m = 3 ∨ m = 4 ∨ m = 5 ∨ m = 6 ∨ m = 7 ∨ m = 8 ∨ m = 9 ∨ m = 10 ∨
      m = 11 ∨ m = 12 := by omega
  rcases hm with h | h | h | h | h | h | h | h | h | h | h | h <;> subst h <;>
    norm_num at h30 h29 ⊢ <;> omega

/-- The length of the year that starts in March of year `Y`: 365 days, and 366
when `Y + 1` is a leap year. -/
theorem year_length (Y : Int) :
    (Y + 1) * 365 + (Y + 1) / 4 - (Y + 1) / 100 + (Y + 1) / 400
        - (Y * 365 + Y / 4 - Y / 100 + Y / 400) ≥ 365 ∧
    (((Y + 1) % 4 = 0 ∧ ((Y + 1) % 100 ≠ 0 ∨ (Y + 1) % 400 = 0)) →
      (Y + 1) * 365 + (Y + 1) / 4 - (Y + 1) / 100 + (Y + 1) / 400
        - (Y * 365 + Y / 4 - Y / 100 + Y / 400) ≥ 366) := by
  constructor
  · omega
  · intro h
    omega

/-- The round trip through the day number, for the years 1970 to 9999. -/
theorem FromDaynum_ToDaynum (y m d : Int) (hy : 1970 ≤ y) (hy' : y ≤ 9999)
    (hv : validGregorianDate y m d) : FromDaynum (ToDaynum y m d) = (y, m, d) := by
  obtain ⟨hm1, hm2, hd1, v31, v30, v29, v28⟩ := hv
  unfold isLeapYear at v29 v28
  rw [ToDaynum_eq y m d (le_trans (by norm_num) hy) hm1 hm2]
  have hfeb : m = 2 → d ≤ 28 ∨ (d ≤ 29 ∧ y % 4 = 0 ∧ (y % 100 ≠ 0 ∨ y % 400 = 0)) := by
    intro h2
    by_cases hl : y % 4 = 0 ∧ (y % 100 ≠ 0 ∨ y % 400 = 0)
    · exact Or.inr ⟨v29 h2 hl, hl⟩
    · exact Or.inl (v28 h2 hl)
  have hd29 : m = 2 → d ≤ 29 := by
    intro h2
    rcases hfeb h2 with h | h
    · exact le_trans h (by norm_num)
    · exact h.1
  have hd31 : d ≤ 31 := by
    clear v29 v28 hfeb
    omega
  obtain ⟨p0, p1, p2, p3, p4, p5, p6⟩ := month_roundtrip m d hm1 hm2 hd1 hd31 v30 hd29
  generalize hdoy : ((m + 9) % 12 * 306 + 5) / 10 + (d - 1) = doy at p0 p1 p2 p3 p4 p5 p6
  by_cases hm : m ≤ 2
  · rw [if_pos hm] at p4 ⊢
    obtain ⟨l1, l2⟩ := year_length (y - 1)
    rw [sub_add_cancel] at l1 l2
    have hlt : (y - 1) * 365 + (y - 1) / 4 - (y - 1) / 100 + (y - 1) / 400 + doy
        < (y - 1 + 1) * 365 + (y - 1 + 1) / 4 - (y - 1 + 1) / 100 + (y - 1 + 1) / 400 := by
      rw [sub_add_cancel]
      have hm' : m = 1 ∨ m = 2 := by omega
      rcases hm' with h | h
      · have := p3 h
        clear v31 v30 v29 v28 hfeb hd29 l2 p1 p2 p3 p4 p5 p6
        omega
      · have c := p2 hm
        rcases hfeb h with h28 | ⟨h29, hl⟩
        · clear v31 v30 v29 v28 hfeb hd29 l2 p1 p2 p3 p4 p5 p6
          omega
        · have := l2 hl
          clear v31 v30 v29 v28 hfeb hd29 l2 p1 p2 p3 p4 p5 p6 hl
          omega
    have hparts := FromDaynum_of_parts (y - 1) doy
      ((y - 1) * 365 + (y - 1) / 4 - (y - 1) / 100 + (y - 1) / 400 + doy)
      (by omega) (by omega) p0 rfl hlt
    have hg : (y - 1) * 365 + (y - 1) / 4 - (y - 1) / 100 + (y - 1) / 400
          + ((m + 9) % 12 * 306 + 5) / 10 + (d - 1)
        = (y - 1) * 365 + (y - 1) / 4 - (y - 1) / 100 + (y - 1) / 400 + doy := by
      rw [← hdoy]
      ring
    rw [hg, hparts, p4, p5, p6, sub_add_cancel]
  · rw [if_neg hm] at p4 ⊢
    obtain ⟨l1, -⟩ := year_length y
    have hlt : y * 365 + y / 4 - y / 100 + y / 400 + doy
        < (y + 1) * 365 + (y + 1) / 4 - (y + 1) / 100 + (y + 1) / 400 := by
      have := p1 (not_le.mp hm)
      clear v31 v30 v29 v28 hfeb hd29 p1 p2 p3 p4 p5 p6
      omega
    have hparts := FromDaynum_of_parts y doy (y * 365 + y / 4 - y / 100 + y / 400 + doy)
      (by omega) (by omega) p0 rfl hlt
    have hg : (y - 0) * 365 + (y - 0) / 4 - (y - 0) / 100 + (y - 0) / 400
          + ((m + 9) % 12 * 306 + 5) / 10 + (d - 1)
        = y * 365 + y / 4 - y / 100 + y / 400 + doy := by
      rw [← hdoy, sub_zero]
      ring
    rw [hg, hparts, p4, p5, p6, add_zero]

/-- The day number of 1970-01-01. -/
theorem ToDaynum_epoch : ToDaynum 1970 1 1 = 719468 := by
  decide

/-- The day numbers of the dates of the years 1970 to 9999 start at that of
1970-01-01 and fit `int32`. -/
theorem ToDaynum_range (y m d : Int) (hy : 1970 ≤ y) (hy' : y ≤ 9999)
    (hv : validGregorianDate y m d) :
    719468 ≤ ToDaynum y m d ∧ ToDaynum y m d ≤ 3652426 := by
  obtain ⟨hm1, hm2, hd1, v31, v30, v29, v28⟩ := hv
  have hfeb : m = 2 → d ≤ 29 := by
    intro h2
    by_cases hl : isLeapYear y
    · exact v29 h2 hl
    · exact le_trans (v28 h2 hl) (by norm_num)
  have hd31 : d ≤ 31 := by
    clear v29 v28
    omega
  rw [ToDaynum_eq y m d (le_trans (by norm_num) hy) hm1 hm2,
    add_assoc _ (((m + 9) % 12 * 306 + 5) / 10) (d - 1)]
  obtain ⟨p0, p1, p2, p3, -⟩ := month_roundtrip m d hm1 hm2 hd1 hd31 v30 hfeb
  have plow : m ≤ 2 → 306 ≤ ((m + 9) % 12 * 306 + 5) / 10 + (d - 1) := by
    intro h
    have hm' : m = 1 ∨ m = 2 := by omega
    rcases hm' with h | h <;> subst h <;> norm_num <;> omega
  have pdoy : ((m + 9) % 12 * 306 + 5) / 10 + (d - 1) ≤ 366 := by
    clear plow v29 v28 v31 v30 p0 p3
    by_cases hm : m ≤ 2
    · have := p2 hm
      have := hfeb
      omega
    · have := p1 (not_le.mp hm)
      omega
  clear v31 v30 v29 v28 hfeb hd31 p1 p2 p3
  generalize ((m + 9) % 12 * 306 + 5) / 10 + (d - 1) = doy at p0 plow pdoy
  have key : ∀ Y : Int, 1969 ≤ Y → Y ≤ 9999 →
      719162 ≤ Y * 365 + Y / 4 - Y / 100 + Y / 400 ∧
      (1970 ≤ Y → 719527 ≤ Y * 365 + Y / 4 - Y / 100 + Y / 400) ∧
      Y * 365 + Y / 4 - Y / 100 + Y / 400 ≤ 3652060 := by
    intro Y h1 h2
    obtain ⟨hA1, hA2⟩ := centuries_bounds Y
    have e : Y * 365 + Y / 4 - Y / 100 + Y / 400 = Y * 365 + (Y / 4 - Y / 100 + Y / 400) := by
      ring
    rw [e]
    generalize Y / 4 - Y / 100 + Y / 400 = A at hA1 hA2
    refine ⟨by omega, fun _ => by omega, by omega⟩
  by_cases hm : m ≤ 2
  · rw [if_pos hm]
    obtain ⟨k1, -, k3⟩ := key (y - 1) (by omega) (by omega)
    have := plow hm
    generalize (y - 1) * 365 + (y - 1) / 4 - (y - 1) / 100 + (y - 1) / 400 = N at k1 k3 ⊢
    omega
  · rw [if_neg hm]
    obtain ⟨-, k2, k3⟩ := key y (by omega) hy'
    have k2' := k2 hy
    rw [sub_zero]
    generalize y * 365 + y / 4 - y / 100 + y / 400 = N at k2' k3 ⊢
    omega

/-- Splitting a count of seconds since the epoch into days, hours, minutes and
seconds, as `UnixAsUTC` does with truncating `/` and `%`. -/
theorem split_seconds (n h mi s : Int) (hn : 0 ≤ n) (hh : 0 ≤ h) (hh' : h < 24) (hmi : 0 ≤ mi)
    (hmi' : mi < 60) (hs : 0 ≤ s) (hs' : s < 60) :
    Int.tmod (n * 24 * 60 * 60 + h * 60 * 60 + mi * 60 + s) 60 = s ∧
    Int.tmod (Int.tdiv (n * 24 * 60 * 60 + h * 60 * 60 + mi * 60 + s) 60) 60 = mi ∧
    Int.tmod (Int.tdiv (Int.tdiv (n * 24 * 60 * 60 + h * 60 * 60 + mi * 60 + s) 60) 60) 24
      = h ∧
    Int.tdiv (Int.tdiv (Int.tdiv (n * 24 * 60 * 60 + h * 60 * 60 + mi * 60 + s) 60) 60) 24
      = n := by
  have hT : 0 ≤ n * 24 * 60 * 60 + h * 60 * 60 + mi * 60 + s := by omega
  have h1 : 0 ≤ (n * 24 * 60 * 60 + h * 60 * 60 + mi * 60 + s) / 60 :=
    Int.ediv_nonneg hT (by norm_num)
  have h2 : 0 ≤ (n * 24 * 60 * 60 + h * 60 * 60 + mi * 60 + s) / 60 / 60 :=
    Int.ediv_nonneg h1 (by norm_num)
  rw [Int.tmod_eq_emod hT (by norm_num), Int.tdiv_eq_ediv hT (by norm_num),
    Int.tmod_eq_emod h1 (by norm_num), Int.tdiv_eq_ediv h1 (by norm_num),
    Int.tmod_eq_emod h2 (by norm_num), Int.tdiv_eq_ediv h2 (by norm_num)]
  clear hT h1 h2
  refine ⟨by omega, by omega, by omega, by omega⟩

/-- The round trip through the Unix time, for the years 1970 to 9999. -/
theorem UnixAsUTC_UnixFromUTC (y m d h mi s : Int) (hy : 1970 ≤ y) (hy' : y ≤ 9999)
    (hv : validGregorianDate y m d) (hh : 0 ≤ h) (hh' : h < 24) (hmi : 0 ≤ mi) (hmi' : mi < 60)
    (hs : 0 ≤ s) (hs' : s < 60) :
    UnixAsUTC (UnixFromUTC ⟨y, m, d, h, mi, s⟩) = ⟨y, m, d, h, mi, s⟩ ∧
    0 ≤ UnixFromUTC ⟨y, m, d, h, mi, s⟩ := by
  obtain ⟨r1, r2⟩ := ToDaynum_range y m d hy hy' hv
  have rt := FromDaynum_ToDaynum y m d hy hy' hv
  simp only [UnixFromUTC, UnixAsUTC, ToDaynum_epoch]
  generalize ToDaynum y m d = dn at r1 r2 rt
  obtain ⟨e1, e2, e3, e4⟩ := split_seconds (dn - 719468) h mi s (by omega) hh hh' hmi hmi' hs hs'
  rw [e1, e2, e3, e4, toInt32_of_fits (dn - 719468) (by omega) (by omega), sub_add_cancel, rt,
    toInt32_of_fits h (by omega) (by omega), toInt32_of_fits mi (by omega) (by omega)]
  refine ⟨rfl, ?_⟩
  omega

/-- C29.  For every valid Gregorian date `(y, m, d)` with `1970 ≤ y ≤ 9999`:
the day number fits `int32` and `FromDaynum(ToDaynum(y, m, d)) = (y, m, d)`;
for every time of day with `0 ≤ hours < 24`, `0 ≤ minutes < 60` and
`0 ≤ seconds < 60`, `UnixAsUTC(UnixFromUTC(t)) = t`, the Unix time being
non-negative; and `UnixFromUTC(1970-01-01T00:00:00) = 0`. -/
theorem Daynum_roundtrip (y m d : Int) (hy : 1970 ≤ y) (hy' : y ≤ 9999)
    (hv : validGregorianDate y m d) :
    FromDaynum (ToDaynum y m d) = (y, m, d) ∧
    -2147483648 ≤ ToDaynum y m d ∧ ToDaynum y m d < 2147483648 ∧
    (∀ h mi s : Int, 0 ≤ h → h < 24 → 0 ≤ mi → mi < 60 → 0 ≤ s → s < 60 →
      UnixAsUTC (UnixFromUTC ⟨y, m, d, h, mi, s⟩) = ⟨y, m, d, h, mi, s⟩ ∧
      0 ≤ UnixFromUTC ⟨y, m, d, h, mi, s⟩) ∧
    UnixFromUTC ⟨1970, 1, 1, 0, 0, 0⟩ = 0 := by
  obtain ⟨r1, r2⟩ := ToDaynum_range y m d hy hy' hv
  refine ⟨FromDaynum_ToDaynum y m d hy hy' hv, by omega, by omega, ?_, by decide⟩
  intro h mi s hh hh' hmi hmi' hs hs'
  exact UnixAsUTC_UnixFromUTC y m d h mi s hy hy' hv hh hh' hmi hmi' hs hs'

/-- C29, at the leap day 2024-02-29. -/
theorem Daynum_roundtrip_example :
    ((1970 : Int) ≤ 2024 ∧ (2024 : Int) ≤ 9999 ∧ validGregorianDate 2024 2 29) ∧
    FromDaynum (ToDaynum 2024 2 29) = (2024, 2, 29) ∧
    -2147483648 ≤ ToDaynum 2024 2 29 ∧ ToDaynum 2024 2 29 < 2147483648 ∧
    (∀ h mi s : Int, 0 ≤ h → h < 24 → 0 ≤ mi → mi < 60 → 0 ≤ s → s < 60 →
      UnixAsUTC (UnixFromUTC ⟨2024, 2, 29, h, mi, s⟩) = ⟨2024, 2, 29, h, mi, s⟩ ∧
      0 ≤ UnixFromUTC ⟨2024, 2, 29, h, mi, s⟩) ∧
    UnixFromUTC ⟨1970, 1, 1, 0, 0, 0⟩ = 0 :=
  have hv : validGregorianDate 2024 2 29 := by
    unfold validGregorianDate isLeapYear
    decide
  ⟨⟨by decide, by decide, hv⟩, Daynum_roundtrip 2024 2 29 (by decide) (by decide) hv⟩

/-! ## The shortened ISO 8601 form -/

/-- C30, evaluated on the code.  For the date 2024-01-02 with time 00:00:05 the
output is the date alone: the non-zero seconds are dropped together with the
whole time of day, whatever the formatter `dec0` is.  For midnight 00:00:00 the
time of day is kept as `T00:00`.  For year 0 the output is empty. -/
theorem ToShortenedISO8601Impl_drops_seconds :
    ToShortenedISO8601Impl dec0Digits LogicalTimezone.UTC ⟨2024, 1, 2, 0, 0, 5⟩
      = "2024-01-02" ∧
    ToShortenedISO8601Impl dec0Digits LogicalTimezone.UTC ⟨2024, 1, 2, 0, 0, 0⟩
      = "2024-01-02T00:00Z" ∧
    ToShortenedISO8601Impl dec0Digits LogicalTimezone.UTC ⟨2024, 1, 2, 3, 4, 5⟩
      = "2024-01-02T03:04:05Z" ∧
    (∀ (dec0 : Nat → Int → String) (TZ : LogicalTimezone) (date : Gregorian),
      date.year ≠ 0 → date.hours = 0 → date.minutes = 0 → date.seconds ≠ 0 →
      ToShortenedISO8601Impl dec0 TZ date
        = "" ++ dec0 4 date.year ++ ("-" ++ dec0 2 date.month) ++ ("-" ++ dec0 2 date.day)) ∧
    (∀ (dec0 : Nat → Int → String) (TZ : LogicalTimezone) (date : Gregorian),
      date.year = 0 → ToShortenedISO8601Impl dec0 TZ date = "") := by
  refine ⟨by decide, by decide, by decide, ?_, ?_⟩
  · intro dec0 TZ date hy hh hm hs
    simp only [ToShortenedISO8601Impl, if_neg hy, hh, hm, hs, ne_eq, not_false_eq_true,
      and_self, if_true]
  · intro dec0 TZ date hy
    simp only [ToShortenedISO8601Impl, if_pos hy]

/-! ## Reading from a cached, seekable container -/

theorem pos_type_sub_of_le (posBits a b : Nat) (hb : b ≤ a) (ha : a < 2 ^ posBits) :
    pos_type_sub posBits a b = a - b := by
  unfold pos_type_sub
  have h1 : (0 : Int) ≤ (a : Int) - (b : Int) := by omega
  have h2 : (a : Int) - (b : Int) < (2 ^ posBits : Int) := by
    have : ((a : Nat) : Int) < ((2 ^ posBits : Nat) : Int) := by exact_mod_cast ha
    push_cast at this
    omega
  rw [Int.emod_eq_of_lt h1 h2]
  omega

theorem pos_type_sub_of_gt (posBits a b : Nat) (hb : a < b) (hw : b < 2 ^ posBits) :
    pos_type_sub posBits a b = 2 ^ posBits - (b - a) ∧ 1 ≤ pos_type_sub posBits a b := by
  have hw' : ((b : Nat) : Int) < ((2 ^ posBits : Nat) : Int) := by exact_mod_cast hw
  push_cast at hw'
  have h1 : (0 : Int) ≤ (a : Int) - (b : Int) + (2 ^ posBits : Int) := by omega
  have h2 : (a : Int) - (b : Int) + (2 ^ posBits : Int) < (2 ^ posBits : Int) := by omega
  have e : pos_type_sub posBits a b = 2 ^ posBits - (b - a) := by
    unfold pos_type_sub
    rw [← Int.add_emod_self, Int.emod_eq_of_lt h1 h2]
    have : (a : Int) - (b : Int) + (2 ^ posBits : Int)
        = ((2 ^ posBits - (b - a) : Nat) : Int) := by
      rw [Nat.cast_sub (by omega), Nat.cast_sub (by omega)]
      push_cast
      ring
    rw [this, Int.toNat_natCast]
  rw [e]
  exact ⟨rfl, by omega⟩

/-- C28, evaluated on the code.  A cached seekable container with a cache of 4
bytes, read at position 5 into a destination of 2 bytes (64-bit `pos_type`):
`cache.size() - pos` wraps to `2^64 - 1`, so 2 bytes are requested from
`cache[5 .. 7)`, outside the cache; `FileDataContainerUnseekable::Read` on the
same cache returns the empty span.  Reads at positions up to the cache length
return the `min(L - pos, |dst|)` bytes from position `pos` on; at every position
beyond the cache length the subtraction wraps and a read into a non-empty
destination leaves the cache. -/
theorem FileDataContainerSeekable_Read_past_end :
    pos_type_sub 64 4 5 = 2 ^ 64 - 1 ∧
    min (pos_type_sub 64 4 5) 2 = 2 ∧
    FileDataContainerSeekable.Read 64 (fun _ d => d)
      { streamLength := 4, cached := true, cache := [10, 11, 12, 13] } 5 [0, 0] = none ∧
    FileDataContainerUnseekable.Read 64 (fun s _ _ => s)
      { cache := [10, 11, 12, 13], cachesize := 4, streamFullyCached := true } 5 [0, 0]
      = some [] ∧
    (∀ (posBits : Nat) (irb : Nat → List Nat → List Nat) (self : FileDataContainerSeekable Nat)
      (pos : Nat) (dst : List Nat),
      self.cached = true → self.cache.length < 2 ^ posBits → pos ≤ self.cache.length →
      FileDataContainerSeekable.Read posBits irb self pos dst
        = some ((self.cache.drop pos).take (min (self.cache.length - pos) dst.length))) ∧
    (∀ (posBits : Nat) (irb : Nat → List Nat → List Nat) (self : FileDataContainerSeekable Nat)
      (pos : Nat) (dst : List Nat),
      self.cached = true → self.cache.length < pos → pos < 2 ^ posBits → dst ≠ [] →
      pos_type_sub posBits self.cache.length pos = 2 ^ posBits - (pos - self.cache.length) ∧
      1 ≤ min (pos_type_sub posBits self.cache.length pos) dst.length ∧
      FileDataContainerSeekable.Read posBits irb self pos dst = none) := by
  refine ⟨by decide, by decide, by decide, by decide, ?_, ?_⟩
  · intro posBits irb self pos dst hc hl hp
    simp only [FileDataContainerSeekable.Read, hc, if_true, pos_type_sub_of_le _ _ _ hp hl,
      copyFromCache]
    rw [if_pos]
    have := Nat.min_le_left (self.cache.length - pos) dst.length
    omega
  · intro posBits irb self pos dst hc hl hp hd
    obtain ⟨w1, w2⟩ := pos_type_sub_of_gt posBits self.cache.length pos hl hp
    have hlen : 1 ≤ dst.length := List.length_pos.mpr hd
    refine ⟨w1, le_min w2 hlen, ?_⟩
    simp only [FileDataContainerSeekable.Read, hc, if_true, copyFromCache]
    rw [if_neg]
    omega

/-! ## Binary64 arithmetic: where the claims about all arguments fail -/

/-- More fuel does not change a result of `IzeroLoop64`. -/
theorem IzeroLoop64_fuel_mono (y : Binary64) :
    ∀ (n : Nat) (s ds d v : Binary64), IzeroLoop64 y n s ds d = some v →
      ∀ k, IzeroLoop64 y (n + k) s ds d = some v := by
  intro n
  induction n with
  | zero =>
    intro s ds d v h
    simp [IzeroLoop64] at h
  | succ n ih =>
    intro s ds d v h k
    rw [Nat.add_right_comm]
    simp only [IzeroLoop64] at h ⊢
    split at h
    · rename_i hc
      rw [if_pos hc]
      exact ih _ _ _ v h k
    · rename_i hc
      rw [if_neg hc]
      exact h

theorem Izero64_fuel_mono (y v : Binary64) (n : Nat) (h : Izero64 n y = some v) (k : Nat) :
    Izero64 (n + k) y = some v :=
  IzeroLoop64_fuel_mono y n _ _ _ v h k

/-- More fuel does not change a coefficient `getsincCoeff64` returned. -/
theorem getsincCoeff64_fuel_mono (m : CMath64) (P n : Nat) (beta cutoff v : Binary64)
    (isrc : Nat) (h : getsincCoeff64 m P n beta cutoff isrc = some v) (k : Nat) :
    getsincCoeff64 m P (n + k) beta cutoff isrc = some v := by
  simp only [getsincCoeff64, Option.bind_eq_some, Option.map_eq_some'] at h ⊢
  obtain ⟨izb, h1, f, h2, rfl⟩ := h
  refine ⟨izb, Izero64_fuel_mono _ _ _ h1 k, f, ?_, rfl⟩
  simp only [getsincFsinc64] at h2 ⊢
  split at h2
  · rename_i hc
    rw [if_pos hc]
    exact h2
  · rename_i hc
    rw [if_neg hc]
    simp only [Option.map_eq_some'] at h2 ⊢
    obtain ⟨iz, h3, rfl⟩ := h2
    exact ⟨iz, Izero64_fuel_mono _ _ _ h3 k, rfl⟩

set_option maxRecDepth 100000 in
/-- C15, as stated, fails for the `double` function.  In binary64 arithmetic
`Izero(2^-31)` and `Izero(2^-30)` are both exactly 1.0: the first term,
`y*y/4`, is `2^-64` and `2^-62`, and `1 + ds` rounds to 1, so the loop leaves
after one round with `s = 1`.  So `0 < y1 < y2` with `Izero(y1) = Izero(y2)`.
At the other end `Izero(1e200)` and `Izero(1e201)` are both `+inf`. -/
theorem Izero64_not_strictly_increasing :
    roundBinary64 (1 / 2 ^ 31) = Binary64.fin (1 / 2 ^ 31) ∧
    roundBinary64 (1 / 2 ^ 30) = Binary64.fin (1 / 2 ^ 30) ∧
    (0 : ℚ) < 1 / 2 ^ 31 ∧ (1 / 2 ^ 31 : ℚ) < 1 / 2 ^ 30 ∧
    (∀ k, Izero64 (1 + k) (Binary64.fin (1 / 2 ^ 31)) = some (Binary64.fin 1)) ∧
    (∀ k, Izero64 (1 + k) (Binary64.fin (1 / 2 ^ 30)) = some (Binary64.fin 1)) ∧
    Binary64.gt (Binary64.fin 1) (Binary64.fin 1) = false ∧
    (∀ k, Izero64 (1 + k) (roundBinary64 1E200) = some (Binary64.inf false)) ∧
    (∀ k, Izero64 (1 + k) (roundBinary64 1E201) = some (Binary64.inf false)) ∧
    Binary64.gt (Binary64.inf false) (Binary64.inf false) = false :=
  ⟨by decide!, by decide!, by decide!, by decide!,
    Izero64_fuel_mono _ _ 1 (by decide!), Izero64_fuel_mono _ _ 1 (by decide!), by decide!,
    Izero64_fuel_mono _ _ 1 (by decide!), Izero64_fuel_mono _ _ 1 (by decide!), by decide!⟩

set_option maxRecDepth 100000 in
/-- C17, as stated, fails for the `double` code.  With `beta = 1` and the
positive `cutoff = 2^-1073`, in binary64 arithmetic `kPi = 4 * atan(1) * cutoff`
is `6 * 2^-1074` and, at table position 11 (phase 1, tap 3, `x = 1/256`, not the
centre), `xPi = x * kPi` underflows to 0: the divisor `izeroBeta * xPi` is 0,
`fsinc` is `0 / 0` and the coefficient is a NaN. -/
theorem getsinc64_divisor_underflows :
    roundBinary64 (1 / 2 ^ 1073) = Binary64.fin (1 / 2 ^ 1073) ∧
    Binary64.gt (Binary64.fin (1 / 2 ^ 1073)) (Binary64.fin 0) = true ∧
    getsincIx 256 11 = 1025 ∧ (1025 : Int) ≠ 4 * ((256 : Nat) : Int) ∧
    getsincX64 256 1025 = Binary64.fin (1 / 256) ∧
    getsincKPi64 libm64 (getsincCutoff64 (Binary64.fin (1 / 2 ^ 1073)))
      = Binary64.fin (6 / 2 ^ 1074) ∧
    Binary64.mul (getsincX64 256 1025)
        (getsincKPi64 libm64 (getsincCutoff64 (Binary64.fin (1 / 2 ^ 1073))))
      = Binary64.fin 0 ∧
    (∀ k, ∃ izeroBeta, Izero64 (10 + k) (Binary64.ofInt 1) = some izeroBeta ∧
      getsincDivisor64 libm64 256 (getsincCutoff64 (Binary64.fin (1 / 2 ^ 1073))) izeroBeta 1025
        = Binary64.fin 0) ∧
    (∀ k, getsincCoeff64 libm64 256 (10 + k) (Binary64.ofInt 1) (Binary64.fin (1 / 2 ^ 1073)) 11
      = some Binary64.nan) :=
  ⟨by decide!, by decide!, by decide!, by decide!, by decide!, by decide!, by decide!,
    fun k => ⟨Binary64.fin (5701853813138609 / 4503599627370496),
      Izero64_fuel_mono _ _ 10 (by decide!) k, by decide!⟩,
    getsincCoeff64_fuel_mono _ _ 10 _ _ _ _ (by decide!)⟩

/-! ## The integer bounds in the usual notation -/

theorem cond_blt {β : Type} (x y : Nat) (u v : β) :
    (bif Nat.blt x y then u else v) = if x < y then u else v := by
  by_cases h : x < y
  · have hb : Nat.blt x y = true := by rw [Nat.blt_eq]; exact h
    rw [hb, if_pos h]
    rfl
  · have hb : Nat.blt x y = false := by
      cases hc : Nat.blt x y
      · rfl
      · rw [Nat.blt_eq] at hc
        exact absurd hc h
    rw [hb, if_neg h]
    rfl

theorem cond_ble {β : Type} (x y : Nat) (u v : β) :
    (bif Nat.ble x y then u else v) = if x ≤ y then u else v := by
  by_cases h : x ≤ y
  · have hb : Nat.ble x y = true := Nat.ble_eq_true_of_le h
    rw [hb, if_pos h]
    rfl
  · have hb : Nat.ble x y = false := by
      cases hc : Nat.ble x y
      · rfl
      · exact absurd (Nat.le_of_ble_eq_true hc) h
    rw [hb, if_neg h]
    rfl

theorem IzeroFracLoop_succ (a b fuel N A D k : Nat) :
    IzeroFracLoop a b (fuel + 1) N A D k
      = if N * (b * ((2 * k + 2) * (2 * k + 2))) + A * a < 10000000 * (A * a) then
          IzeroFracLoop a b fuel (N * (b * ((2 * k + 2) * (2 * k + 2))) + A * a) (A * a)
            (D * (b * ((2 * k + 2) * (2 * k + 2)))) (k + 1)
        else some (N * (b * ((2 * k + 2) * (2 * k + 2))) + A * a,
          D * (b * ((2 * k + 2) * (2 * k + 2)))) := by
  rw [IzeroFracLoop, cond_blt]
  rfl

theorem sinBoundsNat_eq (zl zh M : Nat) :
    sinBoundsNat zl zh M
      = (zl * M ^ 8 * 3265920 + zl ^ 5 * M ^ 4 * 27216
            - (zh ^ 3 * M ^ 6 * 544320 + zh ^ 7 * M ^ 2 * 648 + zh ^ 9 * 10),
          zh * M ^ 8 * 3265920 + zh ^ 5 * M ^ 4 * 27216 + zh ^ 9 * 10
            - (zl ^ 3 * M ^ 6 * 544320 + zl ^ 7 * M ^ 2 * 648)) :=
  rfl

theorem cosBoundsNat_eq (zl zh M : Nat) :
    cosBoundsNat zl zh M
      = (M ^ 9 * 3265920 + zl ^ 4 * M ^ 5 * 136080 + zl ^ 8 * M * 81
            - (zh ^ 2 * M ^ 7 * 1632960 + zh ^ 6 * M ^ 3 * 4536 + zh ^ 9 * 10),
          M ^ 9 * 3265920 + zh ^ 4 * M ^ 5 * 136080 + zh ^ 8 * M * 81 + zh ^ 9 * 10
            - (zl ^ 2 * M ^ 7 * 1632960 + zl ^ 6 * M ^ 3 * 4536)) :=
  rfl

theorem sinPiBoundsNat_eq (r m : Nat) :
    sinPiBoundsNat r m
      = if 4 * r ≤ m then
          ((sinBoundsNat (3141592 * r) (3141593 * r) (1000000 * m)).1,
            (sinBoundsNat (3141592 * r) (3141593 * r) (1000000 * m)).2,
            (1000000 * m) ^ 9 * 3265920)
        else
          ((cosBoundsNat (3141592 * (m - 2 * r)) (3141593 * (m - 2 * r)) (2000000 * m)).1,
            (cosBoundsNat (3141592 * (m - 2 * r)) (3141593 * (m - 2 * r)) (2000000 * m)).2,
            (2000000 * m) ^ 9 * 3265920) := by
  rw [sinPiBoundsNat, cond_ble]
  rfl

theorem reflectedArg_eq (n m : Nat) :
    reflectedArg n m = if 2 * (n % m) ≤ m then n % m else m - n % m := by
  rw [reflectedArg, cond_ble]
  rfl

theorem tapBoundsNat_eq (bsqN bsqD cn cd fuel nb db a : Nat) :
    tapBoundsNat bsqN bsqD cn cd fuel nb db a
      = (IzeroFracLoop (bsqN * (1048576 - a * a)) (bsqD * 1048576) fuel 1 1 1 0).map
          fun nd =>
            (decide (cn * a / (cd * 256) % 2 = 1),
              (sinPiBoundsNat (if 2 * (cn * a % (cd * 256)) ≤ cd * 256 then cn * a % (cd * 256)
                  else cd * 256 - cn * a % (cd * 256)) (cd * 256)).1
                * (256 * nd.1 * db * 1000000 * gainScale)
                / ((sinPiBoundsNat (if 2 * (cn * a % (cd * 256)) ≤ cd * 256
                    then cn * a % (cd * 256) else cd * 256 - cn * a % (cd * 256))
                    (cd * 256)).2.2 * nd.2 * a * nb * 3141593),
              (sinPiBoundsNat (if 2 * (cn * a % (cd * 256)) ≤ cd * 256 then cn * a % (cd * 256)
                  else cd * 256 - cn * a % (cd * 256)) (cd * 256)).2.1
                * (256 * nd.1 * db * 1000000 * gainScale)
                / ((sinPiBoundsNat (if 2 * (cn * a % (cd * 256)) ≤ cd * 256
                    then cn * a % (cd * 256) else cd * 256 - cn * a % (cd * 256))
                    (cd * 256)).2.2 * nd.2 * a * nb * 3141592) + 1) := by
  have hr := reflectedArg_eq (cn * a) (cd * 256)
  have hbeq : ∀ x y : Nat, Nat.beq x y = decide (x = y) := by
    intro x y
    by_cases h : x = y
    · rw [decide_eq_true h, h]
      exact Nat.beq_refl y
    · rw [decide_eq_false h]
      cases hc : Nat.beq x y
      · rfl
      · exact absurd (Nat.eq_of_beq_eq_true hc) h
  rw [← hr]
  unfold tapBoundsNat
  congr 1
  funext nd
  rw [hbeq]
  rfl

theorem tapsBoundsNat_succ (bsqN bsqD cn cd fuel nb db p t : Nat) :
    tapsBoundsNat bsqN bsqD cn cd fuel nb db p (t + 1)
      = (tapsBoundsNat bsqN bsqD cn cd fuel nb db p t).bind fun acc =>
          if (3 - (t : Int)) * 256 + (p : Int) = 0 then
            some (acc.1 + cn * gainScale / cd, acc.2.1 + (cn * gainScale / cd + 1), acc.2.2.1,
              acc.2.2.2)
          else
            (tapBoundsNat bsqN bsqD cn cd fuel nb db
                ((3 - (t : Int)) * 256 + (p : Int)).natAbs).bind fun b =>
              if b.2.2 ≤ 999000000000000 then
                if b.1 then some (acc.1, acc.2.1, acc.2.2.1 + b.2.1, acc.2.2.2 + b.2.2)
                else some (acc.1 + b.2.1, acc.2.1 + b.2.2, acc.2.2.1, acc.2.2.2)
              else none := by
  rw [tapsBoundsNat]
  congr 1
  funext acc
  by_cases h0 : (3 - (t : Int)) * 256 + (p : Int) = 0
  · have hb : Nat.beq (Nat.mul 256 t) (Nat.add 768 p) = true := by
      have : 256 * t = 768 + p := by omega
      show Nat.beq (256 * t) (768 + p) = true
      rw [this]
      exact Nat.beq_refl _
    rw [hb, if_pos h0]
    rfl
  · have hb : Nat.beq (Nat.mul 256 t) (Nat.add 768 p) = false := by
      cases hc : Nat.beq (Nat.mul 256 t) (Nat.add 768 p)
      · rfl
      · have : 256 * t = 768 + p := Nat.eq_of_beq_eq_true hc
        exact absurd (by omega) h0
    have habs : (bif Nat.ble (Nat.mul 256 t) (Nat.add 768 p) then
          Nat.sub (Nat.add 768 p) (Nat.mul 256 t)
        else Nat.sub (Nat.mul 256 t) (Nat.add 768 p))
        = ((3 - (t : Int)) * 256 + (p : Int)).natAbs := by
      rw [cond_ble]
      show (if 256 * t ≤ 768 + p then 768 + p - 256 * t else 256 * t - (768 + p)) = _
      split <;> omega
    rw [hb, if_neg h0, habs]
    show Option.bind _ _ = Option.bind _ _
    congr 1
    funext b
    rw [cond_ble]
    cases b.1 <;> rfl

theorem phaseSumWithin_eq (bsqN bsqD cn cd fuel nb db lo hi p : Nat) :
    phaseSumWithin bsqN bsqD cn cd fuel nb db lo hi p
      = match tapsBoundsNat bsqN bsqD cn cd fuel nb db p 8 with
        | some acc => decide (acc.2.2.2 + lo ≤ acc.1) && decide (acc.2.1 ≤ acc.2.2.1 + hi)
        | none => false := by
  have hble : ∀ x y : Nat, Nat.ble x y = decide (x ≤ y) := by
    intro x y
    by_cases h : x ≤ y
    · rw [decide_eq_true h]
      exact Nat.ble_eq_true_of_le h
    · rw [decide_eq_false h]
      cases hc : Nat.ble x y
      · rfl
      · exact absurd (Nat.le_of_ble_eq_true hc) h
  unfold phaseSumWithin
  split
  · rw [hble, hble]
    rfl
  · rfl


/-! ## The integer run of `Izero` -/

section
variable {α : Type} [LinearOrderedField α]

/-- The integer run of the loop of `Izero` agrees with the loop itself. -/
theorem IzeroFracLoop_sound (y : α) (a b : Nat) (hb : 0 < b) (hy : y * y = (a : α) / b) :
    ∀ (fuel N A D k n d : Nat), 0 < D → IzeroFracLoop a b fuel N A D k = some (n, d) →
      IzeroLoop y fuel ((N : α) / D) ((A : α) / D) (2 * (k : α)) = some ((n : α) / d) ∧ 0 < d := by
  intro fuel
  induction fuel with
  | zero =>
    intro N A D k n d _ h
    simp [IzeroFracLoop] at h
  | succ fuel ih =>
    intro N A D k n d hD h
    rw [IzeroFracLoop_succ] at h
    have hbα : (0 : α) < b := by exact_mod_cast hb
    have hDα : (0 : α) < D := by exact_mod_cast hD
    have hkα : (0 : α) < 2 * (k : α) + 2 := by positivity
    have hD' : 0 < D * (b * ((2 * k + 2) * (2 * k + 2))) := by positivity
    have hD'α : (0 : α) < ((D * (b * ((2 * k + 2) * (2 * k + 2))) : Nat) : α) := by
      exact_mod_cast hD'
    have eds : (A : α) / D * (y * y) / ((2 * (k : α) + 2) * (2 * (k : α) + 2))
        = ((A * a : Nat) : α) / ((D * (b * ((2 * k + 2) * (2 * k + 2))) : Nat) : α) := by
      rw [hy]
      push_cast
      field_simp
      left
      ring
    have es : (N : α) / D
          + ((A * a : Nat) : α) / ((D * (b * ((2 * k + 2) * (2 * k + 2))) : Nat) : α)
        = ((N * (b * ((2 * k + 2) * (2 * k + 2))) + A * a : Nat) : α)
          / ((D * (b * ((2 * k + 2) * (2 * k + 2))) : Nat) : α) := by
      push_cast
      field_simp
      ring
    have ek : 2 * (k : α) + 2 = 2 * ((k + 1 : Nat) : α) := by push_cast; ring
    have hcond : (((A * a : Nat) : α) / ((D * (b * ((2 * k + 2) * (2 * k + 2))) : Nat) : α)
          > 1E-7 * (((N * (b * ((2 * k + 2) * (2 * k + 2))) + A * a : Nat) : α)
            / ((D * (b * ((2 * k + 2) * (2 * k + 2))) : Nat) : α)))
        ↔ N * (b * ((2 * k + 2) * (2 * k + 2))) + A * a < 10000000 * (A * a) := by
      rw [gt_iff_lt, ← mul_div_assoc, div_lt_div_iff_of_pos_right hD'α]
      have e7 : (1E-7 : α) = 1 / 10000000 := by norm_num
      rw [e7, one_div, inv_mul_lt_iff₀ (by norm_num)]
      constructor
      · intro h'
        exact_mod_cast h'
      · intro h'
        exact_mod_cast h'
    simp only [IzeroLoop]
    rw [eds, es]
    split at h
    · rename_i hc
      rw [if_pos (hcond.mpr hc), ek]
      exact ih _ _ _ _ n d hD' h
    · rename_i hc
      rw [if_neg (fun h' => hc (hcond.mp h'))]
      have := Option.some.inj h
      rw [Prod.mk.injEq] at this
      obtain ⟨rfl, rfl⟩ := this
      exact ⟨rfl, hD'⟩

/-- `Izero(y)` for `y * y = a / b`, from the integer run. -/
theorem Izero_of_frac (y : α) (a b : Nat) (hb : 0 < b) (hy : y * y = (a : α) / b)
    (fuel n d : Nat) (h : IzeroFracLoop a b fuel 1 1 1 0 = some (n, d)) (k : Nat) :
    Izero (fuel + k) y = some ((n : α) / d) ∧ 0 < d := by
  obtain ⟨h1, h2⟩ := IzeroFracLoop_sound y a b hb hy fuel 1 1 1 0 n d (by norm_num) h
  refine ⟨Izero_fuel_mono y _ fuel k ?_, h2⟩
  simpa [Izero] using h1

end

/-! ## Enclosures of the real sine -/

theorem exp_I_taylor (x : ℝ) :
    (∑ m ∈ Finset.range 9, ((x : ℂ) * Complex.I) ^ m / (m.factorial : ℂ))
      = ((1 - x ^ 2 / 2 + x ^ 4 / 24 - x ^ 6 / 720 + x ^ 8 / 40320 : ℝ) : ℂ)
        + ((x - x ^ 3 / 6 + x ^ 5 / 120 - x ^ 7 / 5040 : ℝ) : ℂ) * Complex.I := by
  have h2 : Complex.I ^ 2 = -1 := Complex.I_sq
  have h3 : Complex.I ^ 3 = -Complex.I := by rw [pow_succ, h2]; ring
  have h4 : Complex.I ^ 4 = 1 := Complex.I_pow_four
  have h5 : Complex.I ^ 5 = Complex.I := by rw [pow_succ, h4]; ring
  have h6 : Complex.I ^ 6 = -1 := by rw [pow_succ, h5]; exact Complex.I_mul_I
  have h7 : Complex.I ^ 7 = -Complex.I := by rw [pow_succ, h6]; ring
  have h8 : Complex.I ^ 8 = 1 := by rw [pow_succ, h7]; simp
  simp only [Finset.sum_range_succ, Finset.range_zero, Finset.sum_empty, mul_pow, h2, h3, h4, h5,
    h6, h7, h8, Nat.factorial, pow_zero, pow_one]
  push_cast
  ring

/-- The real cosine and sine differ from their series to the eighth and seventh
power by at most `|x|^9 * 10 / (9! * 9)`, for `|x| ≤ 1`. -/
theorem real_sin_cos_taylor (x : ℝ) (hx : |x| ≤ 1) :
    |Real.cos x - (1 - x ^ 2 / 2 + x ^ 4 / 24 - x ^ 6 / 720 + x ^ 8 / 40320)|
        ≤ |x| ^ 9 * (10 / 3265920) ∧
    |Real.sin x - (x - x ^ 3 / 6 + x ^ 5 / 120 - x ^ 7 / 5040)| ≤ |x| ^ 9 * (10 / 3265920) := by
  have hb := Complex.exp_bound (x := (x : ℂ) * Complex.I) (by simpa using hx) (n := 9)
    (by norm_num)
  rw [exp_I_taylor] at hb
  have habs : Complex.abs ((x : ℂ) * Complex.I) = |x| := by simp
  rw [habs] at hb
  have hE : |x| ^ 9 * ((Nat.succ 9 : ℝ) * ((Nat.factorial 9 : ℝ) * (9 : ℕ))⁻¹)
      = |x| ^ 9 * (10 / 3265920) := by
    norm_num [Nat.factorial]
  rw [hE] at hb
  set C : ℝ := 1 - x ^ 2 / 2 + x ^ 4 / 24 - x ^ 6 / 720 + x ^ 8 / 40320 with hC
  set S : ℝ := x - x ^ 3 / 6 + x ^ 5 / 120 - x ^ 7 / 5040 with hS
  have hw : Complex.exp ((x : ℂ) * Complex.I) - ((C : ℂ) + (S : ℂ) * Complex.I)
      = ((Real.cos x - C : ℝ) : ℂ) + ((Real.sin x - S : ℝ) : ℂ) * Complex.I := by
    rw [Complex.exp_mul_I]
    push_cast
    ring
  rw [hw] at hb
  constructor
  · refine le_trans ?_ hb
    have := Complex.abs_re_le_abs
      (((Real.cos x - C : ℝ) : ℂ) + ((Real.sin x - S : ℝ) : ℂ) * Complex.I)
    simpa using this
  · refine le_trans ?_ hb
    have := Complex.abs_im_le_abs
      (((Real.cos x - C : ℝ) : ℂ) + ((Real.sin x - S : ℝ) : ℂ) * Complex.I)
    simpa using this

theorem real_natDiv_bounds (x y : Nat) (hy : 0 < y) :
    ((x / y : Nat) : ℝ) ≤ (x : ℝ) / y ∧ (x : ℝ) / y < ((x / y : Nat) : ℝ) + 1 := by
  have hyr : (0 : ℝ) < y := by exact_mod_cast hy
  refine ⟨Nat.cast_div_le, ?_⟩
  rw [div_lt_iff₀ hyr]
  have h : x < x / y * y + y := Nat.lt_div_mul_add hy
  have hr : (x : ℝ) < ((x / y * y + y : Nat) : ℝ) := by exact_mod_cast h
  push_cast at hr
  linarith

theorem real_natSub_bounds (x y : Nat) :
    (x : ℝ) - y ≤ ((x - y : Nat) : ℝ) ∧ (((x - y : Nat) : ℝ) ≤ 0 ∨ ((x - y : Nat) : ℝ) = x - y) := by
  rcases Nat.le_total y x with h | h
  · rw [Nat.cast_sub h]
    exact ⟨le_refl _, Or.inr rfl⟩
  · rw [Nat.sub_eq_zero_of_le h]
    have : (x : ℝ) ≤ y := by exact_mod_cast h
    exact ⟨by push_cast; linarith, Or.inl (by simp)⟩

theorem real_sin_between (u v z : ℝ) (h0 : 0 ≤ u) (h1 : u ≤ z) (h2 : z ≤ v) (h3 : v ≤ 1) :
    u - v ^ 3 / 6 + u ^ 5 / 120 - v ^ 7 / 5040 - v ^ 9 * (10 / 3265920) ≤ Real.sin z ∧
    Real.sin z ≤ v - u ^ 3 / 6 + v ^ 5 / 120 - u ^ 7 / 5040 + v ^ 9 * (10 / 3265920) := by
  have hz0 : 0 ≤ z := le_trans h0 h1
  have hz : |z| ≤ 1 := by rw [abs_of_nonneg hz0]; linarith
  obtain ⟨-, hs⟩ := real_sin_cos_taylor z hz
  rw [abs_of_nonneg hz0, abs_le] at hs
  have p3l := pow_le_pow_left₀ h0 h1 3
  have p3h := pow_le_pow_left₀ hz0 h2 3
  have p5l := pow_le_pow_left₀ h0 h1 5
  have p5h := pow_le_pow_left₀ hz0 h2 5
  have p7l := pow_le_pow_left₀ h0 h1 7
  have p7h := pow_le_pow_left₀ hz0 h2 7
  have p9h := pow_le_pow_left₀ hz0 h2 9
  constructor <;> linarith

theorem real_cos_between (u v z : ℝ) (h0 : 0 ≤ u) (h1 : u ≤ z) (h2 : z ≤ v) (h3 : v ≤ 1) :
    1 - v ^ 2 / 2 + u ^ 4 / 24 - v ^ 6 / 720 + u ^ 8 / 40320 - v ^ 9 * (10 / 3265920)
      ≤ Real.cos z ∧
    Real.cos z
      ≤ 1 - u ^ 2 / 2 + v ^ 4 / 24 - u ^ 6 / 720 + v ^ 8 / 40320 + v ^ 9 * (10 / 3265920) := by
  have hz0 : 0 ≤ z := le_trans h0 h1
  have hz : |z| ≤ 1 := by rw [abs_of_nonneg hz0]; linarith
  obtain ⟨hc, -⟩ := real_sin_cos_taylor z hz
  rw [abs_of_nonneg hz0, abs_le] at hc
  have p2l := pow_le_pow_left₀ h0 h1 2
  have p2h := pow_le_pow_left₀ hz0 h2 2
  have p4l := pow_le_pow_left₀ h0 h1 4
  have p4h := pow_le_pow_left₀ hz0 h2 4
  have p6l := pow_le_pow_left₀ h0 h1 6
  have p6h := pow_le_pow_left₀ hz0 h2 6
  have p8l := pow_le_pow_left₀ h0 h1 8
  have p8h := pow_le_pow_left₀ hz0 h2 8
  have p9h := pow_le_pow_left₀ hz0 h2 9
  constructor <;> linarith

/-- The bounds of `sinBoundsNat` hold. -/
theorem sinBoundsNat_sound (zl zh M : Nat) (z : ℝ) (hM : 0 < M) (h1 : (zl : ℝ) / M ≤ z)
    (h2 : z ≤ (zh : ℝ) / M) (h3 : zh ≤ M) (hs : 0 ≤ Real.sin z) :
    ((sinBoundsNat zl zh M).1 : ℝ) / ((M ^ 9 * 3265920 : Nat) : ℝ) ≤ Real.sin z ∧
    Real.sin z ≤ ((sinBoundsNat zl zh M).2 : ℝ) / ((M ^ 9 * 3265920 : Nat) : ℝ) := by
  have hMr : (0 : ℝ) < M := by exact_mod_cast hM
  have hD : (0 : ℝ) < ((M ^ 9 * 3265920 : Nat) : ℝ) := by
    have : 0 < M ^ 9 * 3265920 := by positivity
    exact_mod_cast this
  have h3r : (zh : ℝ) / M ≤ 1 := by
    rw [div_le_one hMr]
    exact_mod_cast h3
  obtain ⟨bl, bh⟩ := real_sin_between ((zl : ℝ) / M) ((zh : ℝ) / M) z (by positivity) h1 h2 h3r
  simp only [sinBoundsNat_eq]
  constructor
  · obtain ⟨-, hsub⟩ := real_natSub_bounds (zl * M ^ 8 * 3265920 + zl ^ 5 * M ^ 4 * 27216)
      (zh ^ 3 * M ^ 6 * 544320 + zh ^ 7 * M ^ 2 * 648 + zh ^ 9 * 10)
    rcases hsub with h | h
    · exact le_trans (div_nonpos_of_nonpos_of_nonneg h (le_of_lt hD)) hs
    · rw [h]
      refine le_trans (le_of_eq ?_) bl
      push_cast
      field_simp
      ring
  · obtain ⟨hsub, -⟩ := real_natSub_bounds
      (zh * M ^ 8 * 3265920 + zh ^ 5 * M ^ 4 * 27216 + zh ^ 9 * 10)
      (zl ^ 3 * M ^ 6 * 544320 + zl ^ 7 * M ^ 2 * 648)
    refine le_trans bh (le_trans (le_of_eq ?_) (div_le_div_of_nonneg_right hsub (le_of_lt hD)))
    push_cast
    field_simp
    ring

/-- The bounds of `cosBoundsNat` hold. -/
theorem cosBoundsNat_sound (zl zh M : Nat) (z : ℝ) (hM : 0 < M) (h1 : (zl : ℝ) / M ≤ z)
    (h2 : z ≤ (zh : ℝ) / M) (h3 : zh ≤ M) (hs : 0 ≤ Real.cos z) :
    ((cosBoundsNat zl zh M).1 : ℝ) / ((M ^ 9 * 3265920 : Nat) : ℝ) ≤ Real.cos z ∧
    Real.cos z ≤ ((cosBoundsNat zl zh M).2 : ℝ) / ((M ^ 9 * 3265920 : Nat) : ℝ) := by
  have hMr : (0 : ℝ) < M := by exact_mod_cast hM
  have hD : (0 : ℝ) < ((M ^ 9 * 3265920 : Nat) : ℝ) := by
    have : 0 < M ^ 9 * 3265920 := by positivity
    exact_mod_cast this
  have h3r : (zh : ℝ) / M ≤ 1 := by
    rw [div_le_one hMr]
    exact_mod_cast h3
  obtain ⟨bl, bh⟩ := real_cos_between ((zl : ℝ) / M) ((zh : ℝ) / M) z (by positivity) h1 h2 h3r
  simp only [cosBoundsNat_eq]
  constructor
  · obtain ⟨-, hsub⟩ := real_natSub_bounds
      (M ^ 9 * 3265920 + zl ^ 4 * M ^ 5 * 136080 + zl ^ 8 * M * 81)
      (zh ^ 2 * M ^ 7 * 1632960 + zh ^ 6 * M ^ 3 * 4536 + zh ^ 9 * 10)
    rcases hsub with h | h
    · exact le_trans (div_nonpos_of_nonpos_of_nonneg h (le_of_lt hD)) hs
    · rw [h]
      refine le_trans (le_of_eq ?_) bl
      push_cast
      field_simp
      ring
  · obtain ⟨hsub, -⟩ := real_natSub_bounds
      (M ^ 9 * 3265920 + zh ^ 4 * M ^ 5 * 136080 + zh ^ 8 * M * 81 + zh ^ 9 * 10)
      (zl ^ 2 * M ^ 7 * 1632960 + zl ^ 6 * M ^ 3 * 4536)
    refine le_trans bh (le_trans (le_of_eq ?_) (div_le_div_of_nonneg_right hsub (le_of_lt hD)))
    push_cast
    field_simp
    ring

/-- The bounds of `sinPiBoundsNat` hold: for `2 r ≤ m` the sine of `π r / m` is
not negative and lies between `AL / AD` and `AU / AD`. -/
theorem sinPiBoundsNat_sound (r m : Nat) (hm : 0 < m) (hr : 2 * r ≤ m) :
    0 < (sinPiBoundsNat r m).2.2 ∧ 0 ≤ Real.sin (Real.pi * ((r : ℝ) / m)) ∧
    ((sinPiBoundsNat r m).1 : ℝ) / ((sinPiBoundsNat r m).2.2 : ℝ)
      ≤ Real.sin (Real.pi * ((r : ℝ) / m)) ∧
    Real.sin (Real.pi * ((r : ℝ) / m))
      ≤ ((sinPiBoundsNat r m).2.1 : ℝ) / ((sinPiBoundsNat r m).2.2 : ℝ) := by
  have hmr : (0 : ℝ) < m := by exact_mod_cast hm
  have hpi := Real.pi_pos
  have pl := Real.pi_gt_d6
  have ph := Real.pi_lt_d6
  have hg0 : (0 : ℝ) ≤ (r : ℝ) / m := by positivity
  have hg1 : (r : ℝ) / m ≤ 1 / 2 := by
    rw [div_le_iff₀ hmr]
    have : ((2 * r : Nat) : ℝ) ≤ m := by exact_mod_cast hr
    push_cast at this
    linarith
  have hsin : 0 ≤ Real.sin (Real.pi * ((r : ℝ) / m)) := by
    apply Real.sin_nonneg_of_nonneg_of_le_pi (by positivity)
    nlinarith
  rw [sinPiBoundsNat_eq]
  split
  · rename_i h4
    refine ⟨by positivity, hsin, ?_⟩
    refine sinBoundsNat_sound _ _ _ _ (by positivity) ?_ ?_ (by omega) hsin
    · have : ((3141592 * r : Nat) : ℝ) / ((1000000 * m : Nat) : ℝ)
          = 3.141592 * ((r : ℝ) / m) := by
        push_cast
        field_simp
        ring
      rw [this]
      exact mul_le_mul_of_nonneg_right (le_of_lt pl) hg0
    · have : ((3141593 * r : Nat) : ℝ) / ((1000000 * m : Nat) : ℝ)
          = 3.141593 * ((r : ℝ) / m) := by
        push_cast
        field_simp
        ring
      rw [this]
      exact mul_le_mul_of_nonneg_right (le_of_lt ph) hg0
  · rename_i h4
    have harg : Real.pi * ((r : ℝ) / m)
        = Real.pi / 2 - Real.pi * (((m - 2 * r : Nat) : ℝ) / (2 * m)) := by
      rw [Nat.cast_sub hr]
      push_cast
      field_simp
      ring
    have hh0 : (0 : ℝ) ≤ ((m - 2 * r : Nat) : ℝ) / (2 * m) := by positivity
    have hcos : 0 ≤ Real.cos (Real.pi * (((m - 2 * r : Nat) : ℝ) / (2 * m))) := by
      rw [← Real.sin_pi_div_two_sub, ← harg]
      exact hsin
    rw [harg, Real.sin_pi_div_two_sub]
    refine ⟨by positivity, hcos, ?_⟩
    refine cosBoundsNat_sound _ _ _ _ (by positivity) ?_ ?_ (by omega) hcos
    · have : ((3141592 * (m - 2 * r) : Nat) : ℝ) / ((2000000 * m : Nat) : ℝ)
          = 3.141592 * (((m - 2 * r : Nat) : ℝ) / (2 * m)) := by
        push_cast
        field_simp
        ring
      rw [this]
      exact mul_le_mul_of_nonneg_right (le_of_lt pl) hh0
    · have : ((3141593 * (m - 2 * r) : Nat) : ℝ) / ((2000000 * m : Nat) : ℝ)
          = 3.141593 * (((m - 2 * r : Nat) : ℝ) / (2 * m)) := by
        push_cast
        field_simp
        ring
      rw [this]
      exact mul_le_mul_of_nonneg_right (le_of_lt ph) hh0

/-- Reduction of `sin (π n / m)` by whole turns of π and reflection into
`[0, π/2]`. -/
theorem real_sin_pi_reduce (n m : Nat) (hm : 0 < m) :
    2 * (if 2 * (n % m) ≤ m then n % m else m - n % m) ≤ m ∧
    Real.sin (Real.pi * ((n : ℝ) / m))
      = (-1) ^ (n / m)
        * Real.sin (Real.pi * (((if 2 * (n % m) ≤ m then n % m else m - n % m : Nat) : ℝ) / m)) := by
  have hmr : (0 : ℝ) < m := by exact_mod_cast hm
  have hmne : (m : ℝ) ≠ 0 := ne_of_gt hmr
  have hr : n % m < m := Nat.mod_lt _ hm
  have e1 : Real.sin (Real.pi * ((n : ℝ) / m))
      = (-1) ^ (n / m) * Real.sin (Real.pi * (((n % m : Nat) : ℝ) / m)) := by
    have hn : (n : ℝ) = ((m * (n / m) + n % m : Nat) : ℝ) := by rw [Nat.div_add_mod]
    have : Real.pi * ((n : ℝ) / m)
        = Real.pi * (((n % m : Nat) : ℝ) / m) + ((n / m : Nat) : ℝ) * Real.pi := by
      rw [hn]
      push_cast
      field_simp
      ring
    rw [this, Real.sin_add_nat_mul_pi]
  have e2 : Real.sin (Real.pi * (((n % m : Nat) : ℝ) / m))
      = Real.sin (Real.pi * (((if 2 * (n % m) ≤ m then n % m else m - n % m : Nat) : ℝ) / m)) := by
    split
    · rfl
    · rw [Nat.cast_sub (le_of_lt hr)]
      have : Real.pi * (((m : ℝ) - ((n % m : Nat) : ℝ)) / m)
          = Real.pi - Real.pi * (((n % m : Nat) : ℝ) / m) := by
        field_simp
        ring
      rw [this, Real.sin_pi_sub]
  refine ⟨?_, by rw [e1, e2]⟩
  split <;> omega

/-! ## Bounds of the coefficients of `getsinc` -/

/-- The coefficient off the centre, at `x = k / 256`, in terms of the magnitude
of `k`: `sin(π cutoff |x|) * (256 * Izero(beta * sqrt(1 - x*x/16)) / (|k| * izb)) / π`,
the value of `Izero` being the one the integer run returns. -/
theorem getsincCoeffAt_tap_formula (bsqN bsqD cn cd fuel : Nat) (izb : ℝ) (k : Int)
    (beta cutoff : ℝ) (hbD : 0 < bsqD) (hcd : 0 < cd) (hcn : 0 < cn)
    (hbeta : beta * beta = (bsqN : ℝ) / bsqD) (hcut : cutoff = (cn : ℝ) / cd)
    (hclamp : cutoff < 0.999) (hizb : 0 < izb) (hk0 : k ≠ 0) (hk : k.natAbs ≤ 1024)
    (n d : Nat)
    (hnd : IzeroFracLoop (bsqN * (1048576 - k.natAbs * k.natAbs)) (bsqD * 1048576) fuel 1 1 1 0
      = some (n, d)) (j : Nat) (c : ℝ)
    (hI : Izero (fuel + j) beta = some izb)
    (hc : getsincCoeffAt (CMath.mk Real.sin Real.sqrt Real.arctan) 256 (fuel + j) beta cutoff
      (k + 1024) = some c) :
    0 < d ∧
    c = Real.sin (Real.pi * (((cn * k.natAbs : Nat) : ℝ) / ((cd * 256 : Nat) : ℝ)))
      * (256 * ((n : ℝ) / d) / ((k.natAbs : ℝ) * izb)) / Real.pi := by
  have hpi := Real.pi_pos
  have hne : k + 1024 ≠ 4 * ((256 : Nat) : Int) := by
    intro h
    apply hk0
    push_cast at h
    omega
  obtain ⟨izb', iz, e1, e2, e3⟩ := getsincCoeffAt_cases _ 256 _ beta cutoff c (k + 1024) hne hc
  rw [hI] at e1
  have := Option.some.inj e1
  subst this
  have hx : (getsincX 256 (k + 1024) : ℝ) = (k : ℝ) / 256 := by
    simp only [getsincX]
    push_cast
    ring
  rw [hx] at e2 e3
  -- the magnitude of k
  have hkcases : (k : ℝ) = (k.natAbs : ℝ) ∨ (k : ℝ) = -(k.natAbs : ℝ) := by
    rcases Int.natAbs_eq k with h | h
    · exact Or.inl ((congrArg (Int.cast : ℤ → ℝ) h).trans (Int.cast_natCast _))
    · exact Or.inr ((congrArg (Int.cast : ℤ → ℝ) h).trans
        (by rw [Int.cast_neg, Int.cast_natCast]))
  have ha2 : ((k.natAbs : Nat) : ℝ) * (k.natAbs : ℝ) = (k : ℝ) * k := by
    rcases hkcases with h | h <;> rw [h]
    ring
  have hapos : (0 : ℝ) < (k.natAbs : ℝ) := by
    have : 0 < k.natAbs := Int.natAbs_pos.mpr hk0
    exact_mod_cast this
  have hale : k.natAbs * k.natAbs ≤ 1048576 := by
    calc k.natAbs * k.natAbs ≤ 1024 * 1024 := Nat.mul_le_mul hk hk
      _ = 1048576 := by norm_num
  have haler : ((k.natAbs : Nat) : ℝ) * (k.natAbs : ℝ) ≤ 1048576 := by exact_mod_cast hale
  -- the window value
  have hrad : (0 : ℝ) ≤ 1 - (k : ℝ) / 256 * ((k : ℝ) / 256) * (1 / 16) := by
    have : (k : ℝ) / 256 * ((k : ℝ) / 256) * (1 / 16) = (k : ℝ) * k / 1048576 := by ring
    rw [this, ← ha2]
    have := div_le_one_of_le₀ haler (by norm_num : (0 : ℝ) ≤ 1048576)
    linarith
  have hbDr : (0 : ℝ) < bsqD := by exact_mod_cast hbD
  have hy : (beta * Real.sqrt (1 - (k : ℝ) / 256 * ((k : ℝ) / 256) * (1 / 16)))
        * (beta * Real.sqrt (1 - (k : ℝ) / 256 * ((k : ℝ) / 256) * (1 / 16)))
      = ((bsqN * (1048576 - k.natAbs * k.natAbs) : Nat) : ℝ) / ((bsqD * 1048576 : Nat) : ℝ) := by
    rw [mul_mul_mul_comm, Real.mul_self_sqrt hrad, hbeta]
    rw [Nat.cast_mul, Nat.cast_sub hale]
    push_cast
    rw [ha2]
    field_simp
    ring
  obtain ⟨hiz, hd⟩ := Izero_of_frac _ _ _ (by positivity) hy fuel n d hnd j
  rw [hiz] at e2
  have := Option.some.inj e2
  subst this
  have hdr : (0 : ℝ) < (d : ℝ) := by exact_mod_cast hd
  have hcn0 : cutoff ≠ 0 := by
    rw [hcut]
    have h1 : (0 : ℝ) < cn := by exact_mod_cast hcn
    have h2 : (0 : ℝ) < cd := by exact_mod_cast hcd
    positivity
  have hcdr : (0 : ℝ) < cd := by exact_mod_cast hcd
  have hkne : (k : ℝ) ≠ 0 := by exact_mod_cast hk0
  have hS : Real.sin ((k : ℝ) / 256 * (4 * Real.arctan 1 * cutoff)) / ((k : ℝ) / 256)
      = Real.sin (Real.pi * (((cn * k.natAbs : Nat) : ℝ) / ((cd * 256 : Nat) : ℝ)))
        / ((k.natAbs : ℝ) / 256) := by
    rw [Real.arctan_one]
    rcases hkcases with hkr | hkr
    · rw [hkr, hcut]
      congr 2
      push_cast
      field_simp
      ring
    · have harg : -((k.natAbs : ℝ)) / 256 * (4 * (Real.pi / 4) * ((cn : ℝ) / cd))
          = -(Real.pi * (((cn * k.natAbs : Nat) : ℝ) / ((cd * 256 : Nat) : ℝ))) := by
        push_cast
        field_simp
        ring
      have hden : -((k.natAbs : ℝ)) / 256 = -((k.natAbs : ℝ) / 256) := by ring
      rw [hkr, hcut, harg, Real.sin_neg, hden, neg_div_neg_eq]
  refine ⟨hd, ?_⟩
  rw [e3, getsincCutoff_of_lt _ hclamp]
  have : Real.sin ((k : ℝ) / 256 * (4 * Real.arctan 1 * cutoff)) * ((n : ℝ) / d)
        / (izb * ((k : ℝ) / 256 * (4 * Real.arctan 1 * cutoff))) * cutoff
      = Real.sin ((k : ℝ) / 256 * (4 * Real.arctan 1 * cutoff)) / ((k : ℝ) / 256)
        * ((n : ℝ) / d) / izb / Real.pi := by
    rw [Real.arctan_one]
    field_simp
    ring
  rw [this, hS]
  field_simp
  ring

/-- The coefficient off the centre, at `x = k / 256`, has the sign and the
magnitude bounds of `tapBoundsNat`. -/
theorem tapBoundsNat_sound (bsqN bsqD cn cd fuel nb db : Nat) (k : Int) (beta cutoff : ℝ)
    (hbD : 0 < bsqD) (hcd : 0 < cd) (hcn : 0 < cn) (hbeta : beta * beta = (bsqN : ℝ) / bsqD)
    (hcut : cutoff = (cn : ℝ) / cd) (hclamp : cutoff < 0.999) (hnb : 0 < nb) (hdb : 0 < db)
    (hk0 : k ≠ 0) (hk : k.natAbs ≤ 1024) (b : Bool × Nat × Nat)
    (hb : tapBoundsNat bsqN bsqD cn cd fuel nb db k.natAbs = some b) (j : Nat) (c : ℝ)
    (hI : Izero (fuel + j) beta = some ((nb : ℝ) / db))
    (hc : getsincCoeffAt (CMath.mk Real.sin Real.sqrt Real.arctan) 256 (fuel + j) beta cutoff
      (k + 1024) = some c) :
    ∃ G : ℝ, c = (if b.1 then -G else G) ∧ (b.2.1 : ℝ) ≤ G * gainScale ∧
      G * gainScale ≤ (b.2.2 : ℝ) := by
  have hpi := Real.pi_pos
  have pl := Real.pi_gt_d6
  have ph := Real.pi_lt_d6
  have hnbr : (0 : ℝ) < nb := by exact_mod_cast hnb
  have hdbr : (0 : ℝ) < db := by exact_mod_cast hdb
  have ha : 0 < k.natAbs := Int.natAbs_pos.mpr hk0
  have har : (0 : ℝ) < (k.natAbs : ℝ) := by exact_mod_cast ha
  simp only [tapBoundsNat_eq, Option.map_eq_some'] at hb
  obtain ⟨⟨n, d⟩, hnd, rfl⟩ := hb
  obtain ⟨hd, hcoef⟩ := getsincCoeffAt_tap_formula bsqN bsqD cn cd fuel ((nb : ℝ) / db) k beta
    cutoff hbD hcd hcn hbeta hcut hclamp (by positivity) hk0 hk n d hnd j c hI hc
  have hdr : (0 : ℝ) < (d : ℝ) := by exact_mod_cast hd
  have hn0 : (0 : ℝ) ≤ (n : ℝ) := Nat.cast_nonneg n
  obtain ⟨hr', hred⟩ := real_sin_pi_reduce (cn * k.natAbs) (cd * 256) (by positivity)
  generalize (if 2 * (cn * k.natAbs % (cd * 256)) ≤ cd * 256 then cn * k.natAbs % (cd * 256)
    else cd * 256 - cn * k.natAbs % (cd * 256)) = r' at hr' hred ⊢
  obtain ⟨hAD, hA0, hAL, hAU⟩ := sinPiBoundsNat_sound r' (cd * 256) (by positivity) hr'
  generalize sinPiBoundsNat r' (cd * 256) = s at hAD hAL hAU ⊢
  obtain ⟨AL, AU, AD⟩ := s
  simp only at hAD hAL hAU ⊢
  have hADr : (0 : ℝ) < (AD : ℝ) := by exact_mod_cast hAD
  generalize Real.sin (Real.pi * ((r' : ℝ) / ((cd * 256 : Nat) : ℝ))) = A at hred hA0 hAL hAU
  -- the magnitude
  have hR : (0 : ℝ) ≤ 256 * ((n : ℝ) / d) / ((k.natAbs : ℝ) * ((nb : ℝ) / db)) := by positivity
  have hG0 : 0 ≤ A * (256 * ((n : ℝ) / d) / ((k.natAbs : ℝ) * ((nb : ℝ) / db))) / Real.pi := by
    positivity
  refine ⟨A * (256 * ((n : ℝ) / d) / ((k.natAbs : ℝ) * ((nb : ℝ) / db))) / Real.pi, ?_, ?_, ?_⟩
  · rw [hcoef, hred]
    by_cases hq : cn * k.natAbs / (cd * 256) % 2 = 1
    · rw [Odd.neg_one_pow (Nat.odd_iff.mpr hq)]
      simp only [hq, decide_True, if_true]
      ring
    · rw [Even.neg_one_pow (Nat.even_iff.mpr (by omega))]
      simp only [hq, decide_False, Bool.false_eq_true, if_false]
      ring
  · have hden : 0 < AD * d * k.natAbs * nb * 3141593 := by positivity
    refine le_trans (real_natDiv_bounds _ _ hden).1 ?_
    have e : ((AL * (256 * n * db * 1000000 * gainScale) : Nat) : ℝ)
          / ((AD * d * k.natAbs * nb * 3141593 : Nat) : ℝ)
        = (AL : ℝ) / AD * (256 * ((n : ℝ) / d) / ((k.natAbs : ℝ) * ((nb : ℝ) / db)))
          * (1000000 / 3141593) * gainScale := by
      push_cast
      field_simp
      ring
    rw [e]
    have h1 : (AL : ℝ) / AD * (256 * ((n : ℝ) / d) / ((k.natAbs : ℝ) * ((nb : ℝ) / db)))
        ≤ A * (256 * ((n : ℝ) / d) / ((k.natAbs : ℝ) * ((nb : ℝ) / db))) :=
      mul_le_mul_of_nonneg_right hAL hR
    have h2 : (1000000 / 3141593 : ℝ) ≤ 1 / Real.pi := by
      rw [div_le_div_iff (by norm_num) hpi]
      linarith
    have h3 : (AL : ℝ) / AD * (256 * ((n : ℝ) / d) / ((k.natAbs : ℝ) * ((nb : ℝ) / db)))
          * (1000000 / 3141593)
        ≤ A * (256 * ((n : ℝ) / d) / ((k.natAbs : ℝ) * ((nb : ℝ) / db))) * (1 / Real.pi) := by
      refine le_trans (mul_le_mul_of_nonneg_right h1 (by norm_num)) ?_
      exact mul_le_mul_of_nonneg_left h2 (mul_nonneg hA0 hR)
    have hs : (0 : ℝ) ≤ (gainScale : ℝ) := Nat.cast_nonneg _
    calc (AL : ℝ) / AD * (256 * ((n : ℝ) / d) / ((k.natAbs : ℝ) * ((nb : ℝ) / db)))
          * (1000000 / 3141593) * gainScale
        ≤ A * (256 * ((n : ℝ) / d) / ((k.natAbs : ℝ) * ((nb : ℝ) / db))) * (1 / Real.pi)
          * gainScale := mul_le_mul_of_nonneg_right h3 hs
      _ = A * (256 * ((n : ℝ) / d) / ((k.natAbs : ℝ) * ((nb : ℝ) / db))) / Real.pi
          * gainScale := by ring
  · have hden : 0 < AD * d * k.natAbs * nb * 3141592 := by positivity
    have hlt := (real_natDiv_bounds (AU * (256 * n * db * 1000000 * gainScale))
      (AD * d * k.natAbs * nb * 3141592) hden).2
    have e : ((AU * (256 * n * db * 1000000 * gainScale) : Nat) : ℝ)
          / ((AD * d * k.natAbs * nb * 3141592 : Nat) : ℝ)
        = (AU : ℝ) / AD * (256 * ((n : ℝ) / d) / ((k.natAbs : ℝ) * ((nb : ℝ) / db)))
          * (1000000 / 3141592) * gainScale := by
      push_cast
      field_simp
      ring
    rw [e] at hlt
    have hAU0 : (0 : ℝ) ≤ (AU : ℝ) / AD := le_trans hA0 hAU
    have h1 : A * (256 * ((n : ℝ) / d) / ((k.natAbs : ℝ) * ((nb : ℝ) / db)))
        ≤ (AU : ℝ) / AD * (256 * ((n : ℝ) / d) / ((k.natAbs : ℝ) * ((nb : ℝ) / db))) :=
      mul_le_mul_of_nonneg_right hAU hR
    have h2 : 1 / Real.pi ≤ (1000000 / 3141592 : ℝ) := by
      rw [div_le_div_iff hpi (by norm_num)]
      linarith
    have h3 : A * (256 * ((n : ℝ) / d) / ((k.natAbs : ℝ) * ((nb : ℝ) / db))) * (1 / Real.pi)
        ≤ (AU : ℝ) / AD * (256 * ((n : ℝ) / d) / ((k.natAbs : ℝ) * ((nb : ℝ) / db)))
          * (1000000 / 3141592) := by
      refine le_trans (mul_le_mul_of_nonneg_right h1 (by positivity)) ?_
      exact mul_le_mul_of_nonneg_left h2 (mul_nonneg hAU0 hR)
    have hs : (0 : ℝ) ≤ (gainScale : ℝ) := Nat.cast_nonneg _
    have h4 : A * (256 * ((n : ℝ) / d) / ((k.natAbs : ℝ) * ((nb : ℝ) / db))) / Real.pi
          * gainScale
        ≤ (AU : ℝ) / AD * (256 * ((n : ℝ) / d) / ((k.natAbs : ℝ) * ((nb : ℝ) / db)))
          * (1000000 / 3141592) * gainScale := by
      have := mul_le_mul_of_nonneg_right h3 hs
      calc A * (256 * ((n : ℝ) / d) / ((k.natAbs : ℝ) * ((nb : ℝ) / db))) / Real.pi * gainScale
          = A * (256 * ((n : ℝ) / d) / ((k.natAbs : ℝ) * ((nb : ℝ) / db))) * (1 / Real.pi)
            * gainScale := by ring
        _ ≤ _ := this
    push_cast
    linarith

/-- The kernel offset of tap `t` of phase `p`, with 256 phases. -/
theorem getsincIx_phase_tap (p t : Nat) (ht : t < 8) :
    getsincIx 256 (8 * p + t) = ((3 - (t : Int)) * 256 + (p : Int)) + 1024 := by
  rw [getsincIx_eq]
  have e1 : (8 * p + t) % 8 = t := by omega
  have e2 : (8 * p + t) / 8 = p := by omega
  rw [e1, e2]
  push_cast
  ring

theorem natAbs_phase_tap (p t : Nat) (hp : p < 256) (ht : t < 8) :
    ((3 - (t : Int)) * 256 + (p : Int)).natAbs ≤ 1024 := by
  omega

theorem gainScale_cast : ((gainScale : Nat) : ℝ) = 1000000000000000 := by
  simp [gainScale]

/-- The sum of the first `T` taps of a phase lies within the bounds of
`tapsBoundsNat`, and each of these coefficients has magnitude at most 0.999. -/
theorem tapsBoundsNat_sound (bsqN bsqD cn cd fuel nb db : Nat) (beta cutoff : ℝ)
    (hbD : 0 < bsqD) (hcd : 0 < cd) (hcn : 0 < cn) (hbeta : beta * beta = (bsqN : ℝ) / bsqD)
    (hcut : cutoff = (cn : ℝ) / cd) (hclamp : cutoff < 0.999) (hnb : 0 < nb) (hdb : 0 < db)
    (p : Nat) (hp : p < 256) (j : Nat) (c : Nat → ℝ)
    (hI : Izero (fuel + j) beta = some ((nb : ℝ) / db)) :
    ∀ T, T ≤ 8 →
      (∀ t, t < T → getsincCoeffAt (CMath.mk Real.sin Real.sqrt Real.arctan) 256 (fuel + j) beta
        cutoff (getsincIx 256 (8 * p + t)) = some (c t)) →
      ∀ acc, tapsBoundsNat bsqN bsqD cn cd fuel nb db p T = some acc →
        ((acc.1 : ℝ) - acc.2.2.2 ≤ (∑ t ∈ Finset.range T, c t) * gainScale ∧
          (∑ t ∈ Finset.range T, c t) * gainScale ≤ (acc.2.1 : ℝ) - acc.2.2.1) ∧
        ∀ t, t < T → |c t| ≤ 0.999 := by
  have hS := gainScale_cast
  have hcdr : (0 : ℝ) < cd := by exact_mod_cast hcd
  have hcnr : (0 : ℝ) < cn := by exact_mod_cast hcn
  have hcut0 : 0 < cutoff := by rw [hcut]; positivity
  intro T
  induction T with
  | zero =>
    intro _ _ acc he
    simp only [tapsBoundsNat] at he
    have := Option.some.inj he
    subst this
    simp
  | succ T ih =>
    intro hT hc acc he
    simp only [tapsBoundsNat_succ, Option.bind_eq_some] at he
    obtain ⟨acc0, hacc0, hrest⟩ := he
    obtain ⟨⟨hl, hh⟩, habs⟩ := ih (by omega) (fun t ht => hc t (by omega)) acc0 hacc0
    have hcT := hc T (by omega)
    rw [getsincIx_phase_tap p T (by omega)] at hcT
    have hlast : ∀ v : ℝ, |v| ≤ 0.999 → c T = v → ∀ t, t < T + 1 → |c t| ≤ 0.999 := by
      intro v hv hcv t ht
      rcases Nat.lt_succ_iff_lt_or_eq.mp ht with h | h
      · exact habs t h
      · rw [h, hcv]
        exact hv
    rw [Finset.sum_range_succ, add_mul]
    split at hrest
    · rename_i h0
      have := Option.some.inj hrest
      subst this
      rw [h0] at hcT
      have hI' := getsincCoeffAt_centre (CMath.mk Real.sin Real.sqrt Real.arctan) 256 (fuel + j)
        beta cutoff _ hI
      rw [show (0 : Int) + 1024 = 4 * ((256 : Nat) : Int) by norm_num, hI',
        getsincCutoff_of_lt _ hclamp] at hcT
      have hcv : c T = cutoff := (Option.some.inj hcT).symm
      obtain ⟨d1, d2⟩ := real_natDiv_bounds (cn * gainScale) cd hcd
      have e : ((cn * gainScale : Nat) : ℝ) / cd = cutoff * gainScale := by
        rw [hcut]
        push_cast
        ring
      rw [e] at d1 d2
      refine ⟨?_, hlast cutoff (by rw [abs_of_pos hcut0]; exact le_of_lt hclamp) hcv⟩
      rw [hcv]
      push_cast
      constructor <;> linarith
    · rename_i h0
      simp only [Option.bind_eq_some] at hrest
      obtain ⟨b, hb, hif⟩ := hrest
      obtain ⟨G, hcG, g1, g2⟩ := tapBoundsNat_sound bsqN bsqD cn cd fuel nb db _ beta cutoff hbD
        hcd hcn hbeta hcut hclamp hnb hdb h0 (natAbs_phase_tap p T hp (by omega)) b hb j (c T) hI
        hcT
      have hb0 : (0 : ℝ) ≤ (b.2.1 : ℝ) := Nat.cast_nonneg _
      have hG0 : 0 ≤ G := by
        rw [hS] at g1
        nlinarith
      split at hif
      · rename_i hmag
        have hmagr : (b.2.2 : ℝ) ≤ 999000000000000 := by exact_mod_cast hmag
        have hG1 : G ≤ 0.999 := by
          rw [hS] at g2
          nlinarith
        split at hif
        · rename_i hneg
          have := Option.some.inj hif
          subst this
          rw [hneg, if_pos rfl] at hcG
          refine ⟨?_, hlast (-G) (by rw [abs_neg, abs_of_nonneg hG0]; exact hG1) hcG⟩
          rw [hcG]
          push_cast
          constructor <;> linarith
        · rename_i hneg
          have := Option.some.inj hif
          subst this
          rw [if_neg hneg] at hcG
          refine ⟨?_, hlast G (by rw [abs_of_nonneg hG0]; exact hG1) hcG⟩
          rw [hcG]
          push_cast
          constructor <;> linarith
      · exact Option.noConfusion hif

/-- The value stored by the saturating round differs from the scaled
coefficient by at most one half. -/
theorem saturate_round_error (lo hi : Int) (Q : Nat) (v : ℝ) (hQ : 9 ≤ Q)
    (hv : |v| ≤ 0.999 * 2 ^ Q) (hlo : lo ≤ -(2 : Int) ^ Q) (hhi : (2 : Int) ^ Q - 1 ≤ hi) :
    |((saturate_round lo hi v : Int) : ℝ) - v| ≤ 1 / 2 := by
  rw [(saturate_round_in_range lo hi Q v hQ hv hlo hhi).1]
  split
  · have h1 := Int.floor_le (v + 1 / 2)
    have h2 := Int.lt_floor_add_one (v + 1 / 2)
    rw [abs_le]
    constructor <;> linarith
  · have h1 := Int.le_ceil (v - 1 / 2)
    have h2 := Int.ceil_lt_add_one (v - 1 / 2)
    rw [abs_le]
    constructor <;> linarith

/-- When `tableSumsWithin` holds, `getsinc` returns a table in which, for each
of the first `phases` phases, the eight coefficients have magnitude at most
0.999 and sum to a value within `[lo, hi] / gainScale`. -/
theorem getsinc_phase_sums (bsqN bsqD cn cd fuel lo hi phases : Nat) (beta cutoff : ℝ)
    (hbD : 0 < bsqD) (hcd : 0 < cd) (hcn : 0 < cn) (hbeta : beta * beta = (bsqN : ℝ) / bsqD)
    (hcut : cutoff = (cn : ℝ) / cd) (hclamp : cutoff < 0.999) (hph : phases ≤ 256)
    (hcheck : tableSumsWithin bsqN bsqD cn cd fuel lo hi phases = true) (cfg : BuildConfig)
    (psinc : Nat → SINC_TYPE ℝ) :
    ∃ fuel' tbl,
      getsinc (CMath.mk Real.sin Real.sqrt Real.arctan) cfg header16 fuel' psinc beta cutoff
        = some tbl ∧
      ∀ p, p < phases → ∃ c : Nat → ℝ,
        (∀ t, t < 8 → tbl (8 * p + t) = getsincStore cfg header16 (c t) ∧ |c t| ≤ 0.999) ∧
        (lo : ℝ) / gainScale ≤ ∑ t ∈ Finset.range 8, c t ∧
        ∑ t ∈ Finset.range 8, c t ≤ (hi : ℝ) / gainScale := by
  have hS := gainScale_cast
  have hSpos : (0 : ℝ) < (gainScale : ℝ) := by rw [hS]; norm_num
  unfold tableSumsWithin at hcheck
  split at hcheck
  · rename_i nd hnd
    obtain ⟨n, d⟩ := nd
    obtain ⟨N, hN⟩ := getsinc_terminates (CMath.mk Real.sin Real.sqrt Real.arctan) cfg header16
      psinc beta cutoff
    obtain ⟨tbl, htbl⟩ := hN fuel
    rw [Nat.add_comm] at htbl
    obtain ⟨hI, hd⟩ := Izero_of_frac beta bsqN bsqD hbD hbeta fuel n d hnd N
    have hone := Izero_one_le _ _ _ hI
    have hdr : (0 : ℝ) < (d : ℝ) := by exact_mod_cast hd
    have hn : 0 < n := by
      rcases Nat.eq_zero_or_pos n with h | h
      · rw [h] at hone
        norm_num at hone
      · exact h
    refine ⟨fuel + N, tbl, htbl, fun p hp => ?_⟩
    rw [List.all_eq_true] at hcheck
    have hphase := hcheck p (List.mem_range.mpr hp)
    rw [phaseSumWithin_eq] at hphase
    split at hphase
    · rename_i acc he
      rw [Bool.and_eq_true, decide_eq_true_eq, decide_eq_true_eq] at hphase
      obtain ⟨b1, b2⟩ := hphase
      have hpos : ∀ t, t < 8 → ∃ c : ℝ,
          getsincCoeffAt (CMath.mk Real.sin Real.sqrt Real.arctan) 256 (fuel + N) beta cutoff
            (getsincIx 256 (8 * p + t)) = some c ∧
          tbl (8 * p + t) = getsincStore cfg header16 c := by
        intro t ht
        exact (getsinc_spec _ cfg header16 (fuel + N) psinc tbl beta cutoff htbl
          (8 * p + t)).1 (by
            have : header16.SINC_PHASES = 256 := rfl
            rw [this]; omega)
      let c : Nat → ℝ := fun t =>
        (getsincCoeffAt (CMath.mk Real.sin Real.sqrt Real.arctan) 256 (fuel + N) beta cutoff
          (getsincIx 256 (8 * p + t))).getD 0
      have hc : ∀ t, t < 8 →
          getsincCoeffAt (CMath.mk Real.sin Real.sqrt Real.arctan) 256 (fuel + N) beta cutoff
            (getsincIx 256 (8 * p + t)) = some (c t) := by
        intro t ht
        obtain ⟨c', h1, -⟩ := hpos t ht
        simp only [c, h1, Option.getD_some]
      obtain ⟨⟨hl, hh⟩, habs⟩ := tapsBoundsNat_sound bsqN bsqD cn cd fuel n d beta cutoff hbD
        hcd hcn hbeta hcut hclamp hn hd p (by omega) N c hI 8 (le_refl 8) hc acc he
      have b1r : ((acc.2.2.2 + lo : Nat) : ℝ) ≤ (acc.1 : ℝ) := by exact_mod_cast b1
      have b2r : (acc.2.1 : ℝ) ≤ ((acc.2.2.1 + hi : Nat) : ℝ) := by exact_mod_cast b2
      push_cast at b1r b2r
      refine ⟨c, fun t ht => ⟨?_, habs t ht⟩, ?_, ?_⟩
      · obtain ⟨c', h1, h2⟩ := hpos t ht
        rw [hc t ht] at h1
        rw [h2, Option.some.inj h1]
      · rw [div_le_iff₀ hSpos]
        linarith
      · rw [le_div_iff₀ hSpos]
        linarith
    · exact Bool.noConfusion hphase
  · exact Bool.noConfusion hcheck

/-- The floating-point build: the table entries are the coefficients. -/
theorem getsinc_phase_sums_float (bsqN bsqD cn cd fuel lo hi phases : Nat) (beta cutoff : ℝ)
    (hbD : 0 < bsqD) (hcd : 0 < cd) (hcn : 0 < cn) (hbeta : beta * beta = (bsqN : ℝ) / bsqD)
    (hcut : cutoff = (cn : ℝ) / cd) (hclamp : cutoff < 0.999) (hph : phases ≤ 256)
    (hcheck : tableSumsWithin bsqN bsqD cn cd fuel lo hi phases = true) :
    ∃ fuel' tbl,
      getsinc (CMath.mk Real.sin Real.sqrt Real.arctan) libraryBuild header16 fuel'
        (fun _ => SINC_TYPE.flt 0) beta cutoff = some tbl ∧
      ∀ p, p < phases → ∃ c : Nat → ℝ,
        (∀ t, t < 8 → tbl (8 * p + t) = SINC_TYPE.flt (c t)) ∧
        (lo : ℝ) / gainScale ≤ ∑ t ∈ Finset.range 8, c t ∧
        ∑ t ∈ Finset.range 8, c t ≤ (hi : ℝ) / gainScale := by
  obtain ⟨fuel', tbl, htbl, h⟩ := getsinc_phase_sums bsqN bsqD cn cd fuel lo hi phases beta
    cutoff hbD hcd hcn hbeta hcut hclamp hph hcheck libraryBuild (fun _ => SINC_TYPE.flt 0)
  refine ⟨fuel', tbl, htbl, fun p hp => ?_⟩
  obtain ⟨c, h1, h2, h3⟩ := h p hp
  exact ⟨c, fun t ht => (h1 t ht).1, h2, h3⟩

/-- The fixed-point build with a 16-bit `SINC_TYPE` and quantisation shift 15:
the table entries divided by `2^15` sum to within `8 * 2^-16` of the sum of the
coefficients. -/
theorem getsinc_phase_sums_fixed (bsqN bsqD cn cd fuel lo hi phases : Nat) (beta cutoff : ℝ)
    (hbD : 0 < bsqD) (hcd : 0 < cd) (hcn : 0 < cn) (hbeta : beta * beta = (bsqN : ℝ) / bsqD)
    (hcut : cutoff = (cn : ℝ) / cd) (hclamp : cutoff < 0.999) (hph : phases ≤ 256)
    (hcheck : tableSumsWithin bsqN bsqD cn cd fuel lo hi phases = true) :
    ∃ fuel' tbl,
      getsinc (CMath.mk Real.sin Real.sqrt Real.arctan) libraryIntBuild header16 fuel'
        (fun _ => SINC_TYPE.fixed 0) beta cutoff = some tbl ∧
      ∀ p, p < phases → ∃ n : Nat → Int,
        (∀ t, t < 8 → tbl (8 * p + t) = SINC_TYPE.fixed (n t)) ∧
        (lo : ℝ) / gainScale - 1 / 8192
          ≤ ∑ t ∈ Finset.range 8, (n t : ℝ) / 2 ^ header16.SINC_QUANTSHIFT ∧
        ∑ t ∈ Finset.range 8, (n t : ℝ) / 2 ^ header16.SINC_QUANTSHIFT
          ≤ (hi : ℝ) / gainScale + 1 / 8192 := by
  obtain ⟨fuel', tbl, htbl, h⟩ := getsinc_phase_sums bsqN bsqD cn cd fuel lo hi phases beta
    cutoff hbD hcd hcn hbeta hcut hclamp hph hcheck libraryIntBuild (fun _ => SINC_TYPE.fixed 0)
  refine ⟨fuel', tbl, htbl, fun p hp => ?_⟩
  obtain ⟨c, h1, h2, h3⟩ := h p hp
  have hQ : header16.SINC_QUANTSHIFT = 15 := rfl
  have hstore : ∀ v : ℝ, getsincStore libraryIntBuild header16 v
      = SINC_TYPE.fixed (saturate_round (-32768) 32767 (v * 32768)) := by
    intro v
    simp [getsincStore, libraryIntBuild, header16]
  have herr : ∀ t, t < 8 →
      |((saturate_round (-32768) 32767 (c t * 32768) : Int) : ℝ) / 2 ^ 15 - c t|
        ≤ 1 / 65536 := by
    intro t ht
    have hc := (h1 t ht).2
    have hv : |c t * 32768| ≤ 0.999 * 2 ^ 15 := by
      rw [abs_mul, abs_of_pos (by norm_num : (0 : ℝ) < 32768)]
      norm_num
      linarith
    have := saturate_round_error (-32768) 32767 15 (c t * 32768) (by norm_num) hv
      (by norm_num) (by norm_num)
    rw [abs_le] at this ⊢
    obtain ⟨e1, e2⟩ := this
    constructor
    · rw [le_sub_iff_add_le, le_div_iff₀ (by norm_num)]
      norm_num
      linarith
    · rw [sub_le_iff_le_add, div_le_iff₀ (by norm_num)]
      norm_num
      linarith
  have hsum : |∑ t ∈ Finset.range 8,
        ((saturate_round (-32768) 32767 (c t * 32768) : Int) : ℝ) / 2 ^ 15
      - ∑ t ∈ Finset.range 8, c t| ≤ 1 / 8192 := by
    rw [← Finset.sum_sub_distrib]
    refine le_trans (Finset.abs_sum_le_sum_abs _ _) ?_
    refine le_trans (Finset.sum_le_sum (fun t ht => herr t (Finset.mem_range.mp ht))) ?_
    simp
    norm_num
  rw [abs_le] at hsum
  refine ⟨fun t => saturate_round (-32768) 32767 (c t * 32768), fun t ht => ?_, ?_, ?_⟩
  · rw [(h1 t ht).1, hstore]
  · rw [hQ]
    linarith
  · rw [hQ]
    linarith

/-! ## The gain of the phases of the three sinc tables -/

set_option maxRecDepth 100000 in
/-- The check of the upsampling table `getsinc(9.6377, 0.97)`: for each of the
256 phases the bounds of the tap sum lie within `[0.9995, 1.0005]`. -/
theorem gKaiserSinc_sums_checked :
    tableSumsWithin 9288526129 100000000 97 100 40 999500000000000 1000500000000000 256
      = true := by
  decide!

set_option maxRecDepth 100000 in
/-- The check of the downsampling table `getsinc(8.5, 0.5)`: for each of the 256
phases the bounds of the tap sum lie within `[0.979, 0.980]`. -/
theorem gDownsample13x_sums_checked :
    tableSumsWithin 7225 100 1 2 40 979000000000000 980000000000000 256 = true := by
  decide!

set_option maxRecDepth 100000 in
/-- The check of the downsampling table `getsinc(7.0, 0.425)`: for each of the
256 phases the bounds of the tap sum lie within `[0.970, 0.971]`. -/
theorem gDownsample2x_sums_checked :
    tableSumsWithin 49 1 17 40 40 970000000000000 971000000000000 256 = true := by
  decide!

/-- C12 (amended).  With the real `sin`, `sqrt` and `atan`, 256 phases and exact
arithmetic, for every phase `p < 256` the eight tap coefficients of phase `p`
(table entries `8p .. 8p+7`) of the upsampling table `getsinc(9.6377, 0.97)` sum
to within 1e-3 of 1, in the floating-point build and, dequantised by
`2^SINC_QUANTSHIFT`, in the fixed-point build (16-bit `SINC_TYPE`, shift 15).
The two downsampling tables are not within 1e-3 of unity gain at any phase: the
sums of `getsinc(8.5, 0.5)` lie in `[0.979, 0.980]` and those of
`getsinc(7.0, 0.425)` in `[0.970, 0.971]` (dequantised: `[0.978, 0.981]` and
`[0.969, 0.972]`). -/
theorem getsinc_phase_gain :
    (∃ fuel tbl,
      getsinc (CMath.mk Real.sin Real.sqrt Real.arctan) libraryBuild header16 fuel
        (fun _ => SINC_TYPE.flt 0) 9.6377 0.97 = some tbl ∧
      ∀ p, p < 256 → ∃ c : Nat → ℝ,
        (∀ t, t < 8 → tbl (8 * p + t) = SINC_TYPE.flt (c t)) ∧
        |∑ t ∈ Finset.range 8, c t - 1| ≤ 0.001) ∧
    (∃ fuel tbl,
      getsinc (CMath.mk Real.sin Real.sqrt Real.arctan) libraryIntBuild header16 fuel
        (fun _ => SINC_TYPE.fixed 0) 9.6377 0.97 = some tbl ∧
      ∀ p, p < 256 → ∃ n : Nat → Int,
        (∀ t, t < 8 → tbl (8 * p + t) = SINC_TYPE.fixed (n t)) ∧
        |∑ t ∈ Finset.range 8, (n t : ℝ) / 2 ^ header16.SINC_QUANTSHIFT - 1| ≤ 0.001) ∧
    (∃ fuel tbl,
      getsinc (CMath.mk Real.sin Real.sqrt Real.arctan) libraryBuild header16 fuel
        (fun _ => SINC_TYPE.flt 0) 8.5 0.5 = some tbl ∧
      ∀ p, p < 256 → ∃ c : Nat → ℝ,
        (∀ t, t < 8 → tbl (8 * p + t) = SINC_TYPE.flt (c t)) ∧
        0.979 ≤ ∑ t ∈ Finset.range 8, c t ∧ ∑ t ∈ Finset.range 8, c t ≤ 0.980) ∧
    (∃ fuel tbl,
      getsinc (CMath.mk Real.sin Real.sqrt Real.arctan) libraryIntBuild header16 fuel
        (fun _ => SINC_TYPE.fixed 0) 8.5 0.5 = some tbl ∧
      ∀ p, p < 256 → ∃ n : Nat → Int,
        (∀ t, t < 8 → tbl (8 * p + t) = SINC_TYPE.fixed (n t)) ∧
        0.978 ≤ ∑ t ∈ Finset.range 8, (n t : ℝ) / 2 ^ header16.SINC_QUANTSHIFT ∧
        ∑ t ∈ Finset.range 8, (n t : ℝ) / 2 ^ header16.SINC_QUANTSHIFT ≤ 0.981) ∧
    (∃ fuel tbl,
      getsinc (CMath.mk Real.sin Real.sqrt Real.arctan) libraryBuild header16 fuel
        (fun _ => SINC_TYPE.flt 0) 7.0 0.425 = some tbl ∧
      ∀ p, p < 256 → ∃ c : Nat → ℝ,
        (∀ t, t < 8 → tbl (8 * p + t) = SINC_TYPE.flt (c t)) ∧
        0.970 ≤ ∑ t ∈ Finset.range 8, c t ∧ ∑ t ∈ Finset.range 8, c t ≤ 0.971) ∧
    (∃ fuel tbl,
      getsinc (CMath.mk Real.sin Real.sqrt Real.arctan) libraryIntBuild header16 fuel
        (fun _ => SINC_TYPE.fixed 0) 7.0 0.425 = some tbl ∧
      ∀ p, p < 256 → ∃ n : Nat → Int,
        (∀ t, t < 8 → tbl (8 * p + t) = SINC_TYPE.fixed (n t)) ∧
        0.969 ≤ ∑ t ∈ Finset.range 8, (n t : ℝ) / 2 ^ header16.SINC_QUANTSHIFT ∧
        ∑ t ∈ Finset.range 8, (n t : ℝ) / 2 ^ header16.SINC_QUANTSHIFT ≤ 0.972) := by
  have hS := gainScale_cast
  have hb1 : (9.6377 : ℝ) * 9.6377 = ((9288526129 : Nat) : ℝ) / ((100000000 : Nat) : ℝ) := by
    norm_num
  have hc1 : (0.97 : ℝ) = ((97 : Nat) : ℝ) / ((100 : Nat) : ℝ) := by norm_num
  have hb2 : (8.5 : ℝ) * 8.5 = ((7225 : Nat) : ℝ) / ((100 : Nat) : ℝ) := by norm_num
  have hc2 : (0.5 : ℝ) = ((1 : Nat) : ℝ) / ((2 : Nat) : ℝ) := by norm_num
  have hb3 : (7.0 : ℝ) * 7.0 = ((49 : Nat) : ℝ) / ((1 : Nat) : ℝ) := by norm_num
  have hc3 : (0.425 : ℝ) = ((17 : Nat) : ℝ) / ((40 : Nat) : ℝ) := by norm_num
  refine ⟨?_, ?_, ?_, ?_, ?_, ?_⟩
  · obtain ⟨fuel, tbl, htbl, h⟩ := getsinc_phase_sums_float _ _ _ _ _ _ _ 256 9.6377 0.97
      (by norm_num) (by norm_num) (by norm_num) hb1 hc1 (by norm_num) (le_refl _)
      gKaiserSinc_sums_checked
    refine ⟨fuel, tbl, htbl, fun p hp => ?_⟩
    obtain ⟨c, h1, h2, h3⟩ := h p hp
    rw [hS] at h2 h3
    refine ⟨c, h1, ?_⟩
    rw [abs_le]
    norm_num at h2 h3 ⊢
    constructor <;> linarith
  · obtain ⟨fuel, tbl, htbl, h⟩ := getsinc_phase_sums_fixed _ _ _ _ _ _ _ 256 9.6377 0.97
      (by norm_num) (by norm_num) (by norm_num) hb1 hc1 (by norm_num) (le_refl _)
      gKaiserSinc_sums_checked
    refine ⟨fuel, tbl, htbl, fun p hp => ?_⟩
    obtain ⟨n, h1, h2, h3⟩ := h p hp
    rw [hS] at h2 h3
    refine ⟨n, h1, ?_⟩
    rw [abs_le]
    norm_num at h2 h3 ⊢
    constructor <;> linarith
  · obtain ⟨fuel, tbl, htbl, h⟩ := getsinc_phase_sums_float _ _ _ _ _ _ _ 256 8.5 0.5
      (by norm_num) (by norm_num) (by norm_num) hb2 hc2 (by norm_num) (le_refl _)
      gDownsample13x_sums_checked
    refine ⟨fuel, tbl, htbl, fun p hp => ?_⟩
    obtain ⟨c, h1, h2, h3⟩ := h p hp
    rw [hS] at h2 h3
    refine ⟨c, h1, ?_⟩
    norm_num at h2 h3 ⊢
    constructor <;> linarith
  · obtain ⟨fuel, tbl, htbl, h⟩ := getsinc_phase_sums_fixed _ _ _ _ _ _ _ 256 8.5 0.5
      (by norm_num) (by norm_num) (by norm_num) hb2 hc2 (by norm_num) (le_refl _)
      gDownsample13x_sums_checked
    refine ⟨fuel, tbl, htbl, fun p hp => ?_⟩
    obtain ⟨n, h1, h2, h3⟩ := h p hp
    rw [hS] at h2 h3
    refine ⟨n, h1, ?_⟩
    norm_num at h2 h3 ⊢
    constructor <;> linarith
  · obtain ⟨fuel, tbl, htbl, h⟩ := getsinc_phase_sums_float _ _ _ _ _ _ _ 256 7.0 0.425
      (by norm_num) (by norm_num) (by norm_num) hb3 hc3 (by norm_num) (le_refl _)
      gDownsample2x_sums_checked
    refine ⟨fuel, tbl, htbl, fun p hp => ?_⟩
    obtain ⟨c, h1, h2, h3⟩ := h p hp
    rw [hS] at h2 h3
    refine ⟨c, h1, ?_⟩
    norm_num at h2 h3 ⊢
    constructor <;> linarith
  · obtain ⟨fuel, tbl, htbl, h⟩ := getsinc_phase_sums_fixed _ _ _ _ _ _ _ 256 7.0 0.425
      (by norm_num) (by norm_num) (by norm_num) hb3 hc3 (by norm_num) (le_refl _)
      gDownsample2x_sums_checked
    refine ⟨fuel, tbl, htbl, fun p hp => ?_⟩
    obtain ⟨n, h1, h2, h3⟩ := h p hp
    rw [hS] at h2 h3
    refine ⟨n, h1, ?_⟩
    norm_num at h2 h3 ⊢
    constructor <;> linarith

end OpenMPT
